import Mathlib

/-!
WhatsApp Business Platform gateway: shallow embedding and verified properties.

The definitions below transcribe the gateway code of the repository
(`internal/services/auth_service.go`, `internal/api/middleware/auth.go`,
`internal/api/handlers/webhook_handler.go`, `internal/whatsapp/webhooks.go`,
`internal/whatsapp/client.go`)
into pure Lean functions.  Go strings are Lean strings, the database is an explicit
state value, wall-clock time is an explicit argument, and Go's `(value, error)`
results are `Except` values.
-/

set_option autoImplicit false

/-! ## Time (`time.Time`) -/

/-- An instant, as `time.Time` holds it: seconds since the Unix epoch and nanoseconds
within the second. -/
structure Time where
  sec : Int
  nsec : Int
  deriving DecidableEq, Repr

/-- Go `time.Unix(sec, nsec)`: nanoseconds outside `[0, 1e9)` are carried into the seconds. -/
def time_Unix (sec nsec : Int) : Time :=
  if nsec < 0 ∨ 1000000000 ≤ nsec then
    ⟨sec + nsec / 1000000000, nsec % 1000000000⟩
  else ⟨sec, nsec⟩

/-- Go `t.After(u)`: `t` is strictly later than `u`. -/
def Time.After (t u : Time) : Bool :=
  decide (u.sec < t.sec) || (decide (t.sec = u.sec) && decide (u.nsec < t.nsec))

/-! ## Application errors (`pkg/errors`) -/

/-- Modelled from the spec: the error kinds of `pkg/errors` (the package is not among the
sources; section 7 of the specification lists the taxonomy, and the code names
`errors.ErrAPIKeyExpired` and one constructor function per kind). -/
inductive ErrorCode where
  | ErrBadRequest
  | ErrUnauthorized
  | ErrAPIKeyExpired
  | ErrNotFound
  | ErrRateLimit
  | ErrWhatsApp
  | ErrDatabase
  | ErrInternal
  | ErrInvalidPhoneNumber
  deriving DecidableEq, Repr

/-- The `errors.AppError` value: a stable kind, a human-readable message and the HTTP
status (`utils.ErrorJSON` reads `err.StatusCode`). -/
structure AppError where
  Code : ErrorCode
  Message : String
  StatusCode : Nat
  deriving DecidableEq, Repr

/-- The call `errors.NewAppError(code, message, status)`. -/
def NewAppError (code : ErrorCode) (message : String) (status : Nat) : AppError :=
  ⟨code, message, status⟩

/-- Modelled from the spec: `errors.NewUnauthorized(message)` builds the Unauthorized kind
with status 401 (`utils.UnauthorizedJSON` documents it as the 401 error). -/
def NewUnauthorized (message : String) : AppError :=
  NewAppError ErrorCode.ErrUnauthorized message 401

/-- Modelled from the spec: `errors.NewBadRequest(message)` builds the BadRequest kind with
status 400 (`utils.BadRequestJSON` documents it as the 400 error). -/
def NewBadRequest (message : String) : AppError :=
  NewAppError ErrorCode.ErrBadRequest message 400

/-! ## Credentials (`models.APIKey`) and their table -/

/-- The fields of `models.APIKey` that the authenticator reads or writes. -/
structure APIKey where
  ID : String
  Name : String
  KeyHash : String
  KeyPrefix : String
  Permissions : List String
  ExpiresAt : Option Time
  LastUsedAt : Option Time
  deriving DecidableEq, Repr

/-- Modelled from the spec: `APIKey.IsExpired()` of the `models` package (not among the
sources) holds when the expiry timestamp is set and in the past; the current time is
an explicit argument. -/
def APIKey.IsExpired (k : APIKey) (now : Time) : Bool :=
  match k.ExpiresAt with
  | none => false
  | some t => now.After t

/-- The `api_keys` table behind `APIKeyRepository`, together with the error (if any) that
the database reports for a read and for a write. -/
structure APIKeyRepository where
  rows : List APIKey
  findErr : Option String
  updateErr : Option String
  deriving DecidableEq, Repr

/-- The query of `FindByKeyPrefix`: `WHERE key_prefix = ?`, rows in table order. -/
def APIKeyRepository.FindByKeyPrefix (r : APIKeyRepository) (pfx : String) :
    Except String (List APIKey) :=
  match r.findErr with
  | some e => .error e
  | none => .ok (r.rows.filter (fun k => k.KeyPrefix == pfx))

/-- The update of `UpdateLastUsed`: sets `last_used_at` of the rows with the given id to
the current time; returns the database error, if any, and the table afterwards. -/
def APIKeyRepository.UpdateLastUsed (r : APIKeyRepository) (id : String) (now : Time) :
    Option String × APIKeyRepository :=
  match r.updateErr with
  | some e => (some e, r)
  | none =>
    (none, { r with rows := r.rows.map (fun k => if k.ID = id then { k with LastUsedAt := some now } else k) })

/-- The two helpers of `pkg/utils` that `ValidateAPIKey` calls; the package is not among
the sources, so they are parameters of the embedding. -/
structure KeyUtils where
  GetKeyPrefix : String → String
  CompareAPIKey : String → String → Bool

/-! ## `AuthService.ValidateAPIKey` -/

/-- The `for _, apiKey := range apiKeys` loop of `ValidateAPIKey` and the final
`return nil, errors.NewUnauthorized("Invalid API key")`. -/
def ValidateAPIKey.loop (U : KeyUtils) (now : Time) (repo : APIKeyRepository) (rawKey : String) :
    List APIKey → Except AppError APIKey × APIKeyRepository
  | [] => (.error (NewUnauthorized "Invalid API key"), repo)
  | apiKey :: rest =>
    if U.CompareAPIKey apiKey.KeyHash rawKey then
      if apiKey.IsExpired now then
        (.error (NewAppError ErrorCode.ErrAPIKeyExpired "API key has expired" 401), repo)
      else
        (.ok apiKey, (repo.UpdateLastUsed apiKey.ID now).2)
    else ValidateAPIKey.loop U now repo rawKey rest

/-- The method `AuthService.ValidateAPIKey(rawKey)`: result and table afterwards. -/
def ValidateAPIKey (U : KeyUtils) (now : Time) (repo : APIKeyRepository) (rawKey : String) :
    Except AppError APIKey × APIKeyRepository :=
  match repo.FindByKeyPrefix (U.GetKeyPrefix rawKey) with
  | .error _ => (.error (NewUnauthorized "Invalid API key"), repo)
  | .ok apiKeys => ValidateAPIKey.loop U now repo rawKey apiKeys

/-! ## HTTP plumbing (`gin.Context`, `utils.ErrorJSON`) -/

/-- A byte sequence (`[]byte`); every element stands for one byte value. -/
abbrev Bytes := List Nat

/-- The conversion `[]byte(s)` of a string: its UTF-8 bytes. -/
def bytesOfString (s : String) : Bytes :=
  s.toUTF8.data.toList.map UInt8.toNat

/-- What a handler reads from the request: headers and query parameters under their names,
and the result of reading the body (`io.ReadAll`). -/
structure Request where
  headers : List (String × String)
  query : List (String × String)
  body : Except String Bytes

/-- The accessor `c.GetHeader(key)`: the first value stored under the name, `""` when absent. -/
def Request.GetHeader (req : Request) (key : String) : String :=
  match req.headers.find? (fun kv => kv.1 == key) with
  | some kv => kv.2
  | none => ""

/-- The accessor `c.Query(key)`: the first value stored under the name, `""` when absent. -/
def Request.Query (req : Request) (key : String) : String :=
  match req.query.find? (fun kv => kv.1 == key) with
  | some kv => kv.2
  | none => ""

/-- The `utils.ErrorResponse` JSON body. -/
structure ErrorResponse where
  Success : Bool
  Error : AppError
  deriving DecidableEq, Repr

/-- A response body: the error JSON, a plain-text string (`c.String`), or a JSON object of
string fields (`gin.H`). -/
inductive ResponseBody where
  | error (e : ErrorResponse)
  | text (s : String)
  | object (fields : List (String × String))
  deriving DecidableEq, Repr

/-- An HTTP response: status code and body. -/
structure Response where
  status : Nat
  body : ResponseBody
  deriving DecidableEq, Repr

/-- The helper `utils.ErrorJSON(c, err)`: `c.JSON(err.StatusCode, ErrorResponse{false, err})`. -/
def ErrorJSON (err : AppError) : Response :=
  ⟨err.StatusCode, .error ⟨false, err⟩⟩

/-- Go `strings.SplitN(s, " ", 2)`: the text before the first space and the text after it,
or the whole string alone when it has no space. -/
def strings_SplitN2 (s : String) : List String :=
  match s.toList.span (fun c => c != ' ') with
  | (_, []) => [s]
  | (before, _ :: after) => [String.mk before, String.mk after]

/-! ## `middleware.AuthMiddleware` -/

/-- What one run of the middleware leaves behind: the response written (if any), whether the
chain was aborted, the context keys `api_key` and `api_key_id`, whether `c.Next()` ran,
the raw keys passed to `ValidateAPIKey`, and the credential table afterwards. -/
structure AuthOutcome where
  response : Option Response
  aborted : Bool
  api_key : Option APIKey
  api_key_id : Option String
  nextCalled : Bool
  validated : List String
  repo : APIKeyRepository
  deriving DecidableEq, Repr

/-- The three early exits of the middleware: `utils.ErrorJSON(c, err); c.Abort(); return`. -/
def AuthMiddleware.reject (err : AppError) (validated : List String) (repo : APIKeyRepository) :
    AuthOutcome :=
  { response := some (ErrorJSON err), aborted := true, api_key := none, api_key_id := none,
    nextCalled := false, validated := validated, repo := repo }

/-- The handler returned by `AuthMiddleware(authService)`. -/
def AuthMiddleware (U : KeyUtils) (now : Time) (repo : APIKeyRepository) (req : Request) :
    AuthOutcome :=
  let authHeader := req.GetHeader "Authorization"
  if authHeader = "" then
    AuthMiddleware.reject (NewUnauthorized "Authorization header required") [] repo
  else
    let parts := strings_SplitN2 authHeader
    if parts.length ≠ 2 ∨ parts.getD 0 "" ≠ "Bearer" then
      AuthMiddleware.reject
        (NewUnauthorized "Invalid authorization format. Use: Bearer <api_key>") [] repo
    else
      let apiKey := parts.getD 1 ""
      if apiKey = "" then
        AuthMiddleware.reject (NewUnauthorized "API key is empty") [] repo
      else
        match ValidateAPIKey U now repo apiKey with
        | (.error err, repo1) => AuthMiddleware.reject err [apiKey] repo1
        | (.ok keyInfo, repo1) =>
          { response := none, aborted := false, api_key := some keyInfo,
            api_key_id := some keyInfo.ID, nextCalled := true, validated := [apiKey],
            repo := repo1 }

/-! ## Webhook payload types (`internal/whatsapp`) -/

/-- The `text` sub-object of a message. -/
structure TextValue where
  Body : String
  deriving DecidableEq, Repr

/-- The `image`, `document`, `audio` and `video` sub-objects of a message, with the fields
`parseMessageValue` reads from them. -/
structure MediaValue where
  ID : String
  MimeType : String
  Caption : String
  Filename : String
  deriving DecidableEq, Repr

/-- A raw message of a webhook change (`MessageValue`); a nil sub-object is `none`. -/
structure MessageValue where
  ID : String
  From : String
  Timestamp : String
  Type_ : String
  Text : Option TextValue
  Image : Option MediaValue
  Document : Option MediaValue
  Audio : Option MediaValue
  Video : Option MediaValue
  deriving DecidableEq, Repr

/-- The profile of a contact. -/
structure ProfileValue where
  Name : String
  deriving DecidableEq, Repr

/-- A contact of a webhook change (`ContactValue`). -/
structure ContactValue where
  WaID : String
  Profile : ProfileValue
  deriving DecidableEq, Repr

/-- One entry of the `errors` list of a status. -/
structure StatusError where
  Code : Int
  Title : String
  Message : String
  deriving DecidableEq, Repr

/-- A raw status of a webhook change (`StatusValue`). -/
structure StatusValue where
  ID : String
  Status : String
  Timestamp : String
  RecipientID : String
  Errors : List StatusError
  deriving DecidableEq, Repr

/-- The `value` of a change. -/
structure ChangeValue where
  Messages : List MessageValue
  Contacts : List ContactValue
  Statuses : List StatusValue
  deriving DecidableEq, Repr

/-- One change of an entry. -/
structure Change where
  Value : ChangeValue
  deriving DecidableEq, Repr

/-- One entry of the envelope. -/
structure Entry where
  Changes : List Change
  deriving DecidableEq, Repr

/-- The webhook envelope (`WebhookPayload`). -/
structure WebhookPayload where
  Entry : List Entry
  deriving DecidableEq, Repr

/-- The normalized message-received event (`MessageEvent`). -/
structure MessageEvent where
  MessageID : String
  From : String
  Timestamp : Time
  Type_ : String
  ContactName : String
  Content : String
  MediaID : String
  MediaURL : String
  MimeType : String
  Caption : String
  Filename : String
  deriving DecidableEq, Repr

/-- The normalized status-changed event (`StatusEvent`). -/
structure StatusEvent where
  MessageID : String
  Status : String
  Timestamp : Time
  RecipientID : String
  ErrorCode : Int
  ErrorTitle : String
  ErrorMsg : String
  deriving DecidableEq, Repr

/-! ## `strconv.ParseInt(s, 10, 64)` -/

/-- The two causes a `strconv.NumError` can carry. -/
inductive NumErrKind where
  | ErrSyntax
  | ErrRange
  deriving DecidableEq, Repr

/-- Go `strconv.NumError`: the failing function, the input and the cause. -/
structure NumError where
  Func : String
  Num : String
  Err : NumErrKind
  deriving DecidableEq, Repr

/-- The largest `uint64`. -/
def maxUint64 : Nat := 2 ^ 64 - 1

/-- Conversion to `int64`: the value modulo `2^64`, read as a two's-complement number. -/
def int64 (z : Int) : Int := (z + 2 ^ 63) % 2 ^ 64 - 2 ^ 63

/-- The digit loop of `strconv.ParseUint(s, 10, 64)` on the remaining bytes with the
accumulator `n` (a `uint64`): a byte that is not a decimal digit is a syntax error, and
an accumulator that would leave the `uint64` range is a range error with value
`maxUint64`.  In base 10 every byte other than `0`..`9` ends in the syntax error. -/
def strconv_ParseUint.loop (s0 : String) : List Char → Nat → Nat × Option NumError
  | [], n => (n, none)
  | c :: cs, n =>
    if c.isDigit then
      let d := c.toNat - '0'.toNat
      if n ≥ maxUint64 / 10 + 1 then
        (maxUint64, some ⟨"ParseUint", s0, .ErrRange⟩)
      else
        let n10 := n * 10 % 2 ^ 64
        let n1 := (n10 + d) % 2 ^ 64
        if n1 < n10 ∨ n1 > maxUint64 then
          (maxUint64, some ⟨"ParseUint", s0, .ErrRange⟩)
        else strconv_ParseUint.loop s0 cs n1
    else (0, some ⟨"ParseUint", s0, .ErrSyntax⟩)

/-- Go `strconv.ParseUint(s, 10, 64)`: value and error. -/
def strconv_ParseUint (s : String) : Nat × Option NumError :=
  if s = "" then (0, some ⟨"ParseUint", s, .ErrSyntax⟩)
  else strconv_ParseUint.loop s s.toList 0

/-- The part of `strconv.ParseInt(s, 10, 64)` after the sign has been picked off: the rest
goes through `ParseUint`; a syntax error is passed on, and the magnitude `un` (which is
`maxUint64` after a range error) is checked against the cutoff `1 << 63`. -/
def strconv_ParseInt.checked (s0 : String) (neg : Bool) (rest : List Char) : Except NumError Int :=
  let r := strconv_ParseUint (String.mk rest)
  let un := r.1
  let cutoff : Nat := 2 ^ 63
  let syntaxFailure : Bool :=
    match r.2 with
    | some e => e.Err != .ErrRange
    | none => false
  if syntaxFailure then .error ⟨"ParseInt", s0, .ErrSyntax⟩
  else if !neg ∧ un ≥ cutoff then .error ⟨"ParseInt", s0, .ErrRange⟩
  else if neg ∧ un > cutoff then .error ⟨"ParseInt", s0, .ErrRange⟩
  else .ok (if neg then int64 (- int64 un) else int64 un)

/-- Go `strconv.ParseInt(s, 10, 64)`: the empty string is a syntax error; a leading `+` or
`-` is picked off and the rest is converted and range-checked. -/
def strconv_ParseInt (s : String) : Except NumError Int :=
  match s.toList with
  | [] => .error ⟨"ParseInt", s, .ErrSyntax⟩
  | c :: cs =>
    if c = '+' then strconv_ParseInt.checked s false cs
    else if c = '-' then strconv_ParseInt.checked s true cs
    else strconv_ParseInt.checked s false (c :: cs)

/-! ## Event normalizer (`internal/whatsapp/webhooks.go`) -/

/-- The errors of the webhook functions: `fmt.Errorf("invalid timestamp: %w", err)` and
`fmt.Errorf("failed to parse webhook payload: %w", err)`. -/
inductive WebhookError where
  | invalidTimestamp (cause : NumError)
  | parseFailed (cause : String)
  deriving DecidableEq, Repr

/-- The contact loop of `parseMessageValue`: the profile name of the first contact whose
`WaID` equals the sender, `""` when there is none. -/
def parseMessageValue.contactName (sender : String) : List ContactValue → String
  | [] => ""
  | contact :: rest =>
    if contact.WaID = sender then contact.Profile.Name
    else parseMessageValue.contactName sender rest

/-- The function `parseMessageValue(msg, contacts)`. -/
def parseMessageValue (msg : MessageValue) (contacts : List ContactValue) :
    Except WebhookError MessageEvent :=
  match strconv_ParseInt msg.Timestamp with
  | .error err => .error (.invalidTimestamp err)
  | .ok timestamp =>
    let event : MessageEvent :=
      { MessageID := msg.ID, From := msg.From, Timestamp := time_Unix timestamp 0,
        Type_ := msg.Type_, ContactName := "", Content := "", MediaID := "", MediaURL := "",
        MimeType := "", Caption := "", Filename := "" }
    let event := { event with ContactName := parseMessageValue.contactName msg.From contacts }
    let event :=
      if msg.Type_ = "text" then
        match msg.Text with
        | some t => { event with Content := t.Body }
        | none => event
      else if msg.Type_ = "image" then
        match msg.Image with
        | some m => { event with MediaID := m.ID, MimeType := m.MimeType, Caption := m.Caption }
        | none => event
      else if msg.Type_ = "document" then
        match msg.Document with
        | some m =>
          { event with MediaID := m.ID, MimeType := m.MimeType, Caption := m.Caption,
                       Filename := m.Filename }
        | none => event
      else if msg.Type_ = "audio" then
        match msg.Audio with
        | some m => { event with MediaID := m.ID, MimeType := m.MimeType }
        | none => event
      else if msg.Type_ = "video" then
        match msg.Video with
        | some m => { event with MediaID := m.ID, MimeType := m.MimeType, Caption := m.Caption }
        | none => event
      else event
    .ok event

/-- The function `ParseMessageEvent(payload)`: the three nested `range` loops appending to
`events`, with `return nil, err` at the first message that fails. -/
def ParseMessageEvent (payload : WebhookPayload) : Except WebhookError (List MessageEvent) :=
  payload.Entry.foldlM (fun events entry =>
    entry.Changes.foldlM (fun events change =>
      change.Value.Messages.foldlM (fun events msg =>
        match parseMessageValue msg change.Value.Contacts with
        | .error err => .error err
        | .ok event => .ok (events ++ [event])) events) events) []

/-- The function `parseStatusValue(status)`. -/
def parseStatusValue (status : StatusValue) : Except WebhookError StatusEvent :=
  match strconv_ParseInt status.Timestamp with
  | .error err => .error (.invalidTimestamp err)
  | .ok timestamp =>
    let event : StatusEvent :=
      { MessageID := status.ID, Status := status.Status, Timestamp := time_Unix timestamp 0,
        RecipientID := status.RecipientID, ErrorCode := 0, ErrorTitle := "", ErrorMsg := "" }
    let event :=
      match status.Errors with
      | e :: _ => { event with ErrorCode := e.Code, ErrorTitle := e.Title, ErrorMsg := e.Message }
      | [] => event
    .ok event

/-- The function `ParseStatusEvent(payload)`: the three nested `range` loops appending to
`events`, with `return nil, err` at the first status that fails. -/
def ParseStatusEvent (payload : WebhookPayload) : Except WebhookError (List StatusEvent) :=
  payload.Entry.foldlM (fun events entry =>
    entry.Changes.foldlM (fun events change =>
      change.Value.Statuses.foldlM (fun events status =>
        match parseStatusValue status with
        | .error err => .error err
        | .ok event => .ok (events ++ [event])) events) events) []

/-- The function `VerifySignature(body, signature, secret)`; `utils.VerifyHMAC` is its
parameter. -/
def VerifySignature (VerifyHMAC : Bytes → Bytes → String → Bool)
    (body : Bytes) (signature : String) (secret : String) : Bool :=
  VerifyHMAC body (bytesOfString secret) signature

/-- The function `ParseWebhook(body)`; the JSON decoder (`json.Unmarshal` into a
`WebhookPayload`) is its parameter. -/
def ParseWebhook (Unmarshal : Bytes → Except String WebhookPayload) (body : Bytes) :
    Except WebhookError WebhookPayload :=
  match Unmarshal body with
  | .error err => .error (.parseFailed err)
  | .ok payload => .ok payload

/-! ## Webhook handler (`internal/api/handlers/webhook_handler.go`) -/

/-- The configuration held by `WebhookHandler`. -/
structure WebhookHandler where
  verifyToken : String
  webhookSecret : String
  deriving DecidableEq, Repr

/-- The level of a log line. -/
inductive LogLevel where
  | Info
  | Warn
  | Error
  deriving DecidableEq, Repr

/-- A line written to the logger: level and message. -/
structure LogEntry where
  level : LogLevel
  msg : String
  deriving DecidableEq, Repr

/-- The two methods of the business layer the handler calls, over a state `σ` of that
layer; each returns the error text (or `none` for `nil`) and the state afterwards. -/
structure MessageServiceOps (σ : Type) where
  ProcessIncomingMessage : MessageEvent → σ → Option String × σ
  UpdateMessageStatus : String → String → σ → Option String × σ

/-- A call handed to the business layer. -/
inductive BusinessCall where
  | ProcessIncomingMessage (event : MessageEvent)
  | UpdateMessageStatus (whatsappMessageID : String) (status : String)
  deriving DecidableEq, Repr

/-- What one run of a webhook handler leaves behind: the response, the log lines, the calls
handed to the business layer (in order) and the state of that layer afterwards. -/
structure WebhookOutcome (σ : Type) where
  response : Response
  logs : List LogEntry
  handed : List BusinessCall
  svc : σ

/-- The method `VerifyWebhook` (GET): response and log line. -/
def VerifyWebhook (h : WebhookHandler) (req : Request) : Response × List LogEntry :=
  let mode := req.Query "hub.mode"
  let token := req.Query "hub.verify_token"
  let challenge := req.Query "hub.challenge"
  if mode = "subscribe" ∧ token = h.verifyToken then
    (⟨200, .text challenge⟩, [⟨.Info, "Webhook verified successfully"⟩])
  else
    (ErrorJSON (NewUnauthorized "Webhook verification failed"),
      [⟨.Warn, "Webhook verification failed"⟩])

/-- One iteration of `for _, event := range messageEvents`: the call to
`ProcessIncomingMessage`, whose error is logged and otherwise ignored. -/
def ReceiveWebhook.messageStep {σ : Type} (ops : MessageServiceOps σ)
    (acc : List LogEntry × List BusinessCall × σ) (event : MessageEvent) :
    List LogEntry × List BusinessCall × σ :=
  let r := ops.ProcessIncomingMessage event acc.2.2
  let logs :=
    match r.1 with
    | some _ => acc.1 ++ [⟨.Error, "Failed to process incoming message"⟩]
    | none => acc.1
  (logs, acc.2.1 ++ [.ProcessIncomingMessage event], r.2)

/-- One iteration of `for _, event := range statusEvents`: the call to
`UpdateMessageStatus(event.MessageID, event.Status)`, whose error is logged and
otherwise ignored. -/
def ReceiveWebhook.statusStep {σ : Type} (ops : MessageServiceOps σ)
    (acc : List LogEntry × List BusinessCall × σ) (event : StatusEvent) :
    List LogEntry × List BusinessCall × σ :=
  let r := ops.UpdateMessageStatus event.MessageID event.Status acc.2.2
  let logs :=
    match r.1 with
    | some _ => acc.1 ++ [⟨.Error, "Failed to update message status"⟩]
    | none => acc.1
  (logs, acc.2.1 ++ [.UpdateMessageStatus event.MessageID event.Status], r.2)

/-- The part of `ReceiveWebhook` after the signature check: parse the payload, process the
message events, process the status events, answer 200. -/
def ReceiveWebhook.process {σ : Type} (Unmarshal : Bytes → Except String WebhookPayload)
    (ops : MessageServiceOps σ) (body : Bytes) (s : σ) : WebhookOutcome σ :=
  match ParseWebhook Unmarshal body with
  | .error _ =>
    ⟨ErrorJSON (NewBadRequest "Invalid webhook payload"),
      [⟨.Error, "Failed to parse webhook"⟩], [], s⟩
  | .ok payload =>
    let acc0 : List LogEntry × List BusinessCall × σ := ([], [], s)
    let acc1 :=
      match ParseMessageEvent payload with
      | .error _ => (acc0.1 ++ [LogEntry.mk .Error "Failed to parse message events"], acc0.2)
      | .ok messageEvents => messageEvents.foldl (ReceiveWebhook.messageStep ops) acc0
    let acc2 :=
      match ParseStatusEvent payload with
      | .error _ => (acc1.1 ++ [LogEntry.mk .Error "Failed to parse status events"], acc1.2)
      | .ok statusEvents => statusEvents.foldl (ReceiveWebhook.statusStep ops) acc1
    ⟨⟨200, .object [("status", "received")]⟩, acc2.1, acc2.2.1, acc2.2.2⟩

/-- The method `ReceiveWebhook` (POST). -/
def ReceiveWebhook {σ : Type} (VerifyHMAC : Bytes → Bytes → String → Bool)
    (Unmarshal : Bytes → Except String WebhookPayload) (ops : MessageServiceOps σ)
    (h : WebhookHandler) (req : Request) (s : σ) : WebhookOutcome σ :=
  match req.body with
  | .error _ =>
    ⟨ErrorJSON (NewBadRequest "Failed to read request body"),
      [⟨.Error, "Failed to read webhook body"⟩], [], s⟩
  | .ok body =>
    let signature := req.GetHeader "X-Hub-Signature-256"
    if signature ≠ "" ∧ ¬ VerifySignature VerifyHMAC body signature h.webhookSecret then
      ⟨ErrorJSON (NewUnauthorized "Invalid signature"),
        [⟨.Warn, "Webhook signature verification failed"⟩], [], s⟩
    else ReceiveWebhook.process Unmarshal ops body s

/-! ## Signature verification (`utils.VerifyHMAC`) -/

/-- The lower-case hexadecimal digit of a value below 16. -/
def hexDigit (n : Nat) : Char :=
  if n < 10 then Char.ofNat (48 + n) else Char.ofNat (87 + n)

/-- Go `hex.EncodeToString`: two lower-case hexadecimal digits per byte. -/
def hex_EncodeToString (bs : Bytes) : String :=
  String.mk (bs.flatMap (fun b => [hexDigit (b / 16 % 16), hexDigit (b % 16)]))

/-- Go `subtle.ConstantTimeCompare(x, y) == 1`: equal lengths, and the OR of the byte-wise
XORs is zero. -/
def ConstantTimeCompare (x y : Bytes) : Bool :=
  if x.length ≠ y.length then false
  else (List.zipWith (fun a b => a ^^^ b) x y).foldl (fun v d => v ||| d) 0 == 0

/-- The signature header value the provider sends for a body under a secret:
`sha256=` followed by the hexadecimal HMAC-SHA256 of the raw body; the keyed hash
(`hmac.New(sha256.New, key)`) is the parameter `mac key message`. -/
def sign (mac : Bytes → Bytes → Bytes) (body : Bytes) (secret : String) : String :=
  "sha256=" ++ hex_EncodeToString (mac (bytesOfString secret) body)

/-- Modelled from the spec: `utils.VerifyHMAC(message, key, signature)` is not among the
sources.  Section 4.1 of the specification: it computes the keyed hash over the exact
raw body under the shared secret and compares it with the signature carried in the
header (`sha256=<hex>`, section 6) in constant time. -/
def VerifyHMAC (mac : Bytes → Bytes → Bytes) (message key : Bytes) (signature : String) : Bool :=
  ConstantTimeCompare
    (bytesOfString ("sha256=" ++ hex_EncodeToString (mac key message)))
    (bytesOfString signature)

/-! ## Provider client (`internal/whatsapp/client.go`) -/

/-- A JSON value as the client builds it from `map[string]interface{}`, slices and strings.
An object keeps its members in the order in which their keys were first stored. -/
inductive JSONValue where
  | null
  | str (s : String)
  | arr (items : List JSONValue)
  | obj (members : List (String × JSONValue))

/-- Go map assignment `m[k] = v` on the members of an object: an existing key gets the new
value, a new key is added. -/
def mapSet (m : List (String × JSONValue)) (k : String) (v : JSONValue) :
    List (String × JSONValue) :=
  if m.any (fun kv => kv.1 == k) then
    m.map (fun kv => if kv.1 == k then (k, v) else kv)
  else m ++ [(k, v)]

/-- A Go map composite literal: the elements are stored one after the other, so of two
elements with the same key the later one stays. -/
def mapLiteral (elements : List (String × JSONValue)) : List (String × JSONValue) :=
  elements.foldl (fun m kv => mapSet m kv.1 kv.2) []

/-- Go map lookup `m[k]` on the members of an object. -/
def mapGet? (m : List (String × JSONValue)) (k : String) : Option JSONValue :=
  (m.find? (fun kv => kv.1 == k)).map (fun kv => kv.2)

/-- The member of a JSON object under a key; `none` when the key is absent or the value is
no object. -/
def JSONValue.get? : JSONValue → String → Option JSONValue
  | .obj members, k => mapGet? members k
  | _, _ => none

/-- Modelled from the spec: the `MediaType` constant for images (`types.go` is not among
the sources; the kinds are text/image/document/audio/video). -/
def MediaTypeImage : String := "image"

/-- Modelled from the spec: the `MediaType` constant for videos. -/
def MediaTypeVideo : String := "video"

/-- Modelled from the spec: the `MediaType` constant for documents. -/
def MediaTypeDocument : String := "document"

/-- The payload that `SendTextMessage(to, text)` hands to `sendMessage`. -/
def SendTextMessage.payload (to_ text : String) : JSONValue :=
  .obj (mapLiteral
    [("messaging_product", .str "whatsapp"),
     ("recipient_type", .str "individual"),
     ("to", .str to_),
     ("type", .str "text"),
     ("text", .obj (mapLiteral [("body", .str text)]))])

/-- The `mediaObj` map of `SendMediaMessage`: the link, and the caption under the guard
`caption != "" && (image || video || document)`. -/
def SendMediaMessage.mediaObj (mediaURL caption mediaType : String) : List (String × JSONValue) :=
  let mediaObj := mapLiteral [("link", .str mediaURL)]
  if caption ≠ "" ∧ (mediaType = MediaTypeImage ∨ mediaType = MediaTypeVideo
      ∨ mediaType = MediaTypeDocument) then
    mapSet mediaObj "caption" (.str caption)
  else mediaObj

/-- The payload that `SendMediaMessage(to, mediaURL, caption, mediaType)` hands to
`sendMessage`; the last element of the literal is stored under the key
`string(mediaType)`. -/
def SendMediaMessage.payload (to_ mediaURL caption mediaType : String) : JSONValue :=
  .obj (mapLiteral
    [("messaging_product", .str "whatsapp"),
     ("recipient_type", .str "individual"),
     ("to", .str to_),
     ("type", .str mediaType),
     (mediaType, .obj (SendMediaMessage.mediaObj mediaURL caption mediaType))])

/-- The `parameters` slice of `SendTemplateMessage`: `make([]..., len(params))`, whose
elements are nil maps, then `parameters[i] = {"type": "text", "text": param}` for every
index and element of `params`. -/
def SendTemplateMessage.parameters (params : List String) : List JSONValue :=
  params.enum.foldl
    (fun parameters ip =>
      parameters.set ip.1 (.obj (mapLiteral [("type", .str "text"), ("text", .str ip.2)])))
    (List.replicate params.length .null)

/-- The `components` slice of `SendTemplateMessage`: empty, and with one `body` component
appended when `len(params) > 0`. -/
def SendTemplateMessage.components (params : List String) : List JSONValue :=
  let components : List JSONValue := []
  if params.length > 0 then
    components ++ [.obj (mapLiteral
      [("type", .str "body"),
       ("parameters", .arr (SendTemplateMessage.parameters params))])]
  else components

/-- The payload that `SendTemplateMessage(to, templateName, language, params)` hands to
`sendMessage`. -/
def SendTemplateMessage.payload (to_ templateName language : String) (params : List String) :
    JSONValue :=
  .obj (mapLiteral
    [("messaging_product", .str "whatsapp"),
     ("recipient_type", .str "individual"),
     ("to", .str to_),
     ("type", .str "template"),
     ("template", .obj (mapLiteral
        [("name", .str templateName),
         ("language", .obj (mapLiteral [("code", .str language)])),
         ("components", .arr (SendTemplateMessage.components params))]))])

/-- An HTTP response as `resty` returns it: status code and body. -/
structure HTTPResponse where
  StatusCode : Nat
  Body : Bytes
  deriving DecidableEq, Repr

/-- The method `resp.IsError()` of `resty`: the status code is above 399. -/
def HTTPResponse.IsError (resp : HTTPResponse) : Bool :=
  decide (resp.StatusCode > 399)

/-- The `error` member of the provider's structured error body. -/
structure whatsapp.ErrorDetail where
  Code : Int
  Message : String
  Type_ : String
  deriving DecidableEq, Repr

/-- The provider's structured error body (`whatsapp.ErrorResponse`). -/
structure whatsapp.ErrorResponse where
  Error : whatsapp.ErrorDetail
  deriving DecidableEq, Repr

/-- A contact of the acknowledgment. -/
structure ResponseContact where
  Input : String
  WaID : String
  deriving DecidableEq, Repr

/-- A message of the acknowledgment. -/
structure ResponseMessage where
  ID : String
  deriving DecidableEq, Repr

/-- The acknowledgment of a send (`MessageResponse`). -/
structure MessageResponse where
  MessagingProduct : String
  Contacts : List ResponseContact
  Messages : List ResponseMessage
  deriving DecidableEq, Repr

/-- The errors `sendMessage` returns, kept as the constructor of `pkg/errors` that is
called and the text of the error it wraps. -/
inductive ClientError where
  | NewWhatsAppError (err : String)
  | NewInternalError (err : String)
  deriving DecidableEq, Repr

/-- How a Go call ends: with a value, with an error, or in a run-time panic. -/
inductive GoResult (α ε : Type) where
  | ok (value : α)
  | error (err : ε)
  | panic (msg : String)
  deriving DecidableEq, Repr

/-- What `sendMessage` uses of its surroundings: the HTTP call
`c.httpClient.R().SetBody(payload).Post(endpoint)` with the retries of the transport
inside, and `json.Unmarshal` into the two response types. -/
structure ClientDeps where
  Post : String → JSONValue → Except String HTTPResponse
  UnmarshalError : Bytes → Except String whatsapp.ErrorResponse
  UnmarshalMessage : Bytes → Except String MessageResponse

/-- The fields of `Client` that `sendMessage` reads. -/
structure Client where
  phoneNumberID : String
  baseURL : String
  deriving DecidableEq, Repr

/-- The method `Client.sendMessage(payload)`: result and log lines.  The final `Info` line
evaluates `msgResp.Messages[0].ID`, which panics on an empty list. -/
def sendMessage (D : ClientDeps) (c : Client) (payload : JSONValue) :
    GoResult MessageResponse ClientError × List LogEntry :=
  let endpoint := "/" ++ c.phoneNumberID ++ "/messages"
  match D.Post endpoint payload with
  | .error err => (.error (.NewWhatsAppError err), [⟨.Error, "Failed to send message"⟩])
  | .ok resp =>
    if resp.IsError then
      match D.UnmarshalError resp.Body with
      | .ok errResp =>
        (.error (.NewWhatsAppError (errResp.Error.Type_ ++ ": " ++ errResp.Error.Message)),
          [⟨.Error, "WhatsApp API error"⟩])
      | .error _ =>
        (.error (.NewWhatsAppError ("WhatsApp API returned status " ++ toString resp.StatusCode)),
          [⟨.Error, "WhatsApp API error"⟩])
    else
      match D.UnmarshalMessage resp.Body with
      | .error err => (.error (.NewInternalError err), [⟨.Error, "Failed to parse response"⟩])
      | .ok msgResp =>
        match msgResp.Messages with
        | [] => (.panic "index out of range [0] with length 0", [])
        | _ :: _ => (.ok msgResp, [⟨.Info, "Message sent successfully"⟩])

/-- The method `Client.SendTextMessage(to, text)`. -/
def Client.SendTextMessage (D : ClientDeps) (c : Client) (to_ text : String) :
    GoResult MessageResponse ClientError × List LogEntry :=
  sendMessage D c (SendTextMessage.payload to_ text)

/-- The method `Client.SendMediaMessage(to, mediaURL, caption, mediaType)`. -/
def Client.SendMediaMessage (D : ClientDeps) (c : Client) (to_ mediaURL caption mediaType : String) :
    GoResult MessageResponse ClientError × List LogEntry :=
  sendMessage D c (SendMediaMessage.payload to_ mediaURL caption mediaType)

/-- The method `Client.SendTemplateMessage(to, templateName, language, params)`. -/
def Client.SendTemplateMessage (D : ClientDeps) (c : Client) (to_ templateName language : String)
    (params : List String) : GoResult MessageResponse ClientError × List LogEntry :=
  sendMessage D c (SendTemplateMessage.payload to_ templateName language params)

/-! ## Rate limiter (`internal/api/middleware/rate_limit.go`) -/

/-- The zero value of `time.Time`: January 1 of year 1, 00:00:00 UTC. -/
def Time.zero : Time := ⟨-62135596800, 0⟩

/-- Go `t.UnixNano()`, without the `int64` bound: nanoseconds since the Unix epoch. -/
def Time.UnixNano (t : Time) : Int := t.sec * 1000000000 + t.nsec

/-- Go `t.Unix()`: whole seconds since the Unix epoch. -/
def Time.Unix (t : Time) : Int := t.UnixNano / 1000000000

/-- Go `t.Before(u)`. -/
def Time.Before (t u : Time) : Bool := u.After t

/-- Go `t.Sub(u)`: the duration `t - u` in nanoseconds, saturated at the largest and the
smallest `time.Duration`. -/
def Time.Sub (t u : Time) : Int :=
  let d := t.UnixNano - u.UnixNano
  if d > 9223372036854775807 then 9223372036854775807
  else if d < -9223372036854775808 then -9223372036854775808
  else d

/-- Go `t.Add(d)` for a duration of `d` nanoseconds. -/
def Time.Add (t : Time) (d : Int) : Time := time_Unix t.sec (t.nsec + d)

/-- The state of a `rate.Limiter` of `golang.org/x/time/rate`: the limit in tokens per
second and the tokens held (both `float64` in Go, exact rationals here), the burst, and the
time of the last update. -/
structure rate.Limiter where
  limit : ℚ
  burst : Int
  tokens : ℚ
  last : Time
  deriving DecidableEq, Repr

/-- Go `rate.NewLimiter(r, b)`: no tokens yet and the zero time as last update. -/
def rate.NewLimiter (r : ℚ) (b : Int) : rate.Limiter := ⟨r, b, 0, Time.zero⟩

/-- The method `advance(t)` of `rate.Limiter`: the tokens held at time `t`, which are the
tokens held plus the elapsed seconds times the limit, capped at the burst. -/
def rate.Limiter.advance (lim : rate.Limiter) (t : Time) : ℚ :=
  let last := if t.Before lim.last then t else lim.last
  let elapsed := t.Sub last
  let delta : ℚ := if lim.limit ≤ 0 then 0 else ((elapsed : ℚ) / 1000000000) * lim.limit
  let tokens := lim.tokens + delta
  if tokens > (lim.burst : ℚ) then (lim.burst : ℚ) else tokens

/-- The method `Allow()` of `rate.Limiter` at time `now`, that is `reserveN(now, 1, 0).ok`:
one token is taken from the advanced bucket; the request is admitted when the burst is at
least one and the wait for the missing tokens, cut to whole nanoseconds, is zero; the state
is updated only then.  An infinite limit does not occur with rational limits. -/
def rate.Limiter.Allow (lim : rate.Limiter) (now : Time) : Bool × rate.Limiter :=
  if lim.limit = 0 then
    if lim.burst ≥ 1 then (true, { lim with burst := lim.burst - 1 })
    else (false, lim)
  else
    let tokens := lim.advance now - 1
    let waitIsZero : Bool :=
      if tokens < 0 then
        if lim.limit ≤ 0 then false
        else decide (Rat.floor (1000000000 * (-tokens / lim.limit)) ≤ 0)
      else true
    if 1 ≤ lim.burst ∧ waitIsZero = true then
      (true, { lim with last := now, tokens := tokens })
    else (false, lim)

/-- The struct `RateLimiter`: the map of limiters per key, with the rate and the burst for
new limiters. -/
structure RateLimiter where
  limiters : List (String × rate.Limiter)
  rate : ℚ
  burst : Int
  deriving DecidableEq, Repr

/-- The function `NewRateLimiter(requestsPerMinute)`: rate `rate.Limit(r) / 60`, burst
`r / 10` in integer division. -/
def NewRateLimiter (requestsPerMinute : Int) : RateLimiter :=
  ⟨[], (requestsPerMinute : ℚ) / 60, Int.tdiv requestsPerMinute 10⟩

/-- The map lookup `rl.limiters[key]`. -/
def RateLimiter.lookup (rl : RateLimiter) (key : String) : Option rate.Limiter :=
  (rl.limiters.find? (fun kv => kv.1 == key)).map (fun kv => kv.2)

/-- The method `getLimiter(key)`: the limiter stored under the key, or a new limiter with
the configured rate and burst that is stored under the key. -/
def RateLimiter.getLimiter (rl : RateLimiter) (key : String) : rate.Limiter × RateLimiter :=
  match rl.lookup key with
  | some limiter => (limiter, rl)
  | none =>
    let limiter := rate.NewLimiter rl.rate rl.burst
    (limiter, { rl with limiters := rl.limiters ++ [(key, limiter)] })

/-- The limiters are held by pointer: the state a call of `Allow` leaves in the limiter of a
key is the state found under that key afterwards. -/
def RateLimiter.put (rl : RateLimiter) (key : String) (lim : rate.Limiter) : RateLimiter :=
  { rl with limiters := rl.limiters.map (fun kv => if kv.1 == key then (key, lim) else kv) }

/-- Go `string(rune(n))` for an integer `n`: the conversion to `rune` keeps the low 32 bits
as a signed number, and the conversion to `string` gives the UTF-8 text of that code point,
or of U+FFFD when it is no valid code point. -/
def go_string_rune (n : Int) : String :=
  let r : Int := (n + 2147483648) % 4294967296 - 2147483648
  if 0 ≤ r ∧ Nat.isValidChar r.toNat then String.singleton (Char.ofNat r.toNat)
  else String.singleton (Char.ofNat 65533)

/-- What one run of the rate-limit middleware leaves behind: the response headers set, the
response written (if any), whether the chain was aborted, whether `c.Next()` ran, and the
limiter map afterwards. -/
structure RateLimitOutcome where
  headers : List (String × String)
  response : Option Response
  aborted : Bool
  nextCalled : Bool
  limiter : RateLimiter
  deriving DecidableEq, Repr

/-- The handler returned by `RateLimitMiddleware(requestsPerMinute)`, on the limiter map it
holds (initially `NewRateLimiter(requestsPerMinute)`), for a request with the context key
`api_key_id` (if set) and the client IP, at time `now`.  The error built by
`errors.NewRateLimitError()` is a parameter. -/
def RateLimitMiddleware (NewRateLimitError : AppError) (requestsPerMinute : Int)
    (limiter : RateLimiter) (apiKeyID : Option String) (clientIP : String) (now : Time) :
    RateLimitOutcome :=
  let key :=
    match apiKeyID with
    | some id => id
    | none => clientIP
  let got := limiter.getLimiter key
  let allowed := got.1.Allow now
  let limiter1 := got.2.put key allowed.2
  if !allowed.1 then
    { headers :=
        [("X-RateLimit-Limit", go_string_rune requestsPerMinute),
         ("X-RateLimit-Remaining", "0"),
         ("X-RateLimit-Reset", go_string_rune (now.Add 60000000000).Unix)],
      response := some (ErrorJSON NewRateLimitError),
      aborted := true, nextCalled := false, limiter := limiter1 }
  else
    { headers := [], response := none, aborted := false, nextCalled := true,
      limiter := limiter1 }

/-! ## Transport policy of the provider client (`NewClient`, `resty`) -/

/-- The settings of the `resty` client that `NewClient` makes: base URL, the two default
headers, the timeout and the retry wait times in nanoseconds, the retry count, and the
retry conditions added with `AddRetryCondition`. -/
structure RestyClient where
  BaseURL : String
  Authorization : String
  ContentType : String
  Timeout : Int
  RetryCount : Nat
  RetryWaitTime : Int
  RetryMaxWaitTime : Int
  RetryConditions : List (Option HTTPResponse → Option String → Bool)

/-- The struct `Config` of the client, without the logger. -/
structure Config where
  APIToken : String
  PhoneNumberID : String
  APIBaseURL : String
  APIVersion : String
  deriving DecidableEq, Repr

/-- The function `NewClient(config)`: the client and the `resty` client it holds. -/
def NewClient (config : Config) : Except String (Client × RestyClient) :=
  if config.APIToken = "" then .error "API token is required"
  else if config.PhoneNumberID = "" then .error "phone number ID is required"
  else
    let baseURL := if config.APIBaseURL = "" then "https://graph.facebook.com" else config.APIBaseURL
    let apiVersion := if config.APIVersion = "" then "v18.0" else config.APIVersion
    .ok (⟨config.PhoneNumberID, baseURL ++ "/" ++ apiVersion ++ "/" ++ config.PhoneNumberID⟩,
         { BaseURL := baseURL ++ "/" ++ apiVersion,
           Authorization := "Bearer " ++ config.APIToken,
           ContentType := "application/json",
           Timeout := 30 * 1000000000,
           RetryCount := 3,
           RetryWaitTime := 1 * 1000000000,
           RetryMaxWaitTime := 5 * 1000000000,
           RetryConditions := [] })

/-- The retry decision of `resty` after one attempt: by default an attempt is retried when
it ended in an error (no response); when retry conditions are registered they are asked in
turn and decide instead. -/
def resty_needsRetry (conditions : List (Option HTTPResponse → Option String → Bool))
    (r : Except String HTTPResponse) : Bool :=
  match conditions with
  | [] =>
    match r with
    | .error _ => true
    | .ok _ => false
  | _ :: _ =>
    match r with
    | .error e => conditions.any (fun cond => cond none (some e))
    | .ok resp => conditions.any (fun cond => cond (some resp) none)

/-- The loop of `resty.Backoff`, `for attempt := 0; attempt <= maxRetries; attempt++`:
`operation k` is the outcome of the outbound call number `k`; the loop ends with the first
attempt that needs no retry, or with the last permitted attempt.  The result is the final
outcome and the number of outbound calls made. -/
def resty_Backoff (conditions : List (Option HTTPResponse → Option String → Bool))
    (operation : Nat → Except String HTTPResponse) :
    (retriesLeft : Nat) → (attempt : Nat) → Except String HTTPResponse × Nat
  | 0, attempt => (operation attempt, attempt + 1)
  | retriesLeft + 1, attempt =>
    if resty_needsRetry conditions (operation attempt) then
      resty_Backoff conditions operation retriesLeft (attempt + 1)
    else (operation attempt, attempt + 1)

/-- The call `c.httpClient.R().SetBody(payload).Post(endpoint)` on a `resty` client:
`outbound k endpoint payload` is what the outbound call number `k` of this request gets. -/
def RestyClient.Post (rc : RestyClient)
    (outbound : Nat → String → JSONValue → Except String HTTPResponse)
    (endpoint : String) (payload : JSONValue) : Except String HTTPResponse × Nat :=
  resty_Backoff rc.RetryConditions (fun k => outbound k endpoint payload) rc.RetryCount 0

/-- The surroundings of `sendMessage` for a client made by `NewClient`: the HTTP call goes
through the `resty` client with its retry settings. -/
def RestyClient.deps (rc : RestyClient)
    (outbound : Nat → String → JSONValue → Except String HTTPResponse)
    (UnmarshalError : Bytes → Except String whatsapp.ErrorResponse)
    (UnmarshalMessage : Bytes → Except String MessageResponse) : ClientDeps :=
  ⟨fun endpoint payload => (rc.Post outbound endpoint payload).1, UnmarshalError, UnmarshalMessage⟩

/-! ## Message service (`internal/services/message_service.go`) and its repositories -/

/-- The columns of `models.Contact` the service reads or writes. -/
structure Contact where
  PhoneNumber : String
  Name : String
  LastMessageAt : Option Time
  UpdatedAt : Option Time
  MessageCount : Int
  UnreadCount : Int
  deriving DecidableEq, Repr

/-- The columns of `models.Message` the service writes; the metadata map is kept as its
members. -/
structure Message where
  WhatsAppMessageID : String
  FromNumber : String
  ToNumber : String
  Direction : String
  MessageType : String
  Content : String
  MediaURL : String
  MediaMimeType : String
  Status : String
  Timestamp : Time
  Metadata : List (String × JSONValue)

/-- The local store: the `contacts` and `messages` tables, with the error (if any) that the
database reports for an operation on each. -/
structure Store where
  contacts : List Contact
  messages : List Message
  contactErr : Option String
  messageErr : Option String

/-- The method `ContactRepository.GetOrCreate(phone)` (`FirstOrCreate`): the first
contact with the phone number, or a new contact with that phone number, which is
inserted. -/
def Store.GetOrCreate (st : Store) (phone : String) : Except String Contact × Store :=
  match st.contactErr with
  | some e => (.error e, st)
  | none =>
    match st.contacts.find? (fun c => c.PhoneNumber == phone) with
    | some c => (.ok c, st)
    | none =>
      let c : Contact := ⟨phone, "", none, none, 0, 0⟩
      (.ok c, { st with contacts := st.contacts ++ [c] })

/-- The method `MessageRepository.Create(message)`: the error, if any, and the store
afterwards. -/
def Store.CreateMessage (st : Store) (m : Message) : Option String × Store :=
  match st.messageErr with
  | some e => (some e, st)
  | none => (none, { st with messages := st.messages ++ [m] })

/-- The method `ContactRepository.UpdateLastMessage(phone, timestamp)` at time `now`. -/
def Store.UpdateLastMessage (st : Store) (phone : String) (timestamp now : Time) :
    Option String × Store :=
  match st.contactErr with
  | some e => (some e, st)
  | none =>
    (none, { st with contacts := st.contacts.map (fun c =>
      if c.PhoneNumber = phone then
        { c with LastMessageAt := some timestamp, UpdatedAt := some now }
      else c) })

/-- The method `ContactRepository.IncrementMessageCount(phone, delta)`. -/
def Store.IncrementMessageCount (st : Store) (phone : String) (delta : Int) :
    Option String × Store :=
  match st.contactErr with
  | some e => (some e, st)
  | none =>
    (none, { st with contacts := st.contacts.map (fun c =>
      if c.PhoneNumber = phone then { c with MessageCount := c.MessageCount + delta }
      else c) })

/-- The functions of `pkg/validator` the service calls (the package is not among the
sources); each returns the error text, or `none` for `nil`. -/
structure Validator where
  ValidatePhoneNumber : String → Option String
  ValidateNotEmpty : String → String → Option String
  ValidateURL : String → Option String
  ValidateMessageType : String → Option String

/-- The errors the send methods return, kept as the constructor of `pkg/errors` that is
called with its argument; an error of the provider client is passed on as it is. -/
inductive ServiceError where
  | NewInvalidPhoneNumberError (phone : String)
  | NewBadRequest (message : String)
  | NewDatabaseError (err : String)
  | client (err : ClientError)
  deriving DecidableEq, Repr

/-- What one send leaves behind: how the call ended, the store afterwards, and the payloads
handed to the provider client (in order). -/
structure SendOutcome where
  result : GoResult Message ServiceError
  store : Store
  sent : List JSONValue

/-- Modelled from the spec: the constant `models.MessageStatusSent` (the `models` package
is not among the sources; the status of a new outbound record is `sent`). -/
def MessageStatusSent : String := "sent"

/-- Modelled from the spec: the constant `models.MessageTypeText`. -/
def MessageTypeText : String := "text"

/-- Modelled from the spec: the constant `models.MessageTypeTemplate`. -/
def MessageTypeTemplate : String := "template"

/-- The part the three send methods have in common, after their validations: get or create
the contact, call the provider client with the payload, build the message record from
`resp.Messages[0].ID` and `resp.Contacts[0].Input` (each index panics on an empty list),
store it, and update the contact (errors of the two updates are dropped).  `build` fills
the fields that differ between the kinds into the record.  Log lines are left out. -/
def MessageService.deliver (D : ClientDeps) (c : Client) (now : Time) (st : Store)
    (phone : String) (payload : JSONValue) (build : Message → Message) : SendOutcome :=
  match st.GetOrCreate phone with
  | (.error err, st1) => ⟨.error (.NewDatabaseError err), st1, []⟩
  | (.ok _, st1) =>
    match (sendMessage D c payload).1 with
    | .panic msg => ⟨.panic msg, st1, [payload]⟩
    | .error err => ⟨.error (.client err), st1, [payload]⟩
    | .ok resp =>
      match resp.Messages with
      | [] => ⟨.panic "index out of range [0] with length 0", st1, [payload]⟩
      | first :: _ =>
        match resp.Contacts with
        | [] => ⟨.panic "index out of range [0] with length 0", st1, [payload]⟩
        | contact :: _ =>
          let message : Message := build
            { WhatsAppMessageID := first.ID, FromNumber := contact.Input, ToNumber := phone,
              Direction := "outbound", MessageType := "", Content := "", MediaURL := "",
              MediaMimeType := "", Status := MessageStatusSent, Timestamp := now,
              Metadata := [] }
          match st1.CreateMessage message with
          | (some err, st2) => ⟨.error (.NewDatabaseError err), st2, [payload]⟩
          | (none, st2) =>
            let st3 := (st2.UpdateLastMessage phone message.Timestamp now).2
            let st4 := (st3.IncrementMessageCount phone 1).2
            ⟨.ok message, st4, [payload]⟩

/-- The method `MessageService.SendTextMessage(phone, content)`. -/
def MessageService.SendTextMessage (V : Validator) (D : ClientDeps) (c : Client) (now : Time)
    (st : Store) (phone content : String) : SendOutcome :=
  match V.ValidatePhoneNumber phone with
  | some _ => ⟨.error (.NewInvalidPhoneNumberError phone), st, []⟩
  | none =>
    match V.ValidateNotEmpty content "content" with
    | some err => ⟨.error (.NewBadRequest err), st, []⟩
    | none =>
      MessageService.deliver D c now st phone (SendTextMessage.payload phone content)
        (fun m => { m with MessageType := MessageTypeText, Content := content })

/-- The method `MessageService.SendMediaMessage(phone, mediaURL, caption, mediaType)`. -/
def MessageService.SendMediaMessage (V : Validator) (D : ClientDeps) (c : Client) (now : Time)
    (st : Store) (phone mediaURL caption mediaType : String) : SendOutcome :=
  match V.ValidatePhoneNumber phone with
  | some _ => ⟨.error (.NewInvalidPhoneNumberError phone), st, []⟩
  | none =>
    match V.ValidateURL mediaURL with
    | some err => ⟨.error (.NewBadRequest ("invalid media URL: " ++ err)), st, []⟩
    | none =>
      match V.ValidateMessageType mediaType with
      | some err => ⟨.error (.NewBadRequest err), st, []⟩
      | none =>
        MessageService.deliver D c now st phone
          (SendMediaMessage.payload phone mediaURL caption mediaType)
          (fun m => { m with MessageType := mediaType, Content := caption,
                             MediaURL := mediaURL })

/-- The method `MessageService.SendTemplateMessage(phone, templateName, language,
params)`; the phone number is the only input it validates. -/
def MessageService.SendTemplateMessage (V : Validator) (D : ClientDeps) (c : Client)
    (now : Time) (st : Store) (phone templateName language : String) (params : List String) :
    SendOutcome :=
  match V.ValidatePhoneNumber phone with
  | some _ => ⟨.error (.NewInvalidPhoneNumberError phone), st, []⟩
  | none =>
    MessageService.deliver D c now st phone
      (SendTemplateMessage.payload phone templateName language params)
      (fun m => { m with MessageType := MessageTypeTemplate,
                         Content := "Template: " ++ templateName,
                         Metadata := mapLiteral
                           [("template_name", .str templateName),
                            ("language", .str language),
                            ("parameters", .arr (params.map JSONValue.str))] })

/-! ## Specification-side definitions -/

/-- Specification side: the raw messages of an envelope in source order (entry order, then
change order, then message order), each paired with the contacts of its change. -/
def sourceMessages (payload : WebhookPayload) : List (MessageValue × List ContactValue) :=
  payload.Entry.flatMap (fun entry =>
    entry.Changes.flatMap (fun change =>
      change.Value.Messages.map (fun msg => (msg, change.Value.Contacts))))

/-- Specification side: the raw statuses of an envelope in source order. -/
def sourceStatuses (payload : WebhookPayload) : List StatusValue :=
  payload.Entry.flatMap (fun entry =>
    entry.Changes.flatMap (fun change => change.Value.Statuses))

/-- Specification side: apply a fallible function to every element in order; the result is
the list of all results, or the first error and nothing else. -/
def allOrFirstError {α β ε : Type} (f : α → Except ε β) : List α → Except ε (List β)
  | [] => .ok []
  | x :: xs =>
    match f x with
    | .error e => .error e
    | .ok y =>
      match allOrFirstError f xs with
      | .error e => .error e
      | .ok ys => .ok (y :: ys)

/-- Specification side: the number written by a string of decimal digits that follows an
accumulated value `a` (unbounded arithmetic). -/
def decimalValueFrom (a : Nat) (ds : List Char) : Nat :=
  ds.foldl (fun v c => v * 10 + (c.toNat - 48)) a

/-- Specification side: the number written by a sign and a digit string, when there is at
least one digit, every character is a decimal digit, and the number lies between `-2^63`
and `2^63 - 1`; `none` otherwise. -/
def decimalReading (neg : Bool) (ds : List Char) : Option Int :=
  if ds ≠ [] ∧ ds.all Char.isDigit = true then
    let v : Int := if neg then - (decimalValueFrom 0 ds : Int) else (decimalValueFrom 0 ds : Int)
    if -9223372036854775808 ≤ v ∧ v ≤ 9223372036854775807 then some v else none
  else none

/-- Specification side: the reading of a base-10 64-bit integer string: an optional sign,
then at least one decimal digit and nothing else, writing a number between `-2^63` and
`2^63 - 1`; `none` for every other string. -/
def int64OfDecimal? (s : String) : Option Int :=
  match s.toList with
  | '-' :: ds => decimalReading true ds
  | '+' :: ds => decimalReading false ds
  | ds => decimalReading false ds

/-- Specification side: two envelopes have the same entries and changes with the same
statuses in every change; they differ at most in the messages and contacts. -/
def SameStatuses (p q : WebhookPayload) : Prop :=
  List.Forall₂ (fun (e1 e2 : Entry) =>
    List.Forall₂ (fun (c1 c2 : Change) => c1.Value.Statuses = c2.Value.Statuses)
      e1.Changes e2.Changes) p.Entry q.Entry

/-- Specification side: two envelopes have the same entries and changes with the same
messages and contacts in every change; they differ at most in the statuses. -/
def SameMessages (p q : WebhookPayload) : Prop :=
  List.Forall₂ (fun (e1 e2 : Entry) =>
    List.Forall₂ (fun (c1 c2 : Change) =>
      c1.Value.Messages = c2.Value.Messages ∧ c1.Value.Contacts = c2.Value.Contacts)
      e1.Changes e2.Changes) p.Entry q.Entry

/-- Specification side: the first contact whose `WaID` equals the sender, if any. -/
def firstContactOf (sender : String) (contacts : List ContactValue) : Option ContactValue :=
  contacts.find? (fun c => c.WaID == sender)

/-- Specification side: the declared type of a message is none of the five known types, or
the sub-object that the declared type names is missing. -/
def declaredContentMissing (msg : MessageValue) : Prop :=
  (msg.Type_ ≠ "text" ∧ msg.Type_ ≠ "image" ∧ msg.Type_ ≠ "document" ∧ msg.Type_ ≠ "audio"
      ∧ msg.Type_ ≠ "video")
    ∨ (msg.Type_ = "text" ∧ msg.Text = none)
    ∨ (msg.Type_ = "image" ∧ msg.Image = none)
    ∨ (msg.Type_ = "document" ∧ msg.Document = none)
    ∨ (msg.Type_ = "audio" ∧ msg.Audio = none)
    ∨ (msg.Type_ = "video" ∧ msg.Video = none)

/-- Specification side: the event of a message before any content is extracted: id, sender,
type, timestamp of `n` seconds and contact name, with all content fields empty. -/
def contentFreeEvent (msg : MessageValue) (contacts : List ContactValue) (n : Int) :
    MessageEvent :=
  { MessageID := msg.ID, From := msg.From, Timestamp := time_Unix n 0, Type_ := msg.Type_,
    ContactName := parseMessageValue.contactName msg.From contacts, Content := "",
    MediaID := "", MediaURL := "", MimeType := "", Caption := "", Filename := "" }

/-- Specification side: the requests of one identity, issued at the given times, go through
the rate-limit middleware one after the other; for each request the result tells whether
the next handler ran and how many tokens the bucket of the identity held afterwards. -/
def admissions (err : AppError) (requestsPerMinute : Int) (key : String) :
    RateLimiter → List Time → List (Bool × Option ℚ)
  | _, [] => []
  | rl, t :: ts =>
    let out := RateLimitMiddleware err requestsPerMinute rl (some key) "" t
    (out.nextCalled, (out.limiter.lookup key).map (fun lim => lim.tokens))
      :: admissions err requestsPerMinute key out.limiter ts

/-- Specification side: a validation that compares the raw key against every stored
credential, in table order, instead of only those that share its prefix. -/
def ValidateAPIKeyFullScan (U : KeyUtils) (now : Time) (repo : APIKeyRepository)
    (rawKey : String) : Except AppError APIKey × APIKeyRepository :=
  match repo.findErr with
  | some _ => (.error (NewUnauthorized "Invalid API key"), repo)
  | none => ValidateAPIKey.loop U now repo rawKey repo.rows

/-- Specification side: the state of the business layer after one call has been made on it;
the answer of the call (error or not) is dropped. -/
def BusinessCall.runOn {σ : Type} (ops : MessageServiceOps σ) (s : σ) : BusinessCall → σ
  | .ProcessIncomingMessage event => (ops.ProcessIncomingMessage event s).2
  | .UpdateMessageStatus whatsappMessageID status =>
    (ops.UpdateMessageStatus whatsappMessageID status s).2

/-! ## Concrete inputs used to exercise the theorems -/

/-- Sample helpers: the prefix is the first eight characters, and a hash matches the raw key
it is equal to. -/
def sampleUtils : KeyUtils :=
  ⟨fun raw => String.mk (raw.toList.take 8), fun hash raw => hash == raw⟩

/-- A sample instant. -/
def sampleNow : Time := ⟨1700000000, 0⟩

/-- A sample credential without expiry. -/
def sampleKeyA : APIKey :=
  ⟨"id-a", "first", "wba_live_AAAA", "wba_live", ["messages:send"], none, none⟩

/-- A sample credential that expired before `sampleNow`. -/
def sampleKeyB : APIKey :=
  ⟨"id-b", "second", "wba_live_BBBB", "wba_live", [], some ⟨1600000000, 0⟩, none⟩

/-- A sample credential under another prefix. -/
def sampleKeyC : APIKey :=
  ⟨"id-c", "third", "wba_test_CCCC", "wba_test", [], some ⟨1800000000, 0⟩, none⟩

/-- A sample credential table. -/
def sampleRepo : APIKeyRepository :=
  ⟨[sampleKeyB, sampleKeyC, sampleKeyA], none, none⟩

/-- A sample request that carries the given `Authorization` header. -/
def sampleAuthRequest (auth : String) : Request :=
  ⟨[("Authorization", auth)], [], .ok []⟩

/-- A sample request without any header. -/
def sampleBareRequest : Request :=
  ⟨[], [], .ok []⟩

/-- A sample business layer that only counts the calls it receives. -/
def sampleOps : MessageServiceOps Nat :=
  ⟨fun _ n => (none, n + 1), fun _ _ n => (none, n + 1)⟩

/-- A sample handler configuration. -/
def sampleHandler : WebhookHandler :=
  ⟨"verify-me", "s3cret"⟩

/-- A sample decoder that accepts every body as the empty envelope. -/
def sampleUnmarshal : Bytes → Except String WebhookPayload :=
  fun _ => .ok ⟨[]⟩

/-- A sample webhook POST with the given signature header value. -/
def samplePost (signature : String) : Request :=
  ⟨[("X-Hub-Signature-256", signature)], [], .ok [123, 125]⟩

/-- A sample webhook GET with the given mode, token and challenge. -/
def sampleGet (mode token challenge : String) : Request :=
  ⟨[], [("hub.mode", mode), ("hub.verify_token", token), ("hub.challenge", challenge)], .ok []⟩

/-- A sample raw text message. -/
def sampleMessage : MessageValue :=
  ⟨"wamid.A1", "15551234567", "1700000000", "text", some ⟨"hello"⟩, none, none, none, none⟩

/-- A sample raw message whose timestamp is no number. -/
def sampleBadMessage : MessageValue :=
  ⟨"wamid.A2", "15551234567", "yesterday", "text", some ⟨"again"⟩, none, none, none, none⟩

/-- A sample contact of the sender. -/
def sampleContact : ContactValue :=
  ⟨"15551234567", ⟨"Asha"⟩⟩

/-- A sample raw status. -/
def sampleStatus : StatusValue :=
  ⟨"wamid.B2", "delivered", "1700000050", "15551234567", []⟩

/-- A sample envelope: one entry with one change that holds one text message, its contact
and one status. -/
def samplePayload : WebhookPayload :=
  ⟨[⟨[⟨⟨[sampleMessage], [sampleContact], [sampleStatus]⟩⟩]⟩]⟩

/-- A sample envelope with two entries; the second message has a malformed timestamp. -/
def sampleBadPayload : WebhookPayload :=
  ⟨[⟨[⟨⟨[sampleMessage], [sampleContact], []⟩⟩]⟩,
    ⟨[⟨⟨[sampleBadMessage], [], [sampleStatus]⟩⟩]⟩]⟩

/-- The sample envelope `sampleBadPayload` with its messages and contacts removed. -/
def sampleStatusOnlyPayload : WebhookPayload :=
  ⟨[⟨[⟨⟨[], [], []⟩⟩]⟩, ⟨[⟨⟨[], [], [sampleStatus]⟩⟩]⟩]⟩

/-- A sample raw status whose timestamp is no number. -/
def sampleBadStatus : StatusValue :=
  ⟨"wamid.B3", "read", "17e8", "15551234567", []⟩

/-- A sample envelope with a well-formed message and a malformed status. -/
def sampleBadStatusPayload : WebhookPayload :=
  ⟨[⟨[⟨⟨[sampleMessage], [sampleContact], [sampleBadStatus]⟩⟩]⟩]⟩

/-- A sample audio message that also carries a text and an image sub-object; the audio
sub-object has a caption and a file name of its own. -/
def sampleAudioMessage : MessageValue :=
  ⟨"wamid.A3", "15551234567", "1700000100", "audio", some ⟨"ignored"⟩,
    some ⟨"img-1", "image/png", "a picture", ""⟩, none,
    some ⟨"aud-1", "audio/ogg", "spoken", "voice.ogg"⟩, none⟩

/-- A sample message of a type the normalizer does not know. -/
def sampleStickerMessage : MessageValue :=
  ⟨"wamid.A4", "15551234567", "1700000200", "sticker", some ⟨"ignored"⟩, none, none, none, none⟩

/-- A sample envelope: a text message, a sticker message and another text message in two
changes; the second change lists the sender under another name. -/
def sampleMixedPayload : WebhookPayload :=
  ⟨[⟨[⟨⟨[sampleMessage, sampleStickerMessage], [sampleContact], []⟩⟩,
      ⟨⟨[sampleMessage], [⟨"15550000000", ⟨"Other"⟩⟩, ⟨"15551234567", ⟨"Asha K"⟩⟩,
          ⟨"15551234567", ⟨"Late"⟩⟩], []⟩⟩]⟩]⟩

/-- A sample client. -/
def sampleClient : Client :=
  ⟨"106540352242922", "https://graph.facebook.com/v18.0/106540352242922"⟩

/-- Sample surroundings of `sendMessage`: the transport answers every request with the given
response, and the two decoders give the given results. -/
def sampleDeps (resp : HTTPResponse) (err : Except String whatsapp.ErrorResponse)
    (ack : Except String MessageResponse) : ClientDeps :=
  ⟨fun _ _ => .ok resp, fun _ => err, fun _ => ack⟩

/-- A sample structured error body of the provider. -/
def sampleErrorBody : whatsapp.ErrorResponse :=
  ⟨⟨131030, "Recipient phone number not in allowed list", "OAuthException"⟩⟩

/-- A sample rate-limit error. -/
def sampleRateLimitError : AppError :=
  ⟨ErrorCode.ErrRateLimit, "Rate limit exceeded", 429⟩

/-- A sample validator: a phone number, a value, a URL and a type are valid when they are
not empty. -/
def sampleValidator : Validator :=
  ⟨fun p => if p = "" then some "phone number is required" else none,
   fun v field => if v = "" then some (field ++ " is required") else none,
   fun u => if u = "" then some "URL is required" else none,
   fun t => if t = "" then some "message type is required" else none⟩

/-- A sample store without rows and without database errors. -/
def sampleStore : Store := ⟨[], [], none, none⟩

/-- A sample acknowledgment of the provider. -/
def sampleAck : MessageResponse :=
  ⟨"whatsapp", [⟨"15551234567", "15551234567"⟩], [⟨"wamid.OUT1"⟩]⟩

/-- A sample business layer in which processing a message always fails and a status update
always succeeds; its state counts the calls. -/
def sampleFailingOps : MessageServiceOps Nat :=
  ⟨fun _ n => (some "database is down", n + 1), fun _ _ n => (none, n + 1)⟩

/-- A sample decoder that reads every body as `sampleBadPayload`. -/
def sampleBadUnmarshal : Bytes → Except String WebhookPayload :=
  fun _ => .ok sampleBadPayload

/-- A sample decoder that reads every body as `sampleMixedPayload`. -/
def sampleMixedUnmarshal : Bytes → Except String WebhookPayload :=
  fun _ => .ok sampleMixedPayload

/-- A sample limiter map for 1000 requests per minute in which the bucket of `id-a` was
emptied at the instant `sampleNow`. -/
def sampleExhausted : RateLimiter :=
  ⟨[("id-a", ⟨(1000 : ℚ) / 60, 100, 0, sampleNow⟩)], (1000 : ℚ) / 60, 100⟩

/-- A sample client configuration with the default base URL and API version. -/
def sampleConfig : Config :=
  ⟨"EAAG-token", "106540352242922", "", ""⟩

/-- Sample outbound calls: the first call gets a response with the given status and an empty
body, every later call gets a 200. -/
def sampleOutboundStatusThen200 (status : Nat) :
    Nat → String → JSONValue → Except String HTTPResponse :=
  fun k _ _ => if k = 0 then .ok ⟨status, []⟩ else .ok ⟨200, [123, 125]⟩

/-- Sample outbound calls: the first call fails without a response, every later call gets a
200. -/
def sampleOutboundResetThen200 : Nat → String → JSONValue → Except String HTTPResponse :=
  fun k _ _ => if k = 0 then .error "connection reset by peer" else .ok ⟨200, [123, 125]⟩

/-- The acknowledgment that `json.Unmarshal` makes of the body `{}`: no member is set, so
both lists are nil. -/
def sampleEmptyAck : MessageResponse := ⟨"", [], []⟩

/-- A sample acknowledgment with a message id and without the `contacts` member. -/
def sampleNoContactAck : MessageResponse := ⟨"whatsapp", [], [⟨"wamid.OUT1"⟩]⟩

/-- Sample surroundings of `sendMessage` in which the provider answers 200 and the body
decodes into the given acknowledgment. -/
def sampleAcceptingDeps (ack : MessageResponse) : ClientDeps :=
  sampleDeps ⟨200, [123, 125]⟩ (.error "unexpected end of JSON input") (.ok ack)

/-- Sample surroundings of `sendMessage` in which the provider answers 500 with a body that
is no structured error. -/
def sampleRejectingDeps : ClientDeps :=
  sampleDeps ⟨500, []⟩ (.error "unexpected end of JSON input") (.ok sampleAck)

/-- The record of the sample text send `hello` acknowledged with `sampleAck` at
`sampleNow`. -/
def sampleSentRecord : Message :=
  { WhatsAppMessageID := "wamid.OUT1", FromNumber := "15551234567",
    ToNumber := "15551234567", Direction := "outbound", MessageType := "text",
    Content := "hello", MediaURL := "", MediaMimeType := "", Status := "sent",
    Timestamp := sampleNow, Metadata := [] }

/-! ## Key authenticator: lemmas -/

theorem Time.After_asymm (t u : Time) (h : t.After u = true) : u.After t = false := by
  simp only [Time.After, Bool.or_eq_true, Bool.and_eq_true, decide_eq_true_eq] at h
  simp only [Time.After, Bool.or_eq_false_iff, Bool.and_eq_false_iff, decide_eq_false_iff_not]
  omega

theorem APIKey.IsExpired_of_none (k : APIKey) (now : Time) (h : k.ExpiresAt = none) :
    k.IsExpired now = false := by
  simp [APIKey.IsExpired, h]

theorem APIKey.IsExpired_of_some (k : APIKey) (now t : Time) (h : k.ExpiresAt = some t) :
    k.IsExpired now = now.After t := by
  simp [APIKey.IsExpired, h]

/-- The loop skips every candidate whose hash does not match. -/
theorem ValidateAPIKey.loop_skip (U : KeyUtils) (now : Time) (repo : APIKeyRepository)
    (rawKey : String) (pre rest : List APIKey)
    (hpre : ∀ c ∈ pre, U.CompareAPIKey c.KeyHash rawKey = false) :
    ValidateAPIKey.loop U now repo rawKey (pre ++ rest)
      = ValidateAPIKey.loop U now repo rawKey rest := by
  induction pre with
  | nil => rfl
  | cons c cs ih =>
    have hc : U.CompareAPIKey c.KeyHash rawKey = false := hpre c (List.mem_cons_self c cs)
    have hcs : ∀ d ∈ cs, U.CompareAPIKey d.KeyHash rawKey = false :=
      fun d hd => hpre d (List.mem_cons_of_mem c hd)
    simp only [List.cons_append, ValidateAPIKey.loop, hc, Bool.false_eq_true, if_false]
    exact ih hcs

/-- C1: when the prefix lookup for the raw key returns a credential whose hash matches the
raw key, which has no expiry or an expiry in the future, and no earlier candidate of the
lookup result matches, `ValidateAPIKey` returns exactly that credential and no error. -/
theorem ValidateAPIKey_returns_first_valid_match (U : KeyUtils) (now : Time)
    (repo : APIKeyRepository) (rawKey : String) (pre post : List APIKey) (k : APIKey)
    (hfind : repo.FindByKeyPrefix (U.GetKeyPrefix rawKey) = .ok (pre ++ k :: post))
    (hfirst : ∀ c ∈ pre, U.CompareAPIKey c.KeyHash rawKey = false)
    (hmatch : U.CompareAPIKey k.KeyHash rawKey = true)
    (hexp : k.ExpiresAt = none ∨ ∃ t, k.ExpiresAt = some t ∧ t.After now = true) :
    (ValidateAPIKey U now repo rawKey).1 = .ok k := by
  have hne : k.IsExpired now = false := by
    rcases hexp with h | ⟨t, ht, hfut⟩
    · exact APIKey.IsExpired_of_none k now h
    · rw [APIKey.IsExpired_of_some k now t ht]
      exact Time.After_asymm t now hfut
  simp only [ValidateAPIKey, hfind]
  rw [ValidateAPIKey.loop_skip U now repo rawKey pre (k :: post) hfirst]
  simp [ValidateAPIKey.loop, hmatch, hne]

/-- C1 at a concrete table: the raw key of the third row is found behind an earlier
candidate of the same prefix. -/
theorem ValidateAPIKey_returns_first_valid_match_witness :
    (ValidateAPIKey sampleUtils sampleNow sampleRepo "wba_live_AAAA").1 = .ok sampleKeyA :=
  ValidateAPIKey_returns_first_valid_match sampleUtils sampleNow sampleRepo "wba_live_AAAA"
    [sampleKeyB] [] sampleKeyA rfl
    (by intro c hc; rw [List.mem_singleton] at hc; subst hc; rfl)
    rfl (Or.inl rfl)

/-- C3: in every non-matching case (the prefix lookup fails, or it returns candidates, maybe
none, of which no hash matches) `ValidateAPIKey` returns one and the same Unauthorized
error, with kind Unauthorized, message `Invalid API key` and status 401, and leaves the
table as it was. -/
theorem ValidateAPIKey_uniform_unauthorized (U : KeyUtils) (now : Time)
    (repo : APIKeyRepository) (rawKey : String)
    (hno : (∃ e, repo.FindByKeyPrefix (U.GetKeyPrefix rawKey) = .error e)
      ∨ (∃ cands, repo.FindByKeyPrefix (U.GetKeyPrefix rawKey) = .ok cands
          ∧ ∀ c ∈ cands, U.CompareAPIKey c.KeyHash rawKey = false)) :
    ValidateAPIKey U now repo rawKey
      = (.error ⟨ErrorCode.ErrUnauthorized, "Invalid API key", 401⟩, repo) := by
  rcases hno with ⟨e, he⟩ | ⟨cands, hc, hall⟩
  · simp [ValidateAPIKey, he, NewUnauthorized, NewAppError]
  · simp only [ValidateAPIKey, hc]
    have := ValidateAPIKey.loop_skip U now repo rawKey cands [] hall
    rw [List.append_nil] at this
    rw [this]
    simp [ValidateAPIKey.loop, NewUnauthorized, NewAppError]

/-- C3 at concrete tables: a key whose prefix has candidates but no matching hash, a key
whose prefix has no candidate, and a failing lookup all give the same result value. -/
theorem ValidateAPIKey_uniform_unauthorized_witness :
    (ValidateAPIKey sampleUtils sampleNow sampleRepo "wba_live_ZZZZ").1
        = .error ⟨ErrorCode.ErrUnauthorized, "Invalid API key", 401⟩
      ∧ (ValidateAPIKey sampleUtils sampleNow sampleRepo "nokey").1
        = .error ⟨ErrorCode.ErrUnauthorized, "Invalid API key", 401⟩
      ∧ (ValidateAPIKey sampleUtils sampleNow { sampleRepo with findErr := some "db down" }
          "wba_live_AAAA").1
        = .error ⟨ErrorCode.ErrUnauthorized, "Invalid API key", 401⟩ :=
  ⟨congrArg Prod.fst (ValidateAPIKey_uniform_unauthorized sampleUtils sampleNow sampleRepo
      "wba_live_ZZZZ" (Or.inr ⟨[sampleKeyB, sampleKeyA], rfl, by decide⟩)),
   congrArg Prod.fst (ValidateAPIKey_uniform_unauthorized sampleUtils sampleNow sampleRepo
      "nokey" (Or.inr ⟨[], rfl, by intro c hc; cases hc⟩)),
   congrArg Prod.fst (ValidateAPIKey_uniform_unauthorized sampleUtils sampleNow
      { sampleRepo with findErr := some "db down" } "wba_live_AAAA" (Or.inl ⟨"db down", rfl⟩))⟩

/-! ## Bearer header: lemmas -/

theorem List.dropWhile_head_false {α : Type} (p : α → Bool) (l : List α) (c : α) (rest : List α)
    (h : l.dropWhile p = c :: rest) : p c = false := by
  induction l with
  | nil => simp at h
  | cons a as ih =>
    by_cases ha : p a = true
    · rw [List.dropWhile_cons_of_pos ha] at h
      exact ih h
    · rw [List.dropWhile_cons_of_neg ha] at h
      simp only [List.cons.injEq] at h
      rw [← h.1]
      simpa using ha

/-- A header that starts with `Bearer ` splits into the scheme and the text after the
first space. -/
theorem strings_SplitN2_bearer (token : String) :
    strings_SplitN2 ("Bearer " ++ token) = ["Bearer", token] := by
  have h : ("Bearer " ++ token).toList
      = 'B' :: 'e' :: 'a' :: 'r' :: 'e' :: 'r' :: ' ' :: token.toList := by
    simp [String.toList]
  simp only [strings_SplitN2, h, List.span_eq_take_drop]
  simp [List.takeWhile, List.dropWhile]

/-- Two parts with first part `Bearer` only come from a header that starts with `Bearer `. -/
theorem strings_SplitN2_inv (s : String)
    (hlen : (strings_SplitN2 s).length = 2)
    (hfst : (strings_SplitN2 s).getD 0 "" = "Bearer") :
    s = "Bearer " ++ (strings_SplitN2 s).getD 1 "" := by
  have happ := List.takeWhile_append_dropWhile (fun c => c != ' ') s.toList
  revert hlen hfst
  simp only [strings_SplitN2, List.span_eq_take_drop]
  cases hd : List.dropWhile (fun c => c != ' ') s.toList with
  | nil => simp
  | cons c after =>
    have hc : c = ' ' := by
      have := List.dropWhile_head_false _ _ _ _ hd
      simpa using this
    subst hc
    intro _ hfst
    simp only [List.getD_cons_zero] at hfst
    simp only [List.getD_cons_succ, List.getD_cons_zero]
    rw [hd] at happ
    have hb : List.takeWhile (fun c => c != ' ') s.toList = "Bearer".toList := by
      rw [← hfst]; rfl
    apply String.ext
    rw [String.data_append]
    show s.toList = _
    rw [← happ, hb]
    rfl

/-! ## Bearer header: claim -/

/-- C4: `AuthMiddleware` accepts only a header of the form `Bearer <token>`.  An absent
(empty) header, a header that does not start with the word `Bearer` and a space, and an
empty token are each rejected with status 401 and the Unauthorized kind, with three
pairwise distinct messages, without a call of `ValidateAPIKey` or of the next handler and
without a change of the table.  Otherwise exactly the text after the first space is passed
to `ValidateAPIKey`, and the next handler runs, with `api_key_id` set to the id of the
credential, if and only if the validation succeeds; a failed validation is answered with
its error. -/
theorem AuthMiddleware_bearer_contract (U : KeyUtils) (now : Time) (repo : APIKeyRepository)
    (req : Request) :
    (req.GetHeader "Authorization" = "" →
      AuthMiddleware U now repo req =
        { response := some ⟨401, .error ⟨false,
            ⟨ErrorCode.ErrUnauthorized, "Authorization header required", 401⟩⟩⟩,
          aborted := true, api_key := none, api_key_id := none, nextCalled := false,
          validated := [], repo := repo })
    ∧ (req.GetHeader "Authorization" ≠ "" →
        (¬ ∃ token : String, req.GetHeader "Authorization" = "Bearer " ++ token) →
        AuthMiddleware U now repo req =
          { response := some ⟨401, .error ⟨false,
              ⟨ErrorCode.ErrUnauthorized, "Invalid authorization format. Use: Bearer <api_key>",
                401⟩⟩⟩,
            aborted := true, api_key := none, api_key_id := none, nextCalled := false,
            validated := [], repo := repo })
    ∧ (req.GetHeader "Authorization" = "Bearer " →
        AuthMiddleware U now repo req =
          { response := some ⟨401, .error ⟨false,
              ⟨ErrorCode.ErrUnauthorized, "API key is empty", 401⟩⟩⟩,
            aborted := true, api_key := none, api_key_id := none, nextCalled := false,
            validated := [], repo := repo })
    ∧ (∀ token : String, token ≠ "" → req.GetHeader "Authorization" = "Bearer " ++ token →
        (AuthMiddleware U now repo req).validated = [token]
        ∧ (AuthMiddleware U now repo req).repo = (ValidateAPIKey U now repo token).2
        ∧ ((AuthMiddleware U now repo req).nextCalled = true
            ↔ ∃ k, (ValidateAPIKey U now repo token).1 = .ok k)
        ∧ (∀ k, (ValidateAPIKey U now repo token).1 = .ok k →
            (AuthMiddleware U now repo req).nextCalled = true
            ∧ (AuthMiddleware U now repo req).api_key_id = some k.ID
            ∧ (AuthMiddleware U now repo req).api_key = some k
            ∧ (AuthMiddleware U now repo req).response = none
            ∧ (AuthMiddleware U now repo req).aborted = false)
        ∧ (∀ e, (ValidateAPIKey U now repo token).1 = .error e →
            (AuthMiddleware U now repo req).nextCalled = false
            ∧ (AuthMiddleware U now repo req).api_key_id = none
            ∧ (AuthMiddleware U now repo req).response = some ⟨e.StatusCode, .error ⟨false, e⟩⟩
            ∧ (AuthMiddleware U now repo req).aborted = true))
    ∧ ("Authorization header required" ≠ "Invalid authorization format. Use: Bearer <api_key>"
        ∧ "Authorization header required" ≠ "API key is empty"
        ∧ "Invalid authorization format. Use: Bearer <api_key>" ≠ "API key is empty") := by
  refine ⟨?_, ?_, ?_, ?_, by decide⟩
  · intro h
    simp [AuthMiddleware, h, AuthMiddleware.reject, ErrorJSON, NewUnauthorized, NewAppError]
  · intro hne hnot
    have hparts : (strings_SplitN2 (req.GetHeader "Authorization")).length ≠ 2
        ∨ (strings_SplitN2 (req.GetHeader "Authorization")).getD 0 "" ≠ "Bearer" := by
      by_contra hcon
      push_neg at hcon
      exact hnot ⟨_, strings_SplitN2_inv _ hcon.1 hcon.2⟩
    simp only [AuthMiddleware, hne, if_false, hparts, if_true]
    simp [AuthMiddleware.reject, ErrorJSON, NewUnauthorized, NewAppError]
  · intro h
    have hs := strings_SplitN2_bearer ""
    have he : ("Bearer " ++ "" : String) = "Bearer " := by decide
    rw [he] at hs
    simp [AuthMiddleware, h, hs, AuthMiddleware.reject, ErrorJSON, NewUnauthorized, NewAppError]
  · intro token htok h
    have hs := strings_SplitN2_bearer token
    have hne : ("Bearer " ++ token : String) ≠ "" := by
      intro hc
      have := congrArg String.length hc
      simp only [String.length_append] at this
      have h7 : "Bearer ".length = 7 := by decide
      have h0 : "".length = 0 := by decide
      omega
    have hout : AuthMiddleware U now repo req =
        (match ValidateAPIKey U now repo token with
          | (.error err, repo1) => AuthMiddleware.reject err [token] repo1
          | (.ok keyInfo, repo1) =>
            { response := none, aborted := false, api_key := some keyInfo,
              api_key_id := some keyInfo.ID, nextCalled := true, validated := [token],
              repo := repo1 }) := by
      simp [AuthMiddleware, h, hs, hne, htok]
    rw [hout]
    rcases hv : ValidateAPIKey U now repo token with ⟨res, r⟩
    cases res with
    | error e => simp [AuthMiddleware.reject, ErrorJSON]
    | ok k => simp

/-- C4 at concrete requests: no header, a lower-case scheme, an empty token and a valid
key. -/
theorem AuthMiddleware_bearer_contract_witness :
    (AuthMiddleware sampleUtils sampleNow sampleRepo sampleBareRequest).response
        = some ⟨401, .error ⟨false,
            ⟨ErrorCode.ErrUnauthorized, "Authorization header required", 401⟩⟩⟩
      ∧ (AuthMiddleware sampleUtils sampleNow sampleRepo (sampleAuthRequest "bearer abc")).response
        = some ⟨401, .error ⟨false,
            ⟨ErrorCode.ErrUnauthorized, "Invalid authorization format. Use: Bearer <api_key>",
              401⟩⟩⟩
      ∧ (AuthMiddleware sampleUtils sampleNow sampleRepo (sampleAuthRequest "Bearer ")).response
        = some ⟨401, .error ⟨false, ⟨ErrorCode.ErrUnauthorized, "API key is empty", 401⟩⟩⟩
      ∧ ((AuthMiddleware sampleUtils sampleNow sampleRepo
            (sampleAuthRequest "Bearer wba_live_AAAA")).nextCalled = true
          ∧ (AuthMiddleware sampleUtils sampleNow sampleRepo
            (sampleAuthRequest "Bearer wba_live_AAAA")).api_key_id = some "id-a") :=
  ⟨congrArg AuthOutcome.response
      ((AuthMiddleware_bearer_contract sampleUtils sampleNow sampleRepo sampleBareRequest).1 rfl),
   congrArg AuthOutcome.response
      ((AuthMiddleware_bearer_contract sampleUtils sampleNow sampleRepo
        (sampleAuthRequest "bearer abc")).2.1 (by decide)
        (by
          rintro ⟨token, h⟩
          have h2 : (sampleAuthRequest "bearer abc").GetHeader "Authorization" = "bearer abc" := rfl
          rw [h2] at h
          have h3 := congrArg (fun s : String => s.data.head?) h
          simp [String.data_append] at h3)),
   congrArg AuthOutcome.response
      ((AuthMiddleware_bearer_contract sampleUtils sampleNow sampleRepo
        (sampleAuthRequest "Bearer ")).2.2.1 rfl),
   (((AuthMiddleware_bearer_contract sampleUtils sampleNow sampleRepo
        (sampleAuthRequest "Bearer wba_live_AAAA")).2.2.2.1 "wba_live_AAAA" (by decide) rfl
      ).2.2.2.1 sampleKeyA rfl).1,
   (((AuthMiddleware_bearer_contract sampleUtils sampleNow sampleRepo
        (sampleAuthRequest "Bearer wba_live_AAAA")).2.2.2.1 "wba_live_AAAA" (by decide) rfl
      ).2.2.2.1 sampleKeyA rfl).2.1⟩

/-! ## Webhook handler: claims -/

/-- C5: for a request whose body was read and which carries a non-empty
`X-Hub-Signature-256` header that `VerifySignature` does not accept for the raw body and
the configured secret, `ReceiveWebhook` responds with the 401 Unauthorized error and hands
nothing to the business layer, whose state stays as it was.  When the header is absent
(empty) the check is skipped whatever the verifier would say, and the outcome is that of
processing the body: never the signature error. -/
theorem ReceiveWebhook_signature_gate {σ : Type} (VerifyHMAC : Bytes → Bytes → String → Bool)
    (Unmarshal : Bytes → Except String WebhookPayload) (ops : MessageServiceOps σ)
    (h : WebhookHandler) (req : Request) (s : σ) (body : Bytes)
    (hbody : req.body = .ok body) :
    (req.GetHeader "X-Hub-Signature-256" ≠ "" →
      VerifySignature VerifyHMAC body (req.GetHeader "X-Hub-Signature-256") h.webhookSecret
        = false →
      (ReceiveWebhook VerifyHMAC Unmarshal ops h req s).response
          = ⟨401, .error ⟨false, ⟨ErrorCode.ErrUnauthorized, "Invalid signature", 401⟩⟩⟩
        ∧ (ReceiveWebhook VerifyHMAC Unmarshal ops h req s).handed = []
        ∧ (ReceiveWebhook VerifyHMAC Unmarshal ops h req s).svc = s)
    ∧ (req.GetHeader "X-Hub-Signature-256" = "" →
        ReceiveWebhook VerifyHMAC Unmarshal ops h req s
            = ReceiveWebhook.process Unmarshal ops body s
          ∧ (ReceiveWebhook VerifyHMAC Unmarshal ops h req s).response
            ≠ ⟨401, .error ⟨false, ⟨ErrorCode.ErrUnauthorized, "Invalid signature", 401⟩⟩⟩) := by
  constructor
  · intro hsig hbad
    simp [ReceiveWebhook, hbody, hsig, hbad, ErrorJSON, NewUnauthorized, NewAppError]
  · intro hsig
    have hrun : ReceiveWebhook VerifyHMAC Unmarshal ops h req s
        = ReceiveWebhook.process Unmarshal ops body s := by
      simp [ReceiveWebhook, hbody, hsig]
    refine ⟨hrun, ?_⟩
    rw [hrun]
    unfold ReceiveWebhook.process
    cases hp : ParseWebhook Unmarshal body with
    | error e => simp [ErrorJSON, NewBadRequest, NewAppError]
    | ok payload => simp

/-- C5 at concrete requests: a verifier that rejects everything, once with a signature
header and once without. -/
theorem ReceiveWebhook_signature_gate_witness :
    ((ReceiveWebhook (fun _ _ _ => false) sampleUnmarshal sampleOps sampleHandler
          (samplePost "sha256=00") 0).response
        = ⟨401, .error ⟨false, ⟨ErrorCode.ErrUnauthorized, "Invalid signature", 401⟩⟩⟩
      ∧ (ReceiveWebhook (fun _ _ _ => false) sampleUnmarshal sampleOps sampleHandler
          (samplePost "sha256=00") 0).handed = []
      ∧ (ReceiveWebhook (fun _ _ _ => false) sampleUnmarshal sampleOps sampleHandler
          (samplePost "sha256=00") 0).svc = 0)
      ∧ (ReceiveWebhook (fun _ _ _ => false) sampleUnmarshal sampleOps sampleHandler
          sampleBareRequest 0).response
        ≠ ⟨401, .error ⟨false, ⟨ErrorCode.ErrUnauthorized, "Invalid signature", 401⟩⟩⟩ :=
  ⟨(ReceiveWebhook_signature_gate (fun _ _ _ => false) sampleUnmarshal sampleOps sampleHandler
      (samplePost "sha256=00") 0 [123, 125] rfl).1 (by decide) rfl,
   ((ReceiveWebhook_signature_gate (fun _ _ _ => false) sampleUnmarshal sampleOps sampleHandler
      sampleBareRequest 0 [] rfl).2 rfl).2⟩

/-- C6: `VerifyWebhook` responds 200 with the `hub.challenge` value as plain-text body if
and only if `hub.mode` is `subscribe` and `hub.verify_token` equals the configured verify
token; in every other case the response is the 401 Unauthorized error, a value in which
the challenge does not occur. -/
theorem VerifyWebhook_challenge_iff (h : WebhookHandler) (req : Request) :
    ((VerifyWebhook h req).1 = ⟨200, .text (req.Query "hub.challenge")⟩
        ↔ (req.Query "hub.mode" = "subscribe" ∧ req.Query "hub.verify_token" = h.verifyToken))
      ∧ (¬ (req.Query "hub.mode" = "subscribe" ∧ req.Query "hub.verify_token" = h.verifyToken) →
          (VerifyWebhook h req).1
            = ⟨401, .error ⟨false,
                ⟨ErrorCode.ErrUnauthorized, "Webhook verification failed", 401⟩⟩⟩) := by
  by_cases hc : req.Query "hub.mode" = "subscribe" ∧ req.Query "hub.verify_token" = h.verifyToken
  · simp [VerifyWebhook, hc]
  · simp [VerifyWebhook, hc, ErrorJSON, NewUnauthorized, NewAppError]

/-- C6 at concrete requests: the right token echoes the challenge, a wrong token and a
wrong mode get the 401 error. -/
theorem VerifyWebhook_challenge_iff_witness :
    (VerifyWebhook sampleHandler (sampleGet "subscribe" "verify-me" "1158201444")).1
        = ⟨200, .text "1158201444"⟩
      ∧ (VerifyWebhook sampleHandler (sampleGet "subscribe" "guess" "1158201444")).1
        = ⟨401, .error ⟨false,
            ⟨ErrorCode.ErrUnauthorized, "Webhook verification failed", 401⟩⟩⟩
      ∧ (VerifyWebhook sampleHandler (sampleGet "unsubscribe" "verify-me" "1158201444")).1
        = ⟨401, .error ⟨false,
            ⟨ErrorCode.ErrUnauthorized, "Webhook verification failed", 401⟩⟩⟩ :=
  ⟨(VerifyWebhook_challenge_iff sampleHandler
      (sampleGet "subscribe" "verify-me" "1158201444")).1.mpr ⟨rfl, rfl⟩,
   (VerifyWebhook_challenge_iff sampleHandler
      (sampleGet "subscribe" "guess" "1158201444")).2 (by decide),
   (VerifyWebhook_challenge_iff sampleHandler
      (sampleGet "unsubscribe" "verify-me" "1158201444")).2 (by decide)⟩

/-! ## Signature verifier -/

/-- The constant-time comparison accepts a byte sequence compared with itself. -/
theorem ConstantTimeCompare_self (x : Bytes) : ConstantTimeCompare x x = true := by
  have hfold : (List.zipWith (fun a b => a ^^^ b) x x).foldl (fun v d => v ||| d) 0 = 0 := by
    induction x with
    | nil => rfl
    | cons a as ih =>
      simp only [List.zipWith_cons_cons, List.foldl_cons, Nat.xor_self, Nat.or_zero]
      exact ih
  unfold ConstantTimeCompare
  rw [hfold]
  simp

/-- C7: for every secret and every body (and whatever keyed hash stands for HMAC-SHA256),
`VerifySignature` accepts the signature header value `sha256=<hex HMAC of the body under
the secret>` that `sign` produces for that body and secret. -/
theorem VerifySignature_accepts_sign (mac : Bytes → Bytes → Bytes) (secret : String)
    (body : Bytes) :
    VerifySignature (VerifyHMAC mac) body (sign mac body secret) secret = true := by
  simp only [VerifySignature, VerifyHMAC, sign]
  exact ConstantTimeCompare_self _

/-! ## `strconv.ParseInt`: agreement with the decimal reading -/

theorem Char.isDigit_bounds (c : Char) (h : c.isDigit = true) :
    48 ≤ c.toNat ∧ c.toNat ≤ 57 := by
  simp only [Char.isDigit, Bool.and_eq_true, decide_eq_true_eq] at h
  obtain ⟨h1, h2⟩ := h
  have h1n : (48 : UInt32).toNat ≤ c.val.toNat := h1
  have h2n : c.val.toNat ≤ (57 : UInt32).toNat := h2
  exact ⟨h1n, h2n⟩

theorem decimalValueFrom_cons (a : Nat) (c : Char) (ds : List Char) :
    decimalValueFrom a (c :: ds) = decimalValueFrom (a * 10 + (c.toNat - 48)) ds := rfl

theorem le_decimalValueFrom (ds : List Char) : ∀ a : Nat, a ≤ decimalValueFrom a ds := by
  induction ds with
  | nil => intro a; exact le_refl a
  | cons c cs ih =>
    intro a
    rw [decimalValueFrom_cons]
    have := ih (a * 10 + (c.toNat - 48))
    omega

/-- On digits whose value stays below `2^64` the loop returns that value. -/
theorem strconv_ParseUint.loop_ok (s0 : String) :
    ∀ (cs : List Char) (n : Nat), n < 18446744073709551616 →
      cs.all Char.isDigit = true → decimalValueFrom n cs < 18446744073709551616 →
      strconv_ParseUint.loop s0 cs n = (decimalValueFrom n cs, none) := by
  intro cs
  induction cs with
  | nil => intro n _ _ _; rfl
  | cons c cs ih =>
    intro n hn hall hval
    simp only [List.all_cons, Bool.and_eq_true] at hall
    obtain ⟨hc, hcs⟩ := hall
    have hb := Char.isDigit_bounds c hc
    rw [decimalValueFrom_cons] at hval ⊢
    have hle := le_decimalValueFrom cs (n * 10 + (c.toNat - 48))
    have h0 : '0'.toNat = 48 := rfl
    have hcut : ¬ n ≥ maxUint64 / 10 + 1 := by
      simp only [maxUint64]; norm_num; omega
    have hn10 : n * 10 % 2 ^ 64 = n * 10 := by
      norm_num; omega
    have hn1 : (n * 10 + (c.toNat - 48)) % 2 ^ 64 = n * 10 + (c.toNat - 48) := by
      norm_num; omega
    have hchk : ¬ (n * 10 + (c.toNat - 48) < n * 10 ∨ n * 10 + (c.toNat - 48) > maxUint64) := by
      simp only [maxUint64]; norm_num; omega
    simp only [strconv_ParseUint.loop, hc, if_true, h0, hcut, if_false, hn10, hn1, hchk]
    exact ih _ (by omega) hcs hval

/-- On every other input the loop reports an error, and a range error comes with the value
`maxUint64`. -/
theorem strconv_ParseUint.loop_err (s0 : String) :
    ∀ (cs : List Char) (n : Nat), n < 18446744073709551616 →
      ¬ (cs.all Char.isDigit = true ∧ decimalValueFrom n cs < 18446744073709551616) →
      ∃ e, (strconv_ParseUint.loop s0 cs n).2 = some e
        ∧ (e.Err = .ErrRange → (strconv_ParseUint.loop s0 cs n).1 = maxUint64) := by
  intro cs
  induction cs with
  | nil =>
    intro n hn hnot
    exact absurd ⟨rfl, hn⟩ hnot
  | cons c cs ih =>
    intro n hn hnot
    by_cases hc : c.isDigit = true
    · have hb := Char.isDigit_bounds c hc
      have h0 : '0'.toNat = 48 := rfl
      have hle := le_decimalValueFrom cs (n * 10 + (c.toNat - 48))
      by_cases hcut : n ≥ maxUint64 / 10 + 1
      · simp only [strconv_ParseUint.loop, hc, if_true, hcut]
        exact ⟨⟨"ParseUint", s0, .ErrRange⟩, rfl, fun _ => trivial⟩
      · have hcut2 : n < 1844674407370955162 := by
          simp only [maxUint64] at hcut; norm_num at hcut; omega
        have hn10 : n * 10 % 2 ^ 64 = n * 10 := by
          norm_num; omega
        by_cases hchk : (n * 10 + (c.toNat - 48)) % 2 ^ 64 < n * 10
            ∨ (n * 10 + (c.toNat - 48)) % 2 ^ 64 > maxUint64
        · simp only [strconv_ParseUint.loop, hc, if_true, h0, hcut, if_false, hn10, hchk]
          exact ⟨⟨"ParseUint", s0, .ErrRange⟩, rfl, fun _ => trivial⟩
        · have hsmall : n * 10 + (c.toNat - 48) < 18446744073709551616 := by
            by_contra hbig
            apply hchk
            left
            norm_num
            omega
          have hn1 : (n * 10 + (c.toNat - 48)) % 2 ^ 64 = n * 10 + (c.toNat - 48) := by
            norm_num; omega
          simp only [strconv_ParseUint.loop, hc, if_true, h0, hcut, if_false, hn10, hchk]
          rw [hn1]
          apply ih _ hsmall
          intro hcon
          apply hnot
          rw [decimalValueFrom_cons]
          simp only [List.all_cons, Bool.and_eq_true]
          exact ⟨⟨hc, hcon.1⟩, hcon.2⟩
    · simp only [strconv_ParseUint.loop, hc, Bool.false_eq_true, if_false]
      exact ⟨_, rfl, fun h => by simp at h⟩

theorem String.mk_eq_empty_iff (ds : List Char) : String.mk ds = "" ↔ ds = [] := by
  constructor
  · intro h
    have := congrArg String.data h
    simpa using this
  · intro h
    subst h
    rfl

/-- Digits that write a number of the `int64` range (for the sign at hand) convert to that
number. -/
theorem strconv_ParseInt.checked_ok (s0 : String) (neg : Bool) (ds : List Char)
    (hne : ds ≠ []) (hall : ds.all Char.isDigit = true)
    (hrange : if neg then decimalValueFrom 0 ds ≤ 9223372036854775808
      else decimalValueFrom 0 ds ≤ 9223372036854775807) :
    strconv_ParseInt.checked s0 neg ds
      = .ok (if neg then - (decimalValueFrom 0 ds : Int) else (decimalValueFrom 0 ds : Int)) := by
  have hlt : decimalValueFrom 0 ds < 18446744073709551616 := by
    cases neg <;> simp at hrange <;> omega
  have hloop := strconv_ParseUint.loop_ok (String.mk ds) ds 0 (by norm_num) hall hlt
  have hmk : ¬ String.mk ds = "" := fun h => hne ((String.mk_eq_empty_iff ds).mp h)
  have hu : strconv_ParseUint (String.mk ds) = (decimalValueFrom 0 ds, none) := by
    simp only [strconv_ParseUint, hmk, if_false]
    exact hloop
  cases neg with
  | false =>
    simp only [Bool.false_eq_true, if_false] at hrange
    have h1 : decimalValueFrom 0 ds < 9223372036854775808 := by omega
    have h2 : int64 (decimalValueFrom 0 ds : Int) = (decimalValueFrom 0 ds : Int) := by
      simp only [int64]; omega
    simp [strconv_ParseInt.checked, hu, h1, h2]
  | true =>
    simp only [if_true] at hrange
    have h1 : decimalValueFrom 0 ds ≤ 9223372036854775808 := hrange
    have h2 : int64 (- int64 (decimalValueFrom 0 ds : Int)) = - (decimalValueFrom 0 ds : Int) := by
      simp only [int64]; omega
    simp [strconv_ParseInt.checked, hu, h1, h2]

/-- Anything else after the sign is an error. -/
theorem strconv_ParseInt.checked_err (s0 : String) (neg : Bool) (ds : List Char)
    (hnot : ¬ (ds ≠ [] ∧ ds.all Char.isDigit = true
      ∧ (if neg then decimalValueFrom 0 ds ≤ 9223372036854775808
          else decimalValueFrom 0 ds ≤ 9223372036854775807))) :
    ∃ e, strconv_ParseInt.checked s0 neg ds = .error e := by
  by_cases hne : ds = []
  · subst hne
    exact ⟨_, rfl⟩
  · have hmk : ¬ String.mk ds = "" := fun h => hne ((String.mk_eq_empty_iff ds).mp h)
    by_cases hgood : ds.all Char.isDigit = true ∧ decimalValueFrom 0 ds < 18446744073709551616
    · have hloop := strconv_ParseUint.loop_ok (String.mk ds) ds 0 (by norm_num) hgood.1 hgood.2
      have hu : strconv_ParseUint (String.mk ds) = (decimalValueFrom 0 ds, none) := by
        simp only [strconv_ParseUint, hmk, if_false]
        exact hloop
      have hout : ¬ (if neg then decimalValueFrom 0 ds ≤ 9223372036854775808
          else decimalValueFrom 0 ds ≤ 9223372036854775807) :=
        fun h => hnot ⟨hne, hgood.1, h⟩
      cases neg with
      | false =>
        simp only [Bool.false_eq_true, if_false] at hout
        have h1 : 9223372036854775808 ≤ decimalValueFrom 0 ds := by omega
        exact ⟨⟨"ParseInt", s0, .ErrRange⟩, by simp [strconv_ParseInt.checked, hu, h1]⟩
      | true =>
        simp only [if_true] at hout
        have h1 : 9223372036854775808 < decimalValueFrom 0 ds := by omega
        exact ⟨⟨"ParseInt", s0, .ErrRange⟩, by simp [strconv_ParseInt.checked, hu, h1]⟩
    · obtain ⟨e, he, hmax⟩ := strconv_ParseUint.loop_err (String.mk ds) ds 0 (by norm_num) hgood
      have hu2 : (strconv_ParseUint (String.mk ds)).2 = some e := by
        simp only [strconv_ParseUint, hmk, if_false]
        exact he
      have hu1 : e.Err = .ErrRange → (strconv_ParseUint (String.mk ds)).1 = maxUint64 := by
        simp only [strconv_ParseUint, hmk, if_false]
        exact hmax
      cases hk : e.Err with
      | ErrSyntax =>
        exact ⟨⟨"ParseInt", s0, .ErrSyntax⟩, by simp [strconv_ParseInt.checked, hu2, hk]⟩
      | ErrRange =>
        have hv := hu1 hk
        cases neg with
        | false =>
          exact ⟨⟨"ParseInt", s0, .ErrRange⟩,
            by simp [strconv_ParseInt.checked, hu2, hk, hv, maxUint64]⟩
        | true =>
          exact ⟨⟨"ParseInt", s0, .ErrRange⟩,
            by simp [strconv_ParseInt.checked, hu2, hk, hv, maxUint64]⟩

theorem strconv_ParseInt.checked_of_reading_some (s0 : String) (neg : Bool) (ds : List Char)
    (v : Int) (h : decimalReading neg ds = some v) :
    strconv_ParseInt.checked s0 neg ds = .ok v := by
  unfold decimalReading at h
  by_cases hd : ds ≠ [] ∧ ds.all Char.isDigit = true
  · rw [if_pos hd] at h
    cases neg with
    | false =>
      simp only [Bool.false_eq_true, if_false] at h
      by_cases hr : (-9223372036854775808 : Int) ≤ (decimalValueFrom 0 ds : Int)
          ∧ (decimalValueFrom 0 ds : Int) ≤ 9223372036854775807
      · rw [if_pos hr] at h
        have hv : (decimalValueFrom 0 ds : Int) = v := by simpa using h
        rw [strconv_ParseInt.checked_ok s0 false ds hd.1 hd.2 (by simp only [Bool.false_eq_true, if_false]; omega)]
        simp [hv]
      · rw [if_neg hr] at h
        cases h
    | true =>
      simp only [if_true] at h
      by_cases hr : (-9223372036854775808 : Int) ≤ - (decimalValueFrom 0 ds : Int)
          ∧ - (decimalValueFrom 0 ds : Int) ≤ 9223372036854775807
      · rw [if_pos hr] at h
        have hv : - (decimalValueFrom 0 ds : Int) = v := by simpa using h
        rw [strconv_ParseInt.checked_ok s0 true ds hd.1 hd.2 (by simp only [if_true]; omega)]
        simp [hv]
      · rw [if_neg hr] at h
        cases h
  · rw [if_neg hd] at h
    cases h

theorem strconv_ParseInt.checked_of_reading_none (s0 : String) (neg : Bool) (ds : List Char)
    (h : decimalReading neg ds = none) :
    ∃ e, strconv_ParseInt.checked s0 neg ds = .error e := by
  apply strconv_ParseInt.checked_err
  rintro ⟨hne, hall, hrange⟩
  unfold decimalReading at h
  rw [if_pos ⟨hne, hall⟩] at h
  cases neg with
  | false =>
    simp only [Bool.false_eq_true, if_false] at hrange h
    have hr : (-9223372036854775808 : Int) ≤ (decimalValueFrom 0 ds : Int)
        ∧ (decimalValueFrom 0 ds : Int) ≤ 9223372036854775807 := by omega
    rw [if_pos hr] at h
    cases h
  | true =>
    simp only [if_true] at hrange h
    have hr : (-9223372036854775808 : Int) ≤ - (decimalValueFrom 0 ds : Int)
        ∧ - (decimalValueFrom 0 ds : Int) ≤ 9223372036854775807 := by omega
    rw [if_pos hr] at h
    cases h

/-- The model of `strconv.ParseInt` and the decimal reading pick the sign off alike. -/
theorem strconv_ParseInt_sign_split (s : String) :
    (s.toList = [] ∧ int64OfDecimal? s = none ∧ ∃ e, strconv_ParseInt s = .error e)
      ∨ ∃ (neg : Bool) (ds : List Char),
          int64OfDecimal? s = decimalReading neg ds
            ∧ strconv_ParseInt s = strconv_ParseInt.checked s neg ds := by
  cases hs : s.data with
  | nil =>
    left
    refine ⟨hs, ?_, ⟨⟨"ParseInt", s, .ErrSyntax⟩, by simp only [strconv_ParseInt, String.toList, hs]⟩⟩
    simp [int64OfDecimal?, hs, decimalReading]
  | cons c cs =>
    right
    by_cases hm : c = '-'
    · subst hm
      exact ⟨true, cs, by simp [int64OfDecimal?, hs], by simp [strconv_ParseInt, hs]⟩
    · by_cases hp : c = '+'
      · subst hp
        exact ⟨false, cs, by simp [int64OfDecimal?, hs], by simp [strconv_ParseInt, hs]⟩
      · refine ⟨false, c :: cs, ?_, by simp [strconv_ParseInt, hs, hm, hp]⟩
        simp only [int64OfDecimal?, String.toList, hs]
        split
        · rename_i heq; simp only [List.cons.injEq] at heq; exact absurd heq.1 hm
        · rename_i heq; simp only [List.cons.injEq] at heq; exact absurd heq.1 hp
        · rfl

/-- A string with a decimal reading is parsed to that reading. -/
theorem strconv_ParseInt_of_reading_some (s : String) (v : Int)
    (h : int64OfDecimal? s = some v) : strconv_ParseInt s = .ok v := by
  rcases strconv_ParseInt_sign_split s with ⟨_, hn, _⟩ | ⟨neg, ds, hr, hp⟩
  · rw [hn] at h; cases h
  · rw [hp]
    exact strconv_ParseInt.checked_of_reading_some s neg ds v (hr ▸ h)

/-- A string without a decimal reading is rejected. -/
theorem strconv_ParseInt_of_reading_none (s : String)
    (h : int64OfDecimal? s = none) : ∃ e, strconv_ParseInt s = .error e := by
  rcases strconv_ParseInt_sign_split s with ⟨_, _, he⟩ | ⟨neg, ds, hr, hp⟩
  · exact he
  · rw [hp]
    exact strconv_ParseInt.checked_of_reading_none s neg ds (hr ▸ h)

/-- The parse fails exactly on the strings without a decimal reading. -/
theorem strconv_ParseInt_error_iff (s : String) :
    (∃ e, strconv_ParseInt s = .error e) ↔ int64OfDecimal? s = none := by
  constructor
  · rintro ⟨e, he⟩
    cases hr : int64OfDecimal? s with
    | none => rfl
    | some v =>
      rw [strconv_ParseInt_of_reading_some s v hr] at he
      cases he
  · exact strconv_ParseInt_of_reading_none s

/-- The parse succeeds exactly with the decimal reading. -/
theorem strconv_ParseInt_ok_iff (s : String) (v : Int) :
    strconv_ParseInt s = .ok v ↔ int64OfDecimal? s = some v := by
  constructor
  · intro hok
    cases hr : int64OfDecimal? s with
    | none =>
      obtain ⟨e, he⟩ := strconv_ParseInt_of_reading_none s hr
      rw [he] at hok
      cases hok
    | some w =>
      rw [strconv_ParseInt_of_reading_some s w hr] at hok
      cases hok
      rfl
  · exact strconv_ParseInt_of_reading_some s v

/-! ## The decimal string of an integer is read back as that integer -/

theorem Nat.digitChar_isDigit (k : Nat) (h : k < 10) : (Nat.digitChar k).isDigit = true := by
  interval_cases k <;> rfl

theorem Nat.digitChar_toNat_sub (k : Nat) (h : k < 10) : (Nat.digitChar k).toNat - 48 = k := by
  interval_cases k <;> rfl

theorem Nat.toDigitsCore_all_isDigit (fuel : Nat) :
    ∀ (n : Nat) (ds : List Char), ds.all Char.isDigit = true →
      (Nat.toDigitsCore 10 fuel n ds).all Char.isDigit = true := by
  induction fuel with
  | zero => intro n ds h; exact h
  | succ fuel ih =>
    intro n ds h
    have hd : (Nat.digitChar (n % 10)).isDigit = true :=
      Nat.digitChar_isDigit _ (Nat.mod_lt n (by norm_num))
    have hds : ((Nat.digitChar (n % 10)) :: ds).all Char.isDigit = true := by
      simp only [List.all_cons, hd, h, Bool.and_self]
    simp only [Nat.toDigitsCore]
    split
    · exact hds
    · exact ih _ _ hds

theorem Nat.toDigitsCore_ne_nil (fuel : Nat) :
    ∀ (n : Nat) (ds : List Char), ds ≠ [] → Nat.toDigitsCore 10 fuel n ds ≠ [] := by
  induction fuel with
  | zero => intro n ds h; exact h
  | succ fuel ih =>
    intro n ds _
    simp only [Nat.toDigitsCore]
    split
    · exact List.cons_ne_nil _ _
    · exact ih _ _ (List.cons_ne_nil _ _)

theorem Nat.toDigitsCore_value (fuel : Nat) :
    ∀ (n : Nat) (ds : List Char), n < fuel →
      decimalValueFrom 0 (Nat.toDigitsCore 10 fuel n ds) = decimalValueFrom n ds := by
  induction fuel with
  | zero => intro n ds h; omega
  | succ fuel ih =>
    intro n ds hn
    have hk := Nat.digitChar_toNat_sub (n % 10) (Nat.mod_lt n (by norm_num))
    simp only [Nat.toDigitsCore]
    split
    · rename_i h0
      rw [decimalValueFrom_cons, hk]
      congr 1
      omega
    · rename_i h0
      rw [ih (n / 10) _ (by omega), decimalValueFrom_cons, hk]
      congr 1
      omega

theorem Nat.toDigits_ten_spec (n : Nat) :
    Nat.toDigits 10 n ≠ [] ∧ (Nat.toDigits 10 n).all Char.isDigit = true
      ∧ decimalValueFrom 0 (Nat.toDigits 10 n) = n := by
  refine ⟨?_, Nat.toDigitsCore_all_isDigit _ _ _ rfl, Nat.toDigitsCore_value _ _ _ (by omega)⟩
  simp only [Nat.toDigits, Nat.toDigitsCore]
  split
  · exact List.cons_ne_nil _ _
  · exact Nat.toDigitsCore_ne_nil _ _ _ (List.cons_ne_nil _ _)

theorem int64OfDecimal?_unsigned (s : String) (h : s.data ≠ [])
    (hall : s.data.all Char.isDigit = true) :
    int64OfDecimal? s = decimalReading false s.data := by
  cases hs : s.data with
  | nil => exact absurd hs h
  | cons c cs =>
    rw [hs] at hall
    simp only [List.all_cons, Bool.and_eq_true] at hall
    simp only [int64OfDecimal?, String.toList, hs]
    split
    · rename_i heq
      simp only [List.cons.injEq] at heq
      have := hall.1
      rw [heq.1] at this
      exact absurd this (by decide)
    · rename_i heq
      simp only [List.cons.injEq] at heq
      have := hall.1
      rw [heq.1] at this
      exact absurd this (by decide)
    · rfl

/-- The decimal string of a 64-bit integer has that integer as its reading. -/
theorem int64OfDecimal?_toString (n : Int) (hlo : -9223372036854775808 ≤ n)
    (hhi : n ≤ 9223372036854775807) : int64OfDecimal? (toString n) = some n := by
  cases n with
  | ofNat m =>
    obtain ⟨hne, hall, hval⟩ := Nat.toDigits_ten_spec m
    have hs : (toString (Int.ofNat m)).data = Nat.toDigits 10 m := rfl
    rw [int64OfDecimal?_unsigned _ (by rw [hs]; exact hne) (by rw [hs]; exact hall), hs]
    have hm : (m : Int) ≤ 9223372036854775807 := hhi
    simp only [decimalReading, hval]
    rw [if_pos ⟨hne, hall⟩]
    simp only [Bool.false_eq_true, if_false]
    rw [if_pos (by omega)]
    rfl
  | negSucc m =>
    obtain ⟨hne, hall, hval⟩ := Nat.toDigits_ten_spec (m + 1)
    have hs : (toString (Int.negSucc m)).data = '-' :: Nat.toDigits 10 (m + 1) := rfl
    have hm : -9223372036854775808 ≤ -((m : Int) + 1) := by
      have := Int.negSucc_eq m
      omega
    simp only [int64OfDecimal?, String.toList, hs, decimalReading, hval]
    rw [if_pos ⟨hne, hall⟩]
    simp only [if_true]
    rw [if_pos (by push_cast; omega)]
    congr 1

/-! ## The extraction loops flatten the envelope in source order -/

theorem allOrFirstError_append {α β ε : Type} (f : α → Except ε β) (xs ys : List α) :
    allOrFirstError f (xs ++ ys)
      = (match allOrFirstError f xs with
          | .error e => .error e
          | .ok us => Except.map (fun vs => us ++ vs) (allOrFirstError f ys)) := by
  induction xs with
  | nil =>
    simp only [List.nil_append, allOrFirstError]
    cases allOrFirstError f ys <;> simp [Except.map]
  | cons x xs ih =>
    have hstep : allOrFirstError f (x :: xs ++ ys)
        = (match f x with
            | .error e => .error e
            | .ok y =>
              match allOrFirstError f (xs ++ ys) with
              | .error e => .error e
              | .ok zs => .ok (y :: zs)) := rfl
    rw [hstep, ih]
    simp only [allOrFirstError]
    cases hx : f x with
    | error e => rfl
    | ok y =>
      cases hxs : allOrFirstError f xs with
      | error e => rfl
      | ok us =>
        cases hys : allOrFirstError f ys <;> simp [Except.map]

theorem allOrFirstError_map {α β γ ε : Type} (f : α → Except ε β) (k : γ → α) (l : List γ) :
    allOrFirstError f (l.map k) = allOrFirstError (fun x => f (k x)) l := by
  induction l with
  | nil => rfl
  | cons x xs ih => simp only [List.map_cons, allOrFirstError, ih]

/-- The innermost loop: appending one event per element, or stopping at the first error. -/
theorem foldlM_append_eq_allOrFirstError {α β ε : Type} (f : α → Except ε β)
    (g : List β → α → Except ε (List β))
    (hg : ∀ events x, g events x = Except.map (fun y => events ++ [y]) (f x))
    (l : List α) :
    ∀ init : List β,
      l.foldlM g init = Except.map (fun ys => init ++ ys) (allOrFirstError f l) := by
  induction l with
  | nil => intro init; simp [allOrFirstError, Except.map, pure, Except.pure]
  | cons x xs ih =>
    intro init
    simp only [List.foldlM_cons, allOrFirstError, hg]
    cases hx : f x with
    | error e => rfl
    | ok y =>
      simp only [Except.map, bind, Except.bind]
      rw [ih]
      cases allOrFirstError f xs <;> simp [Except.map]

/-- An outer loop over a loop that flattens: it flattens the concatenation. -/
theorem foldlM_flatMap_eq_allOrFirstError {α β γ ε : Type} (f : α → Except ε β)
    (h : γ → List α) (g : List β → γ → Except ε (List β))
    (hg : ∀ init x, g init x = Except.map (fun ys => init ++ ys) (allOrFirstError f (h x)))
    (l : List γ) :
    ∀ init : List β,
      l.foldlM g init = Except.map (fun ys => init ++ ys) (allOrFirstError f (l.flatMap h)) := by
  induction l with
  | nil => intro init; simp [allOrFirstError, Except.map, pure, Except.pure]
  | cons x xs ih =>
    intro init
    simp only [List.foldlM_cons, List.flatMap_cons, hg, allOrFirstError_append]
    cases hx : allOrFirstError f (h x) with
    | error e => rfl
    | ok us =>
      simp only [Except.map, bind, Except.bind]
      rw [ih]
      cases allOrFirstError f (xs.flatMap h) <;> simp [Except.map]

/-- Message extraction is the in-order conversion of the raw messages of the envelope. -/
theorem ParseMessageEvent_eq_allOrFirstError (payload : WebhookPayload) :
    ParseMessageEvent payload
      = allOrFirstError (fun p => parseMessageValue p.1 p.2) (sourceMessages payload) := by
  have hinner : ∀ (change : Change) (init : List MessageEvent),
      change.Value.Messages.foldlM (fun events msg =>
          match parseMessageValue msg change.Value.Contacts with
          | .error err => (.error err : Except WebhookError (List MessageEvent))
          | .ok event => .ok (events ++ [event])) init
        = Except.map (fun ys => init ++ ys)
            (allOrFirstError (fun p => parseMessageValue p.1 p.2)
              (change.Value.Messages.map (fun msg => (msg, change.Value.Contacts)))) := by
    intro change init
    rw [allOrFirstError_map]
    exact foldlM_append_eq_allOrFirstError
      (fun msg => parseMessageValue msg change.Value.Contacts) _
      (fun events msg => by
        beta_reduce
        cases parseMessageValue msg change.Value.Contacts <;> rfl)
      change.Value.Messages init
  have hmid : ∀ (entry : Entry) (init : List MessageEvent),
      entry.Changes.foldlM (fun events change =>
          change.Value.Messages.foldlM (fun events msg =>
            match parseMessageValue msg change.Value.Contacts with
            | .error err => (.error err : Except WebhookError (List MessageEvent))
            | .ok event => .ok (events ++ [event])) events) init
        = Except.map (fun ys => init ++ ys)
            (allOrFirstError (fun p => parseMessageValue p.1 p.2)
              (entry.Changes.flatMap (fun change =>
                change.Value.Messages.map (fun msg => (msg, change.Value.Contacts))))) := by
    intro entry init
    exact foldlM_flatMap_eq_allOrFirstError _ _ _ (fun i c => hinner c i) _ init
  have houter := foldlM_flatMap_eq_allOrFirstError (fun p => parseMessageValue p.1 p.2)
    (fun entry : Entry => entry.Changes.flatMap (fun change =>
        change.Value.Messages.map (fun msg => (msg, change.Value.Contacts))))
    _ (fun i e => hmid e i) payload.Entry []
  unfold ParseMessageEvent sourceMessages
  rw [houter]
  cases allOrFirstError (fun p : MessageValue × List ContactValue => parseMessageValue p.1 p.2)
    (payload.Entry.flatMap (fun entry : Entry => entry.Changes.flatMap (fun change =>
        change.Value.Messages.map (fun msg => (msg, change.Value.Contacts)))))
    <;> simp [Except.map]

/-- Status extraction is the in-order conversion of the raw statuses of the envelope. -/
theorem ParseStatusEvent_eq_allOrFirstError (payload : WebhookPayload) :
    ParseStatusEvent payload = allOrFirstError parseStatusValue (sourceStatuses payload) := by
  have hmid : ∀ (entry : Entry) (init : List StatusEvent),
      entry.Changes.foldlM (fun events change =>
          change.Value.Statuses.foldlM (fun events status =>
            match parseStatusValue status with
            | .error err => (.error err : Except WebhookError (List StatusEvent))
            | .ok event => .ok (events ++ [event])) events) init
        = Except.map (fun ys => init ++ ys)
            (allOrFirstError parseStatusValue
              (entry.Changes.flatMap (fun change => change.Value.Statuses))) := by
    intro entry init
    exact foldlM_flatMap_eq_allOrFirstError _ _ _
      (fun i (c : Change) =>
        foldlM_append_eq_allOrFirstError parseStatusValue _
          (fun events status => by cases parseStatusValue status <;> rfl)
          c.Value.Statuses i) _ init
  have houter := foldlM_flatMap_eq_allOrFirstError parseStatusValue
    (fun entry : Entry => entry.Changes.flatMap (fun change => change.Value.Statuses))
    _ (fun i e => hmid e i) payload.Entry []
  unfold ParseStatusEvent sourceStatuses
  rw [houter]
  cases allOrFirstError parseStatusValue
    (payload.Entry.flatMap (fun entry : Entry => entry.Changes.flatMap (fun change =>
        change.Value.Statuses)))
    <;> simp [Except.map]

theorem allOrFirstError_ok_of_forall {α β ε : Type} (f : α → Except ε β) (l : List α)
    (h : ∀ x ∈ l, ∃ y, f x = .ok y) :
    ∃ ys, allOrFirstError f l = .ok ys ∧ List.Forall₂ (fun x y => f x = .ok y) l ys := by
  induction l with
  | nil => exact ⟨[], rfl, List.Forall₂.nil⟩
  | cons x xs ih =>
    obtain ⟨y, hy⟩ := h x (List.mem_cons_self x xs)
    obtain ⟨ys, hys, hall⟩ := ih (fun z hz => h z (List.mem_cons_of_mem x hz))
    exact ⟨y :: ys, by simp [allOrFirstError, hy, hys], List.Forall₂.cons hy hall⟩

theorem allOrFirstError_error_iff {α β ε : Type} (f : α → Except ε β) (l : List α) :
    (∃ e, allOrFirstError f l = .error e) ↔ ∃ x ∈ l, ∃ e, f x = .error e := by
  induction l with
  | nil => simp [allOrFirstError]
  | cons x xs ih =>
    cases hx : f x with
    | error e =>
      simp only [allOrFirstError, hx, List.mem_cons]
      exact ⟨fun _ => ⟨x, Or.inl rfl, e, hx⟩, fun _ => ⟨e, rfl⟩⟩
    | ok y =>
      constructor
      · rintro ⟨e, he⟩
        simp only [allOrFirstError, hx] at he
        cases hxs : allOrFirstError f xs with
        | error e2 =>
          obtain ⟨z, hz, e3, he3⟩ := ih.mp ⟨e2, hxs⟩
          exact ⟨z, List.mem_cons_of_mem x hz, e3, he3⟩
        | ok ys => rw [hxs] at he; cases he
      · rintro ⟨z, hz, e, he⟩
        rcases List.mem_cons.mp hz with hzx | hzxs
        · subst hzx; rw [hx] at he; cases he
        · obtain ⟨e2, he2⟩ := ih.mpr ⟨z, hzxs, e, he⟩
          exact ⟨e2, by simp [allOrFirstError, hx, he2]⟩

/-- A message with a parseable timestamp converts; the event copies id, sender and type and
carries the parsed number of seconds. -/
theorem parseMessageValue_ok (msg : MessageValue) (contacts : List ContactValue) (n : Int)
    (h : strconv_ParseInt msg.Timestamp = .ok n) :
    ∃ ev, parseMessageValue msg contacts = .ok ev ∧ ev.MessageID = msg.ID ∧ ev.From = msg.From
      ∧ ev.Type_ = msg.Type_ ∧ ev.Timestamp = time_Unix n 0 := by
  simp only [parseMessageValue, h]
  refine ⟨_, rfl, ?_, ?_, ?_, ?_⟩ <;>
    (repeat' split) <;> rfl

/-- A message converts to an error exactly when its timestamp does not parse. -/
theorem parseMessageValue_error_iff (msg : MessageValue) (contacts : List ContactValue) :
    (∃ e, parseMessageValue msg contacts = .error e) ↔ ∃ e, strconv_ParseInt msg.Timestamp = .error e := by
  cases h : strconv_ParseInt msg.Timestamp with
  | error e => simp [parseMessageValue, h]
  | ok n => simp [parseMessageValue, h]

/-- A status with a parseable timestamp converts; the event copies id, status and recipient
and carries the parsed number of seconds. -/
theorem parseStatusValue_ok (status : StatusValue) (n : Int)
    (h : strconv_ParseInt status.Timestamp = .ok n) :
    ∃ ev, parseStatusValue status = .ok ev ∧ ev.MessageID = status.ID
      ∧ ev.Status = status.Status ∧ ev.RecipientID = status.RecipientID
      ∧ ev.Timestamp = time_Unix n 0 := by
  simp only [parseStatusValue, h]
  refine ⟨_, rfl, ?_, ?_, ?_, ?_⟩ <;>
    (repeat' split) <;> rfl

/-- A status converts to an error exactly when its timestamp does not parse. -/
theorem parseStatusValue_error_iff (status : StatusValue) :
    (∃ e, parseStatusValue status = .error e) ↔ ∃ e, strconv_ParseInt status.Timestamp = .error e := by
  cases h : strconv_ParseInt status.Timestamp with
  | error e => simp [parseStatusValue, h]
  | ok n => simp [parseStatusValue, h]

theorem parseMessageValue_ids (ps : List (MessageValue × List ContactValue))
    (evs : List MessageEvent)
    (h : List.Forall₂ (fun p ev => parseMessageValue p.1 p.2 = .ok ev) ps evs) :
    evs.map (fun ev => ev.MessageID) = ps.map (fun p => p.1.ID) := by
  induction h with
  | nil => rfl
  | @cons p ev ps evs hp _ ih =>
    simp only [List.map_cons, ih, List.cons.injEq, and_true]
    cases hts : strconv_ParseInt p.1.Timestamp with
    | error e => simp [parseMessageValue, hts] at hp
    | ok n =>
      obtain ⟨ev2, hev2, hid, _⟩ := parseMessageValue_ok p.1 p.2 n hts
      rw [hp] at hev2
      cases hev2
      exact hid

theorem parseStatusValue_ids (sts : List StatusValue) (evs : List StatusEvent)
    (h : List.Forall₂ (fun st ev => parseStatusValue st = .ok ev) sts evs) :
    evs.map (fun ev => ev.MessageID) = sts.map (fun st => st.ID) := by
  induction h with
  | nil => rfl
  | @cons st ev sts evs hp _ ih =>
    simp only [List.map_cons, ih, List.cons.injEq, and_true]
    cases hts : strconv_ParseInt st.Timestamp with
    | error e => simp [parseStatusValue, hts] at hp
    | ok n =>
      obtain ⟨ev2, hev2, hid, _⟩ := parseStatusValue_ok st n hts
      rw [hp] at hev2
      cases hev2
      exact hid

/-! ## Event normalizer: claims -/

/-- C8: for every envelope in which all message timestamps parse, `ParseMessageEvent`
returns one event per raw message, in source order (entry order, then change order, then
message order): the list of events matches the flattened list of raw messages element by
element, each event being the conversion of the raw message at the same position.
`ParseStatusEvent` does the same for the statuses when all status timestamps parse. -/
theorem ParseEvents_flatten_in_source_order (payload : WebhookPayload) :
    ((∀ p ∈ sourceMessages payload, ∃ n, strconv_ParseInt p.1.Timestamp = .ok n) →
      ∃ events, ParseMessageEvent payload = .ok events
        ∧ List.Forall₂ (fun p ev => parseMessageValue p.1 p.2 = .ok ev)
            (sourceMessages payload) events
        ∧ events.length = (sourceMessages payload).length
        ∧ events.map (fun ev => ev.MessageID) = (sourceMessages payload).map (fun p => p.1.ID))
    ∧ ((∀ st ∈ sourceStatuses payload, ∃ n, strconv_ParseInt st.Timestamp = .ok n) →
      ∃ events, ParseStatusEvent payload = .ok events
        ∧ List.Forall₂ (fun st ev => parseStatusValue st = .ok ev) (sourceStatuses payload) events
        ∧ events.length = (sourceStatuses payload).length
        ∧ events.map (fun ev => ev.MessageID) = (sourceStatuses payload).map (fun st => st.ID)) := by
  constructor
  · intro hall
    obtain ⟨events, hev, hf2⟩ := allOrFirstError_ok_of_forall
      (fun p : MessageValue × List ContactValue => parseMessageValue p.1 p.2)
      (sourceMessages payload)
      (fun p hp => by
        obtain ⟨n, hn⟩ := hall p hp
        obtain ⟨ev, hev, _⟩ := parseMessageValue_ok p.1 p.2 n hn
        exact ⟨ev, hev⟩)
    exact ⟨events, by rw [ParseMessageEvent_eq_allOrFirstError]; exact hev, hf2,
      hf2.length_eq.symm, parseMessageValue_ids _ _ hf2⟩
  · intro hall
    obtain ⟨events, hev, hf2⟩ := allOrFirstError_ok_of_forall parseStatusValue
      (sourceStatuses payload)
      (fun st hst => by
        obtain ⟨n, hn⟩ := hall st hst
        obtain ⟨ev, hev, _⟩ := parseStatusValue_ok st n hn
        exact ⟨ev, hev⟩)
    exact ⟨events, by rw [ParseStatusEvent_eq_allOrFirstError]; exact hev, hf2,
      hf2.length_eq.symm, parseStatusValue_ids _ _ hf2⟩

/-- C8 at a concrete envelope: one message and one status give one event each, with the raw
ids. -/
theorem ParseEvents_flatten_in_source_order_witness :
    (∃ events, ParseMessageEvent samplePayload = .ok events
        ∧ events.map (fun ev => ev.MessageID) = ["wamid.A1"])
      ∧ (∃ events, ParseStatusEvent samplePayload = .ok events
        ∧ events.map (fun ev => ev.MessageID) = ["wamid.B2"]) :=
  ⟨by
    obtain ⟨events, h1, _, _, h4⟩ :=
      (ParseEvents_flatten_in_source_order samplePayload).1 (by
        intro p hp
        have hp2 : p = (sampleMessage, [sampleContact]) := by
          simpa [sourceMessages, samplePayload] using hp
        subst hp2
        exact ⟨1700000000, rfl⟩)
    exact ⟨events, h1, h4⟩,
   by
    obtain ⟨events, h1, _, _, h4⟩ :=
      (ParseEvents_flatten_in_source_order samplePayload).2 (by
        intro st hst
        have hst2 : st = sampleStatus := by
          simpa [sourceStatuses, samplePayload] using hst
        subst hst2
        exact ⟨1700000050, rfl⟩)
    exact ⟨events, h1, h4⟩⟩

/-- C9: every extracted event carries the source's id, timestamp and type.  For a raw
message whose timestamp is the decimal string of a 64-bit integer `n`, the message event
has `MessageID`, `From` and `Type` equal to the raw id, sender and type, and its
`Timestamp` is `n` seconds after the Unix epoch; for a raw status with such a timestamp the
status event has `MessageID`, `Status` and `RecipientID` copied and the timestamp computed
the same way.  An envelope whose only message is a text message and whose only status is
one status therefore yields exactly one message event and exactly one status event, with
these fields. -/
theorem extracted_events_carry_source_fields :
    (∀ (msg : MessageValue) (contacts : List ContactValue) (n : Int),
      -9223372036854775808 ≤ n → n ≤ 9223372036854775807 → msg.Timestamp = toString n →
      ∃ ev, parseMessageValue msg contacts = .ok ev ∧ ev.MessageID = msg.ID
        ∧ ev.From = msg.From ∧ ev.Type_ = msg.Type_ ∧ ev.Timestamp = ⟨n, 0⟩)
    ∧ (∀ (status : StatusValue) (n : Int),
      -9223372036854775808 ≤ n → n ≤ 9223372036854775807 → status.Timestamp = toString n →
      ∃ ev, parseStatusValue status = .ok ev ∧ ev.MessageID = status.ID
        ∧ ev.Status = status.Status ∧ ev.RecipientID = status.RecipientID
        ∧ ev.Timestamp = ⟨n, 0⟩)
    ∧ (∀ (payload : WebhookPayload) (msg : MessageValue) (contacts : List ContactValue)
        (status : StatusValue) (n k : Int),
      sourceMessages payload = [(msg, contacts)] → sourceStatuses payload = [status] →
      msg.Type_ = "text" →
      -9223372036854775808 ≤ n → n ≤ 9223372036854775807 → msg.Timestamp = toString n →
      -9223372036854775808 ≤ k → k ≤ 9223372036854775807 → status.Timestamp = toString k →
      ∃ mev sev, ParseMessageEvent payload = .ok [mev] ∧ ParseStatusEvent payload = .ok [sev]
        ∧ mev.MessageID = msg.ID ∧ mev.Type_ = "text" ∧ mev.Timestamp = ⟨n, 0⟩
        ∧ sev.MessageID = status.ID ∧ sev.Status = status.Status ∧ sev.Timestamp = ⟨k, 0⟩) := by
  have hmsg : ∀ (msg : MessageValue) (contacts : List ContactValue) (n : Int),
      -9223372036854775808 ≤ n → n ≤ 9223372036854775807 → msg.Timestamp = toString n →
      ∃ ev, parseMessageValue msg contacts = .ok ev ∧ ev.MessageID = msg.ID
        ∧ ev.From = msg.From ∧ ev.Type_ = msg.Type_ ∧ ev.Timestamp = ⟨n, 0⟩ := by
    intro msg contacts n hlo hhi hts
    have hp : strconv_ParseInt msg.Timestamp = .ok n := by
      rw [hts]
      exact strconv_ParseInt_of_reading_some _ n (int64OfDecimal?_toString n hlo hhi)
    obtain ⟨ev, h1, h2, h3, h4, h5⟩ := parseMessageValue_ok msg contacts n hp
    exact ⟨ev, h1, h2, h3, h4, by rw [h5]; rfl⟩
  have hst : ∀ (status : StatusValue) (n : Int),
      -9223372036854775808 ≤ n → n ≤ 9223372036854775807 → status.Timestamp = toString n →
      ∃ ev, parseStatusValue status = .ok ev ∧ ev.MessageID = status.ID
        ∧ ev.Status = status.Status ∧ ev.RecipientID = status.RecipientID
        ∧ ev.Timestamp = ⟨n, 0⟩ := by
    intro status n hlo hhi hts
    have hp : strconv_ParseInt status.Timestamp = .ok n := by
      rw [hts]
      exact strconv_ParseInt_of_reading_some _ n (int64OfDecimal?_toString n hlo hhi)
    obtain ⟨ev, h1, h2, h3, h4, h5⟩ := parseStatusValue_ok status n hp
    exact ⟨ev, h1, h2, h3, h4, by rw [h5]; rfl⟩
  refine ⟨hmsg, hst, ?_⟩
  intro payload msg contacts status n k hm hs htext hnlo hnhi hnts hklo hkhi hkts
  obtain ⟨mev, m1, m2, _, m4, m5⟩ := hmsg msg contacts n hnlo hnhi hnts
  obtain ⟨sev, s1, s2, s3, _, s5⟩ := hst status k hklo hkhi hkts
  refine ⟨mev, sev, ?_, ?_, m2, by rw [m4, htext], m5, s2, s3, s5⟩
  · rw [ParseMessageEvent_eq_allOrFirstError, hm]
    simp [allOrFirstError, m1]
  · rw [ParseStatusEvent_eq_allOrFirstError, hs]
    simp [allOrFirstError, s1]

/-- C9 at the sample envelope: one text message and one status give one event each, with
id, type or status, and timestamp of the source. -/
theorem extracted_events_carry_source_fields_witness :
    ∃ mev sev, ParseMessageEvent samplePayload = .ok [mev]
      ∧ ParseStatusEvent samplePayload = .ok [sev]
      ∧ mev.MessageID = "wamid.A1" ∧ mev.Type_ = "text" ∧ mev.Timestamp = ⟨1700000000, 0⟩
      ∧ sev.MessageID = "wamid.B2" ∧ sev.Status = "delivered"
      ∧ sev.Timestamp = ⟨1700000050, 0⟩ :=
  extracted_events_carry_source_fields.2.2 samplePayload sampleMessage [sampleContact]
    sampleStatus 1700000000 1700000050 rfl rfl rfl (by decide) (by decide) rfl
    (by decide) (by decide) rfl

/-- C10: a malformed timestamp fails the whole call.  `ParseMessageEvent` returns an error
(and with it no events at all) if and only if at least one raw message of the envelope has
a timestamp that is not a base-10 64-bit integer string; `ParseStatusEvent` returns an
error if and only if at least one raw status has such a timestamp. -/
theorem ParseEvents_error_iff_malformed_timestamp (payload : WebhookPayload) :
    ((∃ err, ParseMessageEvent payload = .error err)
        ↔ ∃ p ∈ sourceMessages payload, int64OfDecimal? p.1.Timestamp = none)
      ∧ ((∃ err, ParseStatusEvent payload = .error err)
        ↔ ∃ st ∈ sourceStatuses payload, int64OfDecimal? st.Timestamp = none) := by
  constructor
  · rw [ParseMessageEvent_eq_allOrFirstError, allOrFirstError_error_iff]
    constructor
    · rintro ⟨p, hp, he⟩
      exact ⟨p, hp, (strconv_ParseInt_error_iff _).mp ((parseMessageValue_error_iff p.1 p.2).mp he)⟩
    · rintro ⟨p, hp, hnone⟩
      exact ⟨p, hp, (parseMessageValue_error_iff p.1 p.2).mpr
        ((strconv_ParseInt_error_iff _).mpr hnone)⟩
  · rw [ParseStatusEvent_eq_allOrFirstError, allOrFirstError_error_iff]
    constructor
    · rintro ⟨st, hst, he⟩
      exact ⟨st, hst, (strconv_ParseInt_error_iff _).mp ((parseStatusValue_error_iff st).mp he)⟩
    · rintro ⟨st, hst, hnone⟩
      exact ⟨st, hst, (parseStatusValue_error_iff st).mpr
        ((strconv_ParseInt_error_iff _).mpr hnone)⟩

/-- C10 at a concrete envelope: the malformed timestamp of the second entry makes message
extraction fail although the first message is well-formed. -/
theorem ParseEvents_error_iff_malformed_timestamp_witness :
    ∃ err, ParseMessageEvent sampleBadPayload = .error err :=
  (ParseEvents_error_iff_malformed_timestamp sampleBadPayload).1.mpr
    ⟨(sampleBadMessage, []), by simp [sourceMessages, sampleBadPayload], rfl⟩

/-! ## Event normalizer: batch failure and isolation -/

/-- A string with a decimal reading parses. -/
theorem strconv_ParseInt_ok_of_reading_ne_none (s : String) (h : int64OfDecimal? s ≠ none) :
    ∃ n, strconv_ParseInt s = .ok n := by
  cases hr : int64OfDecimal? s with
  | none => exact absurd hr h
  | some v => exact ⟨v, strconv_ParseInt_of_reading_some s v hr⟩

/-- Messages with well-formed timestamps all convert. -/
theorem allOrFirstError_messages_ok (ps : List (MessageValue × List ContactValue))
    (h : ∀ p ∈ ps, int64OfDecimal? p.1.Timestamp ≠ none) :
    ∃ evs, allOrFirstError (fun p : MessageValue × List ContactValue =>
        parseMessageValue p.1 p.2) ps = .ok evs
      ∧ List.Forall₂ (fun p ev => parseMessageValue p.1 p.2 = .ok ev) ps evs :=
  allOrFirstError_ok_of_forall _ ps (fun p hp => by
    obtain ⟨n, hn⟩ := strconv_ParseInt_ok_of_reading_ne_none _ (h p hp)
    obtain ⟨ev, hev, _⟩ := parseMessageValue_ok p.1 p.2 n hn
    exact ⟨ev, hev⟩)

/-- Statuses with well-formed timestamps all convert. -/
theorem allOrFirstError_statuses_ok (sts : List StatusValue)
    (h : ∀ st ∈ sts, int64OfDecimal? st.Timestamp ≠ none) :
    ∃ evs, allOrFirstError parseStatusValue sts = .ok evs
      ∧ List.Forall₂ (fun st ev => parseStatusValue st = .ok ev) sts evs :=
  allOrFirstError_ok_of_forall _ sts (fun st hst => by
    obtain ⟨n, hn⟩ := strconv_ParseInt_ok_of_reading_ne_none _ (h st hst)
    obtain ⟨ev, hev, _⟩ := parseStatusValue_ok st n hn
    exact ⟨ev, hev⟩)

/-- C11 (as stated, refuted): in the sample envelope the first message is well-formed and
the second has a malformed timestamp, and message extraction yields no events at all, so
the event of the well-formed message is not delivered. -/
theorem ParseMessageEvent_keeps_siblings_counterexample :
    sourceMessages sampleBadPayload = [(sampleMessage, [sampleContact]), (sampleBadMessage, [])]
      ∧ int64OfDecimal? sampleMessage.Timestamp = some 1700000000
      ∧ int64OfDecimal? sampleBadMessage.Timestamp = none
      ∧ ¬ ∃ events, ParseMessageEvent sampleBadPayload = .ok events := by
  refine ⟨rfl, rfl, rfl, ?_⟩
  rintro ⟨events, h⟩
  have herr : ParseMessageEvent sampleBadPayload
      = .error (.invalidTimestamp ⟨"ParseInt", "yesterday", .ErrSyntax⟩) := rfl
  rw [herr] at h
  cases h

/-- C11 (amended): a malformed timestamp is a hard failure for the whole message
extraction call.  For every envelope in which one message has a malformed timestamp and the
messages before it are well-formed (whatever the messages after it are, well-formed
included), `ParseMessageEvent` returns the invalid-timestamp error of that message and no
events, not even those of the other messages. -/
theorem ParseMessageEvent_malformed_fails_whole_call (payload : WebhookPayload)
    (pre post : List (MessageValue × List ContactValue)) (msg : MessageValue)
    (contacts : List ContactValue)
    (hsrc : sourceMessages payload = pre ++ (msg, contacts) :: post)
    (hpre : ∀ p ∈ pre, int64OfDecimal? p.1.Timestamp ≠ none)
    (hbad : int64OfDecimal? msg.Timestamp = none) :
    ∃ e, strconv_ParseInt msg.Timestamp = .error e
      ∧ ParseMessageEvent payload = .error (.invalidTimestamp e) := by
  obtain ⟨e, he⟩ := strconv_ParseInt_of_reading_none _ hbad
  obtain ⟨evs, hevs, _⟩ := allOrFirstError_messages_ok pre hpre
  refine ⟨e, he, ?_⟩
  rw [ParseMessageEvent_eq_allOrFirstError, hsrc, allOrFirstError_append, hevs]
  simp [allOrFirstError, parseMessageValue, he, Except.map]

/-- C11 (amended) at the sample envelope. -/
theorem ParseMessageEvent_malformed_fails_whole_call_witness :
    ∃ e, strconv_ParseInt "yesterday" = .error e
      ∧ ParseMessageEvent sampleBadPayload = .error (.invalidTimestamp e) :=
  ParseMessageEvent_malformed_fails_whole_call sampleBadPayload
    [(sampleMessage, [sampleContact])] [] sampleBadMessage [] rfl
    (by
      intro p hp
      rw [List.mem_singleton] at hp
      subst hp
      have h : int64OfDecimal? sampleMessage.Timestamp = some 1700000000 := rfl
      rw [h]
      exact Option.some_ne_none _)
    rfl

theorem List.flatMap_congr_of_forall₂ {α β γ : Type} (R : α → β → Prop) (f : α → List γ)
    (g : β → List γ) (hfg : ∀ a b, R a b → f a = g b) (l1 : List α) (l2 : List β)
    (h : List.Forall₂ R l1 l2) : l1.flatMap f = l2.flatMap g := by
  induction h with
  | nil => rfl
  | @cons a b as bs hab _ ih =>
    simp only [List.flatMap_cons, hfg a b hab, ih]

/-- Envelopes that differ only in messages and contacts have the same statuses in source
order. -/
theorem sourceStatuses_of_SameStatuses (p q : WebhookPayload) (h : SameStatuses p q) :
    sourceStatuses p = sourceStatuses q := by
  unfold sourceStatuses
  refine List.flatMap_congr_of_forall₂ _ _ _ ?_ _ _ h
  intro e1 e2 he
  exact List.flatMap_congr_of_forall₂ _ _ _ (fun c1 c2 hc => hc) _ _ he

/-- Envelopes that differ only in statuses have the same messages, each with the contacts
of its change, in source order. -/
theorem sourceMessages_of_SameMessages (p q : WebhookPayload) (h : SameMessages p q) :
    sourceMessages p = sourceMessages q := by
  unfold sourceMessages
  refine List.flatMap_congr_of_forall₂ _ _ _ ?_ _ _ h
  intro e1 e2 he
  refine List.flatMap_congr_of_forall₂ _ _ _ ?_ _ _ he
  intro c1 c2 hc
  rw [hc.1, hc.2]

/-- C12: status extraction is isolated from message extraction.  The result of
`ParseStatusEvent` is determined by the statuses of the envelope in source order, so two
envelopes that differ only in their messages and contacts give the same result; an envelope
with an unparseable message timestamp and well-formed statuses makes `ParseMessageEvent`
fail while `ParseStatusEvent` succeeds with one event per status, in order.  Symmetrically
the result of `ParseMessageEvent` is determined by the messages and their contacts, and a
malformed status timestamp does not make it fail. -/
theorem extraction_of_statuses_and_messages_isolated (p q : WebhookPayload) :
    (sourceStatuses p = sourceStatuses q → ParseStatusEvent p = ParseStatusEvent q)
    ∧ (SameStatuses p q → ParseStatusEvent p = ParseStatusEvent q)
    ∧ ((∃ m ∈ sourceMessages p, int64OfDecimal? m.1.Timestamp = none) →
        (∀ st ∈ sourceStatuses p, int64OfDecimal? st.Timestamp ≠ none) →
        (∃ err, ParseMessageEvent p = .error err)
        ∧ ∃ events, ParseStatusEvent p = .ok events
            ∧ List.Forall₂ (fun st ev => parseStatusValue st = .ok ev) (sourceStatuses p) events
            ∧ events.length = (sourceStatuses p).length)
    ∧ (sourceMessages p = sourceMessages q → ParseMessageEvent p = ParseMessageEvent q)
    ∧ (SameMessages p q → ParseMessageEvent p = ParseMessageEvent q)
    ∧ ((∃ st ∈ sourceStatuses p, int64OfDecimal? st.Timestamp = none) →
        (∀ m ∈ sourceMessages p, int64OfDecimal? m.1.Timestamp ≠ none) →
        (∃ err, ParseStatusEvent p = .error err)
        ∧ ∃ events, ParseMessageEvent p = .ok events
            ∧ List.Forall₂ (fun m ev => parseMessageValue m.1 m.2 = .ok ev)
                (sourceMessages p) events
            ∧ events.length = (sourceMessages p).length) := by
  have hS : sourceStatuses p = sourceStatuses q → ParseStatusEvent p = ParseStatusEvent q := by
    intro h
    rw [ParseStatusEvent_eq_allOrFirstError, ParseStatusEvent_eq_allOrFirstError, h]
  have hM : sourceMessages p = sourceMessages q → ParseMessageEvent p = ParseMessageEvent q := by
    intro h
    rw [ParseMessageEvent_eq_allOrFirstError, ParseMessageEvent_eq_allOrFirstError, h]
  refine ⟨hS, fun h => hS (sourceStatuses_of_SameStatuses p q h), ?_, hM,
    fun h => hM (sourceMessages_of_SameMessages p q h), ?_⟩
  · rintro ⟨m, hm, hbad⟩ hgood
    constructor
    · rw [ParseMessageEvent_eq_allOrFirstError, allOrFirstError_error_iff]
      exact ⟨m, hm, (parseMessageValue_error_iff m.1 m.2).mpr
        (strconv_ParseInt_of_reading_none _ hbad)⟩
    · obtain ⟨evs, hevs, hf2⟩ := allOrFirstError_statuses_ok (sourceStatuses p) hgood
      exact ⟨evs, by rw [ParseStatusEvent_eq_allOrFirstError]; exact hevs, hf2,
        hf2.length_eq.symm⟩
  · rintro ⟨st, hst, hbad⟩ hgood
    constructor
    · rw [ParseStatusEvent_eq_allOrFirstError, allOrFirstError_error_iff]
      exact ⟨st, hst, (parseStatusValue_error_iff st).mpr
        (strconv_ParseInt_of_reading_none _ hbad)⟩
    · obtain ⟨evs, hevs, hf2⟩ := allOrFirstError_messages_ok (sourceMessages p) hgood
      exact ⟨evs, by rw [ParseMessageEvent_eq_allOrFirstError]; exact hevs, hf2,
        hf2.length_eq.symm⟩

/-- C12 at concrete envelopes: removing the messages (one of them malformed) leaves the
status result unchanged; with the malformed message present, message extraction fails and
status extraction returns its one event; with a malformed status, status extraction fails
and message extraction returns its one event. -/
theorem extraction_of_statuses_and_messages_isolated_witness :
    ParseStatusEvent sampleBadPayload = ParseStatusEvent sampleStatusOnlyPayload
      ∧ ((∃ err, ParseMessageEvent sampleBadPayload = .error err)
        ∧ ∃ events, ParseStatusEvent sampleBadPayload = .ok events ∧ events.length = 1)
      ∧ ((∃ err, ParseStatusEvent sampleBadStatusPayload = .error err)
        ∧ ∃ events, ParseMessageEvent sampleBadStatusPayload = .ok events
            ∧ events.length = 1) :=
  ⟨(extraction_of_statuses_and_messages_isolated sampleBadPayload sampleStatusOnlyPayload).2.1
      (List.Forall₂.cons (List.Forall₂.cons rfl List.Forall₂.nil)
        (List.Forall₂.cons (List.Forall₂.cons rfl List.Forall₂.nil) List.Forall₂.nil)),
   by
    obtain ⟨h1, events, h2, _, h4⟩ :=
      (extraction_of_statuses_and_messages_isolated sampleBadPayload sampleBadPayload).2.2.1
        ⟨(sampleBadMessage, []), by simp [sourceMessages, sampleBadPayload], rfl⟩
        (by
          intro st hst
          have hst2 : st = sampleStatus := by
            simpa [sourceStatuses, sampleBadPayload] using hst
          subst hst2
          have h : int64OfDecimal? sampleStatus.Timestamp = some 1700000050 := rfl
          rw [h]
          exact Option.some_ne_none _)
    exact ⟨h1, events, h2, h4⟩,
   by
    obtain ⟨h1, events, h2, _, h4⟩ :=
      (extraction_of_statuses_and_messages_isolated sampleBadStatusPayload
        sampleBadStatusPayload).2.2.2.2.2
        ⟨sampleBadStatus, by simp [sourceStatuses, sampleBadStatusPayload], rfl⟩
        (by
          intro m hm
          have hm2 : m = (sampleMessage, [sampleContact]) := by
            simpa [sourceMessages, sampleBadStatusPayload] using hm
          subst hm2
          have h : int64OfDecimal? sampleMessage.Timestamp = some 1700000000 := rfl
          rw [h]
          exact Option.some_ne_none _)
    exact ⟨h1, events, h2, h4⟩⟩

/-! ## Event normalizer: content and contact name -/

/-- C13: for a raw message with a parseable timestamp the content follows the declared type.
`text` sets `Content` to the text body and leaves all media fields empty; `image` and
`video` set `MediaID`, `MimeType` and `Caption` and leave `Filename` and `Content` empty;
`document` sets these and `Filename`; `audio` sets only `MediaID` and `MimeType`, the
caption staying empty whatever the sub-objects hold.  Only the sub-object named by the
declared type is read: a message that agrees in id, sender, timestamp, type and that
sub-object converts to the same event. -/
theorem parseMessageValue_content_by_type (msg : MessageValue) (contacts : List ContactValue)
    (n : Int) (hts : strconv_ParseInt msg.Timestamp = .ok n) :
    (∀ t, msg.Type_ = "text" → msg.Text = some t →
      parseMessageValue msg contacts
        = .ok { contentFreeEvent msg contacts n with Content := t.Body })
    ∧ (∀ m, msg.Type_ = "image" → msg.Image = some m →
      parseMessageValue msg contacts
        = .ok { contentFreeEvent msg contacts n with
                MediaID := m.ID, MimeType := m.MimeType, Caption := m.Caption })
    ∧ (∀ m, msg.Type_ = "video" → msg.Video = some m →
      parseMessageValue msg contacts
        = .ok { contentFreeEvent msg contacts n with
                MediaID := m.ID, MimeType := m.MimeType, Caption := m.Caption })
    ∧ (∀ m, msg.Type_ = "document" → msg.Document = some m →
      parseMessageValue msg contacts
        = .ok { contentFreeEvent msg contacts n with
                MediaID := m.ID, MimeType := m.MimeType, Caption := m.Caption,
                Filename := m.Filename })
    ∧ (∀ m, msg.Type_ = "audio" → msg.Audio = some m →
      parseMessageValue msg contacts
        = .ok { contentFreeEvent msg contacts n with MediaID := m.ID, MimeType := m.MimeType })
    ∧ (∀ other : MessageValue, other.ID = msg.ID → other.From = msg.From →
        other.Timestamp = msg.Timestamp → other.Type_ = msg.Type_ →
        (msg.Type_ = "text" → other.Text = msg.Text) →
        (msg.Type_ = "image" → other.Image = msg.Image) →
        (msg.Type_ = "document" → other.Document = msg.Document) →
        (msg.Type_ = "audio" → other.Audio = msg.Audio) →
        (msg.Type_ = "video" → other.Video = msg.Video) →
        parseMessageValue other contacts = parseMessageValue msg contacts) := by
  refine ⟨?_, ?_, ?_, ?_, ?_, ?_⟩
  · intro t hty hsub
    simp [parseMessageValue, hts, hty, hsub, contentFreeEvent]
  · intro m hty hsub
    simp [parseMessageValue, hts, hty, hsub, contentFreeEvent]
  · intro m hty hsub
    simp [parseMessageValue, hts, hty, hsub, contentFreeEvent]
  · intro m hty hsub
    simp [parseMessageValue, hts, hty, hsub, contentFreeEvent]
  · intro m hty hsub
    simp [parseMessageValue, hts, hty, hsub, contentFreeEvent]
  · intro other hid hfrom htime htype htext himage hdoc haudio hvideo
    simp only [parseMessageValue, hid, hfrom, htime, htype, hts]
    by_cases h1 : msg.Type_ = "text"
    · simp only [h1, if_true, htext h1]
    · by_cases h2 : msg.Type_ = "image"
      · simp [h2, himage h2]
      · by_cases h3 : msg.Type_ = "document"
        · simp [h3, hdoc h3]
        · by_cases h4 : msg.Type_ = "audio"
          · simp [h4, haudio h4]
          · by_cases h5 : msg.Type_ = "video"
            · simp [h5, hvideo h5]
            · simp [h1, h2, h3, h4, h5]

/-- C13 at a concrete message: an audio message with a caption in its audio sub-object and
with text and image sub-objects present yields only the media id and the MIME type. -/
theorem parseMessageValue_content_by_type_witness :
    parseMessageValue sampleAudioMessage [sampleContact]
      = .ok { MessageID := "wamid.A3", From := "15551234567", Timestamp := ⟨1700000100, 0⟩,
              Type_ := "audio", ContactName := "Asha", Content := "", MediaID := "aud-1",
              MediaURL := "", MimeType := "audio/ogg", Caption := "", Filename := "" } :=
  (parseMessageValue_content_by_type sampleAudioMessage [sampleContact] 1700000100 rfl).2.2.2.2.1
    ⟨"aud-1", "audio/ogg", "spoken", "voice.ogg"⟩ rfl rfl

theorem allOrFirstError_ok_forall₂ {α β ε : Type} (f : α → Except ε β) (l : List α) :
    ∀ ys, allOrFirstError f l = .ok ys → List.Forall₂ (fun x y => f x = .ok y) l ys := by
  induction l with
  | nil =>
    intro ys h
    simp only [allOrFirstError, Except.ok.injEq] at h
    subst h
    exact List.Forall₂.nil
  | cons x xs ih =>
    intro ys h
    simp only [allOrFirstError] at h
    cases hx : f x with
    | error e => rw [hx] at h; cases h
    | ok y =>
      rw [hx] at h
      cases hxs : allOrFirstError f xs with
      | error e => rw [hxs] at h; cases h
      | ok zs =>
        rw [hxs] at h
        simp only [Except.ok.injEq] at h
        subst h
        exact List.Forall₂.cons hx (ih zs hxs)

/-- A message without extractable content converts to the event with empty content
fields. -/
theorem parseMessageValue_of_declaredContentMissing (msg : MessageValue)
    (contacts : List ContactValue) (n : Int) (hts : strconv_ParseInt msg.Timestamp = .ok n)
    (hmiss : declaredContentMissing msg) :
    parseMessageValue msg contacts = .ok (contentFreeEvent msg contacts n) := by
  rcases hmiss with ⟨h1, h2, h3, h4, h5⟩ | ⟨hty, hsub⟩ | ⟨hty, hsub⟩ | ⟨hty, hsub⟩
      | ⟨hty, hsub⟩ | ⟨hty, hsub⟩
  · simp [parseMessageValue, hts, h1, h2, h3, h4, h5, contentFreeEvent]
  · simp [parseMessageValue, hts, hty, hsub, contentFreeEvent]
  · simp [parseMessageValue, hts, hty, hsub, contentFreeEvent]
  · simp [parseMessageValue, hts, hty, hsub, contentFreeEvent]
  · simp [parseMessageValue, hts, hty, hsub, contentFreeEvent]
  · simp [parseMessageValue, hts, hty, hsub, contentFreeEvent]

/-- C14: a raw message with a parseable timestamp whose declared type is none of text,
image, document, audio, video, or whose declared type names a missing sub-object, converts
successfully to an event with `Content`, `MediaID`, `MimeType`, `Caption` and `Filename`
all empty.  Such a message never makes `ParseMessageEvent` fail or drop sibling events: in
an envelope whose other messages have well-formed timestamps the result is the events of
the messages before it, its own event, and the events of the messages after it. -/
theorem parseMessageValue_unknown_type_empty_content (msg : MessageValue)
    (contacts : List ContactValue) (n : Int) (hts : strconv_ParseInt msg.Timestamp = .ok n)
    (hmiss : declaredContentMissing msg) :
    (∃ ev, parseMessageValue msg contacts = .ok ev ∧ ev.Content = "" ∧ ev.MediaID = ""
      ∧ ev.MimeType = "" ∧ ev.Caption = "" ∧ ev.Filename = ""
      ∧ ev.MessageID = msg.ID ∧ ev.Type_ = msg.Type_)
    ∧ (∀ (payload : WebhookPayload) (pre post : List (MessageValue × List ContactValue)),
        sourceMessages payload = pre ++ (msg, contacts) :: post →
        (∀ p ∈ pre, int64OfDecimal? p.1.Timestamp ≠ none) →
        (∀ p ∈ post, int64OfDecimal? p.1.Timestamp ≠ none) →
        ∃ evsPre evsPost, ParseMessageEvent payload
            = .ok (evsPre ++ contentFreeEvent msg contacts n :: evsPost)
          ∧ List.Forall₂ (fun p ev => parseMessageValue p.1 p.2 = .ok ev) pre evsPre
          ∧ List.Forall₂ (fun p ev => parseMessageValue p.1 p.2 = .ok ev) post evsPost) := by
  have hev := parseMessageValue_of_declaredContentMissing msg contacts n hts hmiss
  constructor
  · exact ⟨_, hev, rfl, rfl, rfl, rfl, rfl, rfl, rfl⟩
  · intro payload pre post hsrc hpre hpost
    obtain ⟨evsPre, h1, f1⟩ := allOrFirstError_messages_ok pre hpre
    obtain ⟨evsPost, h2, f2⟩ := allOrFirstError_messages_ok post hpost
    refine ⟨evsPre, evsPost, ?_, f1, f2⟩
    rw [ParseMessageEvent_eq_allOrFirstError, hsrc, allOrFirstError_append, h1]
    simp [allOrFirstError, hev, h2, Except.map]

/-- C14 at a concrete envelope: a sticker message between two text messages. -/
theorem parseMessageValue_unknown_type_empty_content_witness :
    ∃ evsPre evsPost, ParseMessageEvent sampleMixedPayload
        = .ok (evsPre ++ contentFreeEvent sampleStickerMessage [sampleContact] 1700000200
            :: evsPost)
      ∧ evsPre.length = 1 ∧ evsPost.length = 1 := by
  have hgood : int64OfDecimal? sampleMessage.Timestamp ≠ none := by
    have h : int64OfDecimal? sampleMessage.Timestamp = some 1700000000 := rfl
    rw [h]
    exact Option.some_ne_none _
  obtain ⟨evsPre, evsPost, h, f1, f2⟩ :=
    (parseMessageValue_unknown_type_empty_content sampleStickerMessage [sampleContact]
      1700000200 rfl (Or.inl (by decide))).2 sampleMixedPayload
      [(sampleMessage, [sampleContact])]
      [(sampleMessage, [⟨"15550000000", ⟨"Other"⟩⟩, ⟨"15551234567", ⟨"Asha K"⟩⟩,
          ⟨"15551234567", ⟨"Late"⟩⟩])]
      rfl
      (by intro p hp; rw [List.mem_singleton] at hp; subst hp; exact hgood)
      (by intro p hp; rw [List.mem_singleton] at hp; subst hp; exact hgood)
  exact ⟨evsPre, evsPost, h, f1.length_eq.symm, f2.length_eq.symm⟩

/-- The contact loop returns the profile name of the first contact of the sender. -/
theorem parseMessageValue.contactName_eq_firstContactOf (sender : String)
    (contacts : List ContactValue) :
    parseMessageValue.contactName sender contacts
      = (match firstContactOf sender contacts with
          | some c => c.Profile.Name
          | none => "") := by
  induction contacts with
  | nil => rfl
  | cons c cs ih =>
    by_cases hc : c.WaID = sender
    · simp [parseMessageValue.contactName, firstContactOf, hc]
    · simp only [parseMessageValue.contactName, hc, if_false, ih, firstContactOf]
      have hb : (c.WaID == sender) = false := by simpa using hc
      simp [List.find?, hb]

/-- Every converted message carries the contact name the loop computes on the contacts it
was given. -/
theorem parseMessageValue_contactName (msg : MessageValue) (contacts : List ContactValue)
    (ev : MessageEvent) (h : parseMessageValue msg contacts = .ok ev) :
    ev.ContactName = parseMessageValue.contactName msg.From contacts := by
  cases hts : strconv_ParseInt msg.Timestamp with
  | error e => simp [parseMessageValue, hts] at h
  | ok n =>
    simp only [parseMessageValue, hts, Except.ok.injEq] at h
    rw [← h]
    (repeat' split) <;> rfl

theorem parseMessageValue.contactName_skip (sender : String) (pre rest : List ContactValue)
    (h : ∀ d ∈ pre, d.WaID ≠ sender) :
    parseMessageValue.contactName sender (pre ++ rest)
      = parseMessageValue.contactName sender rest := by
  induction pre with
  | nil => rfl
  | cons d ds ih =>
    have hd : d.WaID ≠ sender := h d (List.mem_cons_self d ds)
    simp only [List.cons_append, parseMessageValue.contactName, hd, if_false]
    exact ih (fun e he => h e (List.mem_cons_of_mem d he))

/-- C15: for a message and the contact list of its change, the `ContactName` of the event
is the profile name of the first contact whose `WaID` equals the sender of the message, and
is empty when no contact matches.  In an envelope every event takes its name from the
contacts of the change its message came from; the contacts of other changes are not
consulted. -/
theorem ContactName_from_first_contact_of_same_change (msg : MessageValue)
    (contacts : List ContactValue) (ev : MessageEvent)
    (h : parseMessageValue msg contacts = .ok ev) :
    (ev.ContactName = (match firstContactOf msg.From contacts with
        | some c => c.Profile.Name
        | none => ""))
    ∧ (∀ (pre post : List ContactValue) (c : ContactValue), contacts = pre ++ c :: post →
        (∀ d ∈ pre, d.WaID ≠ msg.From) → c.WaID = msg.From → ev.ContactName = c.Profile.Name)
    ∧ ((∀ d ∈ contacts, d.WaID ≠ msg.From) → ev.ContactName = "")
    ∧ (∀ (payload : WebhookPayload) (events : List MessageEvent),
        ParseMessageEvent payload = .ok events →
        List.Forall₂ (fun (p : MessageValue × List ContactValue) (e : MessageEvent) =>
            e.ContactName = (match firstContactOf p.1.From p.2 with
              | some c => c.Profile.Name
              | none => ""))
          (sourceMessages payload) events) := by
  have hname := parseMessageValue_contactName msg contacts ev h
  refine ⟨?_, ?_, ?_, ?_⟩
  · rw [hname]
    exact parseMessageValue.contactName_eq_firstContactOf msg.From contacts
  · intro pre post c hsplit hpre hc
    rw [hname, hsplit, parseMessageValue.contactName_skip msg.From pre (c :: post) hpre]
    simp [parseMessageValue.contactName, hc]
  · intro hnone
    rw [hname]
    have := parseMessageValue.contactName_skip msg.From contacts [] hnone
    rw [List.append_nil] at this
    rw [this]
    rfl
  · intro payload events hok
    rw [ParseMessageEvent_eq_allOrFirstError] at hok
    have hf2 := allOrFirstError_ok_forall₂ _ _ events hok
    refine List.Forall₂.imp ?_ hf2
    intro p e hpe
    rw [parseMessageValue_contactName p.1 p.2 e hpe]
    exact parseMessageValue.contactName_eq_firstContactOf p.1.From p.2

/-- C15 at a concrete envelope: the same message occurs in two changes; in the first change
the sender is listed as `Asha`, in the second change first as `Asha K` and then as `Late`.
The events take the names `Asha` and `Asha` (the two messages of the first change) and
`Asha K` (second change). -/
theorem ContactName_from_first_contact_of_same_change_witness :
    ∃ events, ParseMessageEvent sampleMixedPayload = .ok events
      ∧ events.map (fun e => e.ContactName) = ["Asha", "Asha", "Asha K"] := by
  have hev : parseMessageValue sampleMessage [sampleContact]
      = .ok { contentFreeEvent sampleMessage [sampleContact] 1700000000 with
              Content := "hello" } := rfl
  have hall := (ContactName_from_first_contact_of_same_change sampleMessage [sampleContact]
    _ hev).2.2.2 sampleMixedPayload
  cases hp : ParseMessageEvent sampleMixedPayload with
  | error e =>
    have : ParseMessageEvent sampleMixedPayload ≠ .error e := by
      intro hc
      have hok : ∃ evs, ParseMessageEvent sampleMixedPayload = .ok evs := ⟨_, rfl⟩
      obtain ⟨evs, hevs⟩ := hok
      rw [hevs] at hc
      cases hc
    exact absurd hp this
  | ok events =>
    refine ⟨events, rfl, ?_⟩
    have hf2 := hall events hp
    have hsrc : sourceMessages sampleMixedPayload
        = [(sampleMessage, [sampleContact]), (sampleStickerMessage, [sampleContact]),
           (sampleMessage, [⟨"15550000000", ⟨"Other"⟩⟩, ⟨"15551234567", ⟨"Asha K"⟩⟩,
              ⟨"15551234567", ⟨"Late"⟩⟩])] := rfl
    rw [hsrc] at hf2
    cases hf2 with
    | cons h1 t1 =>
      cases t1 with
      | cons h2 t2 =>
        cases t2 with
        | cons h3 t3 =>
          cases t3
          simp only [List.map_cons, List.map_nil]
          rw [h1, h2, h3]
          rfl

/-! ## Provider client: payloads -/

theorem mapGet?_mapSet_self (m : List (String × JSONValue)) (k : String) (v : JSONValue) :
    mapGet? (mapSet m k v) k = some v := by
  unfold mapSet
  by_cases hany : m.any (fun kv => kv.1 == k) = true
  · rw [if_pos hany]
    induction m with
    | nil => simp at hany
    | cons kv rest ih =>
      by_cases hk : kv.1 = k
      · simp [mapGet?, List.find?, hk]
      · have hrest : rest.any (fun kv => kv.1 == k) = true := by
          simpa [List.any_cons, hk] using hany
        have hb : (kv.1 == k) = false := by simpa using hk
        have := ih hrest
        simp only [mapGet?, List.map_cons, hb, Bool.false_eq_true, if_false, List.find?] at this ⊢
        exact this
  · rw [if_neg hany]
    induction m with
    | nil => simp [mapGet?, List.find?]
    | cons kv rest ih =>
      have hk : (kv.1 == k) = false := by
        by_contra hc
        apply hany
        simp only [List.any_cons, Bool.or_eq_true]
        left
        simpa using hc
      have hrest : ¬ rest.any (fun kv => kv.1 == k) = true := by
        intro hc
        apply hany
        simp only [List.any_cons, Bool.or_eq_true]
        right
        exact hc
      have := ih hrest
      simp only [mapGet?, List.cons_append, List.find?, hk] at this ⊢
      exact this

theorem mapGet?_mapSet_of_ne (m : List (String × JSONValue)) (k j : String) (v : JSONValue)
    (hne : j ≠ k) : mapGet? (mapSet m k v) j = mapGet? m j := by
  unfold mapSet
  by_cases hany : m.any (fun kv => kv.1 == k) = true
  · rw [if_pos hany]
    clear hany
    induction m with
    | nil => rfl
    | cons kv rest ih =>
      by_cases hk : kv.1 = k
      · have hj : (k == j) = false := by simpa using (Ne.symm hne)
        have hj2 : (kv.1 == j) = false := by rw [hk]; exact hj
        have hkb : (kv.1 == k) = true := by simpa using hk
        simp only [mapGet?, List.map_cons, hkb, if_true, List.find?, hj, hj2] at ih ⊢
        exact ih
      · have hkb : (kv.1 == k) = false := by simpa using hk
        simp only [mapGet?, List.map_cons, hkb, Bool.false_eq_true, if_false, List.find?] at ih ⊢
        cases hkj : (kv.1 == j) with
        | true => rfl
        | false => exact ih
  · rw [if_neg hany]
    clear hany
    have hj : (k == j) = false := by simpa using (Ne.symm hne)
    induction m with
    | nil => simp [mapGet?, List.find?, hj]
    | cons kv rest ih =>
      simp only [mapGet?, List.cons_append, List.find?] at ih ⊢
      cases hkj : (kv.1 == j) with
      | true => rfl
      | false => exact ih

theorem List.take_succ_set_self {α : Type} (l : List α) :
    ∀ (k : Nat) (v : α), k < l.length → (l.set k v).take (k + 1) = l.take k ++ [v] := by
  induction l with
  | nil => intro k v h; simp at h
  | cons a as ih =>
    intro k v h
    cases k with
    | zero => simp
    | succ k =>
      simp only [List.length_cons, Nat.add_lt_add_iff_right] at h
      simp only [List.set_cons_succ, List.take_succ_cons, List.cons_append, ih k v h]

/-- The index loop fills the slice with one text parameter per element, in order. -/
theorem SendTemplateMessage.parameters_loop (ps : List String) :
    ∀ (k : Nat) (l : List JSONValue), l.length = k + ps.length →
      (ps.enumFrom k).foldl
          (fun parameters ip =>
            parameters.set ip.1 (.obj (mapLiteral [("type", .str "text"), ("text", .str ip.2)])))
          l
        = l.take k ++ ps.map (fun p => JSONValue.obj [("type", .str "text"), ("text", .str p)]) := by
  induction ps with
  | nil =>
    intro k l hl
    simp only [List.length_nil, Nat.add_zero] at hl
    simp [List.enumFrom, ← hl]
  | cons p ps ih =>
    intro k l hl
    simp only [List.length_cons] at hl
    simp only [List.enumFrom_cons, List.foldl_cons, List.map_cons]
    rw [ih (k + 1) _ (by rw [List.length_set]; omega),
      List.take_succ_set_self l k _ (by omega)]
    simp only [List.append_assoc, List.singleton_append]
    rfl

/-- The parameters of a template send: one text parameter per element of `params`, in
order. -/
theorem SendTemplateMessage.parameters_eq_map (params : List String) :
    SendTemplateMessage.parameters params
      = params.map (fun p => JSONValue.obj [("type", .str "text"), ("text", .str p)]) := by
  have h := SendTemplateMessage.parameters_loop params 0
    (List.replicate params.length .null) (by simp)
  simpa [SendTemplateMessage.parameters, List.enum] using h

/-- C16: for a non-empty parameter list the payload built by `SendTemplateMessage` has a
template object that carries the template name and the language code and whose components
list has exactly one component, of type `body`; the parameters list of that component has
the length of `params`, and its `i`-th parameter is the object with type `text` and text
`params[i]`, for every index `i`. -/
theorem SendTemplateMessage_body_component (to_ templateName language : String)
    (params : List String) (hne : params ≠ []) :
    ∃ template parameters,
      (SendTemplateMessage.payload to_ templateName language params).get? "template"
          = some template
        ∧ template.get? "name" = some (.str templateName)
        ∧ template.get? "language" = some (.obj [("code", .str language)])
        ∧ template.get? "components"
            = some (.arr [.obj [("type", .str "body"), ("parameters", .arr parameters)]])
        ∧ parameters.length = params.length
        ∧ (∀ i (hi : i < params.length),
            parameters[i]? = some (.obj [("type", .str "text"), ("text", .str (params.get ⟨i, hi⟩))]))
        ∧ parameters
            = params.map (fun p => JSONValue.obj [("type", .str "text"), ("text", .str p)]) := by
  have hlen : params.length > 0 := List.length_pos.mpr hne
  refine ⟨_, params.map (fun p => JSONValue.obj [("type", .str "text"), ("text", .str p)]),
    rfl, rfl, rfl, ?_, by simp, ?_, rfl⟩
  · have hc : SendTemplateMessage.components params
        = [.obj [("type", .str "body"),
            ("parameters", .arr (params.map (fun p =>
              JSONValue.obj [("type", .str "text"), ("text", .str p)])))]] := by
      simp only [SendTemplateMessage.components, hlen, if_true,
        SendTemplateMessage.parameters_eq_map]
      rfl
    show mapGet? _ "components" = _
    rw [← hc]
    rfl
  · intro i hi
    simp [List.getElem?_map, List.getElem?_eq_getElem hi]

/-- C16 at a concrete send with two parameters. -/
theorem SendTemplateMessage_body_component_witness :
    ∃ template parameters,
      (SendTemplateMessage.payload "15551234567" "order_update" "en_US"
          ["Asha", "A-1042"]).get? "template" = some template
        ∧ template.get? "components"
            = some (.arr [.obj [("type", .str "body"), ("parameters", .arr parameters)]])
        ∧ parameters = [.obj [("type", .str "text"), ("text", .str "Asha")],
                        .obj [("type", .str "text"), ("text", .str "A-1042")]] := by
  obtain ⟨template, parameters, h1, _, _, h4, _, _, h7⟩ :=
    SendTemplateMessage_body_component "15551234567" "order_update" "en_US"
      ["Asha", "A-1042"] (by decide)
  exact ⟨template, parameters, h1, h4, h7⟩

/-- C17 (as stated, refuted): for an empty parameter list the template object of the
payload does contain a `components` member; its value is the empty array. -/
theorem SendTemplateMessage_no_components_field_counterexample :
    ∃ template,
      (SendTemplateMessage.payload "15551234567" "hello_world" "en_US" []).get? "template"
          = some template
        ∧ template.get? "components" = some (.arr [])
        ∧ template.get? "components" ≠ none :=
  ⟨_, rfl, rfl, by
    intro h
    have h2 : (JSONValue.obj (mapLiteral
        [("name", .str "hello_world"),
         ("language", .obj (mapLiteral [("code", .str "en_US")])),
         ("components", .arr (SendTemplateMessage.components []))])).get? "components"
        = some (.arr []) := rfl
    rw [h2] at h
    cases h⟩

/-- C17 (amended): a template send with zero parameters serializes with an empty components
array.  For an empty (or nil) parameter list the template object of the payload built by
`SendTemplateMessage` contains the `components` member with the empty array as its value:
there is no body component, and the member itself is present. -/
theorem SendTemplateMessage_empty_components (to_ templateName language : String) :
    ∃ template,
      (SendTemplateMessage.payload to_ templateName language []).get? "template" = some template
        ∧ template.get? "components" = some (.arr [])
        ∧ template.get? "name" = some (.str templateName)
        ∧ template.get? "language" = some (.obj [("code", .str language)]) :=
  ⟨_, rfl, rfl, rfl, rfl⟩

/-- C18: in the payload built by `SendMediaMessage` the media object is the member named by
the media kind, its link is the media URL, and it carries a caption if and only if the
caption is non-empty and the media kind is image, video or document (the caption member is
then the caption passed); for audio it never has a caption, whatever caption is passed.
The `type` member of the payload equals the media kind, for every kind other than the
word `type` itself. -/
theorem SendMediaMessage_caption_by_kind (to_ mediaURL caption mediaType : String) :
    (SendMediaMessage.payload to_ mediaURL caption mediaType).get? mediaType
        = some (.obj (SendMediaMessage.mediaObj mediaURL caption mediaType))
    ∧ (JSONValue.obj (SendMediaMessage.mediaObj mediaURL caption mediaType)).get? "link"
        = some (.str mediaURL)
    ∧ ((JSONValue.obj (SendMediaMessage.mediaObj mediaURL caption mediaType)).get? "caption"
          ≠ none
        ↔ (caption ≠ "" ∧ (mediaType = "image" ∨ mediaType = "video" ∨ mediaType = "document")))
    ∧ (caption ≠ "" → (mediaType = "image" ∨ mediaType = "video" ∨ mediaType = "document") →
        (JSONValue.obj (SendMediaMessage.mediaObj mediaURL caption mediaType)).get? "caption"
          = some (.str caption))
    ∧ (mediaType = "audio" →
        (JSONValue.obj (SendMediaMessage.mediaObj mediaURL caption mediaType)).get? "caption"
          = none)
    ∧ (mediaType ≠ "type" →
        (SendMediaMessage.payload to_ mediaURL caption mediaType).get? "type"
          = some (.str mediaType)) := by
  have hyes : (caption ≠ "" ∧ (mediaType = "image" ∨ mediaType = "video"
      ∨ mediaType = "document")) →
      SendMediaMessage.mediaObj mediaURL caption mediaType
        = [("link", .str mediaURL), ("caption", .str caption)] := by
    intro h
    have h2 : caption ≠ "" ∧ (mediaType = MediaTypeImage ∨ mediaType = MediaTypeVideo
        ∨ mediaType = MediaTypeDocument) := h
    unfold SendMediaMessage.mediaObj
    rw [if_pos h2]
    rfl
  have hno : ¬ (caption ≠ "" ∧ (mediaType = "image" ∨ mediaType = "video"
      ∨ mediaType = "document")) →
      SendMediaMessage.mediaObj mediaURL caption mediaType = [("link", .str mediaURL)] := by
    intro h
    have h2 : ¬ (caption ≠ "" ∧ (mediaType = MediaTypeImage ∨ mediaType = MediaTypeVideo
        ∨ mediaType = MediaTypeDocument)) := h
    unfold SendMediaMessage.mediaObj
    rw [if_neg h2]
    rfl
  refine ⟨?_, ?_, ?_, ?_, ?_, ?_⟩
  · show mapGet? (mapSet _ mediaType _) mediaType = _
    exact mapGet?_mapSet_self _ _ _
  · by_cases h : caption ≠ "" ∧ (mediaType = "image" ∨ mediaType = "video"
        ∨ mediaType = "document")
    · rw [hyes h]; rfl
    · rw [hno h]; rfl
  · constructor
    · intro hcap
      by_contra h
      rw [hno h] at hcap
      exact hcap rfl
    · intro h
      rw [hyes h]
      intro hc
      cases hc
  · intro h1 h2
    rw [hyes ⟨h1, h2⟩]
    rfl
  · intro haudio
    have h : ¬ (caption ≠ "" ∧ (mediaType = "image" ∨ mediaType = "video"
        ∨ mediaType = "document")) := by
      subst haudio
      simp
    rw [hno h]
    rfl
  · intro hne
    show mapGet? (mapSet _ mediaType _) "type" = _
    rw [mapGet?_mapSet_of_ne _ _ _ _ (Ne.symm hne)]
    rfl

/-- C18 at concrete sends: an image with a caption carries it, an audio with the same
caption does not. -/
theorem SendMediaMessage_caption_by_kind_witness :
    (JSONValue.obj (SendMediaMessage.mediaObj "https://cdn.example/p.png" "a picture"
        "image")).get? "caption" = some (.str "a picture")
      ∧ (JSONValue.obj (SendMediaMessage.mediaObj "https://cdn.example/v.ogg" "spoken"
        "audio")).get? "caption" = none
      ∧ (SendMediaMessage.payload "15551234567" "https://cdn.example/v.ogg" "spoken"
        "audio").get? "type" = some (.str "audio") :=
  ⟨(SendMediaMessage_caption_by_kind "15551234567" "https://cdn.example/p.png" "a picture"
      "image").2.2.2.1 (by decide) (Or.inl rfl),
   (SendMediaMessage_caption_by_kind "15551234567" "https://cdn.example/v.ogg" "spoken"
      "audio").2.2.2.2.1 rfl,
   (SendMediaMessage_caption_by_kind "15551234567" "https://cdn.example/v.ogg" "spoken"
      "audio").2.2.2.2.2 (by decide)⟩

/-! ## Provider client: responses -/

/-- C19 (as stated, refuted): a response with the non-success status 304 and an empty body
does not count as an error for `sendMessage` (the status is not above 399); the body goes
through the acknowledgment decoder, whose failure is returned as an internal error.  With
status 302 and a body that decodes as an acknowledgment the send is reported as a
success. -/
theorem sendMessage_non_success_status_counterexample :
    (sendMessage
        (sampleDeps ⟨304, []⟩ (.error "unexpected end of JSON input")
          (.error "unexpected end of JSON input"))
        sampleClient (SendTextMessage.payload "15551234567" "hello")).1
      = .error (.NewInternalError "unexpected end of JSON input")
    ∧ (sendMessage
        (sampleDeps ⟨302, [123, 125]⟩ (.ok ⟨⟨0, "", ""⟩⟩)
          (.ok ⟨"whatsapp", [⟨"15551234567", "15551234567"⟩], [⟨"wamid.X"⟩]⟩))
        sampleClient (SendTextMessage.payload "15551234567" "hello")).1
      = .ok ⟨"whatsapp", [⟨"15551234567", "15551234567"⟩], [⟨"wamid.X"⟩]⟩ :=
  ⟨rfl, rfl⟩

/-- C19 (amended): for every provider response with an error HTTP status (a status code
above 399) `sendMessage` returns a provider (WhatsApp) error, never a success and never an
internal error.  When the body decodes as the structured error shape the error text is
`<type>: <message>` taken from it; when it does not decode the error is the generic one
with the raw status code, `WhatsApp API returned status <code>`. -/
theorem sendMessage_error_status (D : ClientDeps) (c : Client) (payload : JSONValue)
    (resp : HTTPResponse)
    (hpost : D.Post ("/" ++ c.phoneNumberID ++ "/messages") payload = .ok resp)
    (hstatus : resp.StatusCode > 399) :
    (∀ errResp, D.UnmarshalError resp.Body = .ok errResp →
      (sendMessage D c payload).1
        = .error (.NewWhatsAppError (errResp.Error.Type_ ++ ": " ++ errResp.Error.Message)))
    ∧ (∀ e, D.UnmarshalError resp.Body = .error e →
      (sendMessage D c payload).1
        = .error (.NewWhatsAppError
            ("WhatsApp API returned status " ++ toString resp.StatusCode)))
    ∧ (∃ text, (sendMessage D c payload).1 = .error (.NewWhatsAppError text)) := by
  have hIs : resp.IsError = true := by
    simp [HTTPResponse.IsError, hstatus]
  have h1 : ∀ errResp, D.UnmarshalError resp.Body = .ok errResp →
      (sendMessage D c payload).1
        = .error (.NewWhatsAppError (errResp.Error.Type_ ++ ": " ++ errResp.Error.Message)) := by
    intro errResp hdec
    simp [sendMessage, hpost, hIs, hdec]
  have h2 : ∀ e, D.UnmarshalError resp.Body = .error e →
      (sendMessage D c payload).1
        = .error (.NewWhatsAppError
            ("WhatsApp API returned status " ++ toString resp.StatusCode)) := by
    intro e hdec
    simp [sendMessage, hpost, hIs, hdec]
  refine ⟨h1, h2, ?_⟩
  cases hdec : D.UnmarshalError resp.Body with
  | ok errResp => exact ⟨_, h1 errResp hdec⟩
  | error e => exact ⟨_, h2 e hdec⟩

/-- C19 (amended) at concrete responses: a 400 with a structured error body and a 502 with
a body that does not decode. -/
theorem sendMessage_error_status_witness :
    (sendMessage (sampleDeps ⟨400, [123, 125]⟩ (.ok sampleErrorBody) (.error "no ack"))
        sampleClient (SendTextMessage.payload "15551234567" "hello")).1
      = .error (.NewWhatsAppError "OAuthException: Recipient phone number not in allowed list")
    ∧ (sendMessage (sampleDeps ⟨502, [60]⟩ (.error "invalid character") (.error "no ack"))
        sampleClient (SendTextMessage.payload "15551234567" "hello")).1
      = .error (.NewWhatsAppError "WhatsApp API returned status 502") :=
  ⟨(sendMessage_error_status
      (sampleDeps ⟨400, [123, 125]⟩ (.ok sampleErrorBody) (.error "no ack")) sampleClient
      (SendTextMessage.payload "15551234567" "hello") ⟨400, [123, 125]⟩ rfl (by decide)).1
      sampleErrorBody rfl,
   (sendMessage_error_status
      (sampleDeps ⟨502, [60]⟩ (.error "invalid character") (.error "no ack")) sampleClient
      (SendTextMessage.payload "15551234567" "hello") ⟨502, [60]⟩ rfl (by decide)).2.1
      "invalid character" rfl⟩

/-- C20: for every provider response with a success HTTP status (200 to 299; the same holds
for every status that is not above 399) whose body fails to decode as the acknowledgment,
`sendMessage` returns an internal error, which wraps the decoding error, and no
acknowledgment. -/
theorem sendMessage_undecodable_acknowledgment (D : ClientDeps) (c : Client)
    (payload : JSONValue) (resp : HTTPResponse) (e : String)
    (hpost : D.Post ("/" ++ c.phoneNumberID ++ "/messages") payload = .ok resp)
    (hstatus : resp.StatusCode ≤ 399)
    (hdec : D.UnmarshalMessage resp.Body = .error e) :
    (sendMessage D c payload).1 = .error (.NewInternalError e)
      ∧ (∀ ack, (sendMessage D c payload).1 ≠ .ok ack) := by
  have hIs : resp.IsError = false := by
    simp [HTTPResponse.IsError]
    omega
  have h : (sendMessage D c payload).1 = .error (.NewInternalError e) := by
    simp [sendMessage, hpost, hIs, hdec]
  refine ⟨h, ?_⟩
  intro ack hack
  rw [h] at hack
  cases hack

/-- C20 at a concrete response: a 200 whose body is not JSON. -/
theorem sendMessage_undecodable_acknowledgment_witness :
    (sendMessage (sampleDeps ⟨200, [60, 104, 116, 109, 108, 62]⟩ (.error "invalid character")
          (.error "invalid character looking for beginning of value"))
        sampleClient (SendTextMessage.payload "15551234567" "hello")).1
      = .error (.NewInternalError "invalid character looking for beginning of value") :=
  (sendMessage_undecodable_acknowledgment
    (sampleDeps ⟨200, [60, 104, 116, 109, 108, 62]⟩ (.error "invalid character")
      (.error "invalid character looking for beginning of value"))
    sampleClient (SendTextMessage.payload "15551234567" "hello")
    ⟨200, [60, 104, 116, 109, 108, 62]⟩
    "invalid character looking for beginning of value" rfl (by decide) rfl).1

/-! ## Key authenticator: the prefix index -/

/-- Leaving out candidates whose hash does not match does not change the loop. -/
theorem ValidateAPIKey.loop_filter (U : KeyUtils) (now : Time) (repo : APIKeyRepository)
    (rawKey : String) (p : APIKey → Bool) (rows : List APIKey)
    (h : ∀ k ∈ rows, U.CompareAPIKey k.KeyHash rawKey = true → p k = true) :
    ValidateAPIKey.loop U now repo rawKey (rows.filter p)
      = ValidateAPIKey.loop U now repo rawKey rows := by
  induction rows with
  | nil => rfl
  | cons k ks ih =>
    have hks : ∀ j ∈ ks, U.CompareAPIKey j.KeyHash rawKey = true → p j = true :=
      fun j hj => h j (List.mem_cons_of_mem k hj)
    by_cases hc : U.CompareAPIKey k.KeyHash rawKey = true
    · have hp : p k = true := h k (List.mem_cons_self k ks) hc
      simp only [List.filter_cons, hp, if_true, ValidateAPIKey.loop, hc]
    · have hcf : U.CompareAPIKey k.KeyHash rawKey = false := by simpa using hc
      by_cases hp : p k = true
      · simp only [List.filter_cons, hp, if_true, ValidateAPIKey.loop, hcf,
          Bool.false_eq_true, if_false]
        exact ih hks
      · simp only [List.filter_cons, hp, if_false, ValidateAPIKey.loop, hcf,
          Bool.false_eq_true]
        exact ih hks

/-- C30: prefix-indexed lookup is a sound optimisation.  If every stored credential has the
prefix of the raw key it was issued for, and a stored hash matches only that raw key, then
for every raw key `ValidateAPIKey`, which compares only against the credentials that share
the prefix of the key, returns the same outcome (the same credential, Expired or
Unauthorized) and leaves the same table as a validation that compares against every stored
credential in the same order. -/
theorem ValidateAPIKey_prefix_index_sound (U : KeyUtils) (now : Time) (repo : APIKeyRepository)
    (issued : APIKey → String)
    (hpfx : ∀ k ∈ repo.rows, k.KeyPrefix = U.GetKeyPrefix (issued k))
    (honly : ∀ k ∈ repo.rows, ∀ raw, U.CompareAPIKey k.KeyHash raw = true → raw = issued k)
    (rawKey : String) :
    ValidateAPIKey U now repo rawKey = ValidateAPIKeyFullScan U now repo rawKey := by
  cases hfe : repo.findErr with
  | some e =>
    simp [ValidateAPIKey, ValidateAPIKeyFullScan, APIKeyRepository.FindByKeyPrefix, hfe]
  | none =>
    simp only [ValidateAPIKey, ValidateAPIKeyFullScan, APIKeyRepository.FindByKeyPrefix, hfe]
    apply ValidateAPIKey.loop_filter
    intro k hk hc
    have hraw := honly k hk rawKey hc
    have := hpfx k hk
    rw [← hraw] at this
    simp [this]

/-- C30 at the sample table, where a hash matches the raw key equal to it and the prefix is
the first eight characters. -/
theorem ValidateAPIKey_prefix_index_sound_witness :
    ValidateAPIKey sampleUtils sampleNow sampleRepo "wba_test_CCCC"
      = ValidateAPIKeyFullScan sampleUtils sampleNow sampleRepo "wba_test_CCCC" :=
  ValidateAPIKey_prefix_index_sound sampleUtils sampleNow sampleRepo (fun k => k.KeyHash)
    (by
      intro k hk
      simp only [sampleRepo, List.mem_cons, List.mem_singleton, List.not_mem_nil, or_false] at hk
      rcases hk with h | h | h <;> subst h <;> rfl)
    (by
      intro k _ raw hc
      have : (k.KeyHash == raw) = true := hc
      exact (beq_iff_eq.mp this).symm)
    "wba_test_CCCC"

/-! ## Webhook handler: every event is handed over -/

theorem ReceiveWebhook.messageStep_handed {σ : Type} (ops : MessageServiceOps σ)
    (events : List MessageEvent) :
    ∀ acc : List LogEntry × List BusinessCall × σ,
      (events.foldl (ReceiveWebhook.messageStep ops) acc).2.1
        = acc.2.1 ++ events.map BusinessCall.ProcessIncomingMessage := by
  induction events with
  | nil => intro acc; simp
  | cons e es ih =>
    intro acc
    rw [List.foldl_cons, ih]
    simp [ReceiveWebhook.messageStep]

theorem ReceiveWebhook.statusStep_handed {σ : Type} (ops : MessageServiceOps σ)
    (events : List StatusEvent) :
    ∀ acc : List LogEntry × List BusinessCall × σ,
      (events.foldl (ReceiveWebhook.statusStep ops) acc).2.1
        = acc.2.1 ++ events.map (fun e => BusinessCall.UpdateMessageStatus e.MessageID e.Status) := by
  induction events with
  | nil => intro acc; simp
  | cons e es ih =>
    intro acc
    rw [List.foldl_cons, ih]
    simp [ReceiveWebhook.statusStep]

/-- The message loop makes the call `ProcessIncomingMessage(event)` on the business layer
for each event in order, from the state the previous call left. -/
theorem ReceiveWebhook.messageStep_svc {σ : Type} (ops : MessageServiceOps σ)
    (events : List MessageEvent) :
    ∀ acc : List LogEntry × List BusinessCall × σ,
      (events.foldl (ReceiveWebhook.messageStep ops) acc).2.2
        = (events.map BusinessCall.ProcessIncomingMessage).foldl (BusinessCall.runOn ops)
            acc.2.2 := by
  induction events with
  | nil => intro acc; simp
  | cons e es ih =>
    intro acc
    rw [List.foldl_cons, ih]
    simp [ReceiveWebhook.messageStep, BusinessCall.runOn]

/-- The status loop makes the call `UpdateMessageStatus(event.MessageID, event.Status)` on
the business layer for each event in order, from the state the previous call left. -/
theorem ReceiveWebhook.statusStep_svc {σ : Type} (ops : MessageServiceOps σ)
    (events : List StatusEvent) :
    ∀ acc : List LogEntry × List BusinessCall × σ,
      (events.foldl (ReceiveWebhook.statusStep ops) acc).2.2
        = (events.map
            (fun e => BusinessCall.UpdateMessageStatus e.MessageID e.Status)).foldl
            (BusinessCall.runOn ops) acc.2.2 := by
  induction events with
  | nil => intro acc; simp
  | cons e es ih =>
    intro acc
    rw [List.foldl_cons, ih]
    simp [ReceiveWebhook.statusStep, BusinessCall.runOn]

/-- C27: for every webhook body that passes the signature check and parses, whatever the
business layer answers to each call (failures included), `ReceiveWebhook` responds 200
`received` and hands over, in order and once each, every extracted message event to
`ProcessIncomingMessage` and then every extracted status event to
`UpdateMessageStatus(id, status)`: the calls recorded are exactly these, and the state of
the business layer afterwards is the state that making exactly these calls on it, one
after the other from the state before the request, leaves.  A failed message extraction
contributes no message call and does not prevent the status calls, and a failed status
extraction does not prevent the message calls. -/
theorem ReceiveWebhook_hands_every_event {σ : Type}
    (VerifyHMAC : Bytes → Bytes → String → Bool)
    (Unmarshal : Bytes → Except String WebhookPayload) (ops : MessageServiceOps σ)
    (h : WebhookHandler) (req : Request) (s : σ) (body : Bytes) (payload : WebhookPayload)
    (hbody : req.body = .ok body)
    (hsig : req.GetHeader "X-Hub-Signature-256" = ""
      ∨ VerifySignature VerifyHMAC body (req.GetHeader "X-Hub-Signature-256") h.webhookSecret
          = true)
    (hparse : Unmarshal body = .ok payload) :
    (ReceiveWebhook VerifyHMAC Unmarshal ops h req s).response
        = ⟨200, .object [("status", "received")]⟩
      ∧ (ReceiveWebhook VerifyHMAC Unmarshal ops h req s).handed
        = (match ParseMessageEvent payload with
            | .ok events => events.map BusinessCall.ProcessIncomingMessage
            | .error _ => [])
          ++ (match ParseStatusEvent payload with
            | .ok events =>
              events.map (fun e => BusinessCall.UpdateMessageStatus e.MessageID e.Status)
            | .error _ => [])
      ∧ (ReceiveWebhook VerifyHMAC Unmarshal ops h req s).svc
        = ((match ParseMessageEvent payload with
            | .ok events => events.map BusinessCall.ProcessIncomingMessage
            | .error _ => [])
          ++ (match ParseStatusEvent payload with
            | .ok events =>
              events.map
                (fun e : StatusEvent => BusinessCall.UpdateMessageStatus e.MessageID e.Status)
            | .error _ => [])).foldl (BusinessCall.runOn ops) s := by
  have hgate : ¬ (req.GetHeader "X-Hub-Signature-256" ≠ ""
      ∧ ¬ VerifySignature VerifyHMAC body (req.GetHeader "X-Hub-Signature-256")
            h.webhookSecret = true) := by
    rintro ⟨h1, h2⟩
    rcases hsig with h3 | h3
    · exact h1 h3
    · exact h2 h3
  have hrun : ReceiveWebhook VerifyHMAC Unmarshal ops h req s
      = ReceiveWebhook.process Unmarshal ops body s := by
    simp only [ReceiveWebhook, hbody]
    rw [if_neg hgate]
  rw [hrun]
  simp only [ReceiveWebhook.process, ParseWebhook, hparse]
  refine ⟨trivial, ?_, ?_⟩
  · cases hm : ParseMessageEvent payload with
    | error e =>
      cases hs : ParseStatusEvent payload with
      | error e2 => simp
      | ok sevs => simp [ReceiveWebhook.statusStep_handed]
    | ok mevs =>
      cases hs : ParseStatusEvent payload with
      | error e2 => simp [ReceiveWebhook.messageStep_handed]
      | ok sevs => simp [ReceiveWebhook.statusStep_handed, ReceiveWebhook.messageStep_handed]
  · cases hm : ParseMessageEvent payload with
    | error e =>
      cases hs : ParseStatusEvent payload with
      | error e2 => simp
      | ok sevs => simp [ReceiveWebhook.statusStep_svc]
    | ok mevs =>
      cases hs : ParseStatusEvent payload with
      | error e2 => simp [ReceiveWebhook.messageStep_svc]
      | ok sevs =>
        simp only [ReceiveWebhook.statusStep_svc, ReceiveWebhook.messageStep_svc,
          List.foldl_append]

/-- C27 at concrete envelopes with a business layer that counts its calls and in which
processing a message always fails: the three messages of the mixed envelope are all handed
over and the layer has received three calls; in the envelope with a malformed message
timestamp no message is handed over, the status still is, and the layer has received that
one call. -/
theorem ReceiveWebhook_hands_every_event_witness :
    ((ReceiveWebhook (fun _ _ _ => true) sampleMixedUnmarshal sampleFailingOps sampleHandler
        sampleBareRequest 0).handed.length = 3
      ∧ (ReceiveWebhook (fun _ _ _ => true) sampleMixedUnmarshal sampleFailingOps sampleHandler
        sampleBareRequest 0).response = ⟨200, .object [("status", "received")]⟩
      ∧ (ReceiveWebhook (fun _ _ _ => true) sampleMixedUnmarshal sampleFailingOps sampleHandler
        sampleBareRequest 0).svc = 3)
    ∧ (ReceiveWebhook (fun _ _ _ => true) sampleBadUnmarshal sampleFailingOps sampleHandler
        (samplePost "sha256=00") 0).handed
      = [BusinessCall.UpdateMessageStatus "wamid.B2" "delivered"]
    ∧ (ReceiveWebhook (fun _ _ _ => true) sampleBadUnmarshal sampleFailingOps sampleHandler
        (samplePost "sha256=00") 0).svc = 1 := by
  have h1 := ReceiveWebhook_hands_every_event (fun _ _ _ => true) sampleMixedUnmarshal
    sampleFailingOps sampleHandler sampleBareRequest 0 [] sampleMixedPayload rfl
    (Or.inl rfl) rfl
  have h2 := ReceiveWebhook_hands_every_event (fun _ _ _ => true) sampleBadUnmarshal
    sampleFailingOps sampleHandler (samplePost "sha256=00") 0 [123, 125] sampleBadPayload rfl
    (Or.inr rfl) rfl
  refine ⟨⟨?_, h1.1, ?_⟩, ?_, ?_⟩
  · rw [h1.2.1]
    rfl
  · rw [h1.2.2]
    rfl
  · rw [h2.2.1]
    rfl
  · rw [h2.2.2]
    rfl

/-! ## Rate limiter: configuration and buckets -/

/-- C22 (as stated, refuted): for 5 requests per minute the burst is 0, not
`max(1, floor(5 / 10)) = 1`; with a burst of 0 the limiter admits no request at all. -/
theorem NewRateLimiter_burst_minimum_counterexample :
    (NewRateLimiter 5).burst = 0
      ∧ (NewRateLimiter 5).burst ≠ max 1 (5 / 10)
      ∧ (RateLimitMiddleware sampleRateLimitError 5 (NewRateLimiter 5) (some "id-a") ""
          sampleNow).nextCalled = false := by
  refine ⟨rfl, by decide, ?_⟩
  simp [RateLimitMiddleware, NewRateLimiter, RateLimiter.getLimiter, RateLimiter.lookup,
    rate.NewLimiter, rate.Limiter.Allow]
  decide

/-- C22 (amended): for every configured requests-per-minute value `r >= 1`,
`NewRateLimiter(r)` has burst capacity `floor(r / 10)`, which is 0 for `r` between 1 and 9
and at least 1 exactly from `r = 10` on, and refill rate `r / 60` tokens per second. -/
theorem NewRateLimiter_burst_and_rate (r : Int) (hr : 1 ≤ r) :
    (NewRateLimiter r).burst = r / 10
      ∧ (r ≤ 9 → (NewRateLimiter r).burst = 0)
      ∧ (1 ≤ (NewRateLimiter r).burst ↔ 10 ≤ r)
      ∧ (NewRateLimiter r).rate = (r : ℚ) / 60
      ∧ (NewRateLimiter r).limiters = [] := by
  have hb : (NewRateLimiter r).burst = r / 10 := by
    show Int.tdiv r 10 = r / 10
    exact Int.tdiv_eq_ediv (by omega) (by norm_num)
  refine ⟨hb, ?_, ?_, rfl, rfl⟩
  · intro h9
    rw [hb]
    omega
  · rw [hb]
    omega

/-- C22 (amended) at 1000 requests per minute, the value the routes configure. -/
theorem NewRateLimiter_burst_and_rate_witness :
    (NewRateLimiter 1000).burst = 1000 / 10
      ∧ (NewRateLimiter 1000).rate = (1000 : ℚ) / 60 :=
  ⟨(NewRateLimiter_burst_and_rate 1000 (by decide)).1,
   (NewRateLimiter_burst_and_rate 1000 (by decide)).2.2.2.1⟩

theorem RateLimiter.lookup_append_of_ne (ls : List (String × rate.Limiter)) (r : ℚ) (b : Int)
    (key other : String) (lim : rate.Limiter) (hne : other ≠ key) :
    RateLimiter.lookup ⟨ls ++ [(key, lim)], r, b⟩ other = RateLimiter.lookup ⟨ls, r, b⟩ other := by
  have hb : (key == other) = false := by simpa using (Ne.symm hne)
  induction ls with
  | nil => simp [RateLimiter.lookup, List.find?, hb]
  | cons kv rest ih =>
    simp only [RateLimiter.lookup, List.cons_append, List.find?] at ih ⊢
    cases hkv : (kv.1 == other) with
    | true => rfl
    | false => exact ih

theorem RateLimiter.lookup_append_self (ls : List (String × rate.Limiter)) (r : ℚ) (b : Int)
    (key : String) (lim : rate.Limiter) (hnone : RateLimiter.lookup ⟨ls, r, b⟩ key = none) :
    RateLimiter.lookup ⟨ls ++ [(key, lim)], r, b⟩ key = some lim := by
  induction ls with
  | nil => simp [RateLimiter.lookup, List.find?]
  | cons kv rest ih =>
    simp only [RateLimiter.lookup, List.cons_append, List.find?] at ih hnone ⊢
    cases hkv : (kv.1 == key) with
    | true => rw [hkv] at hnone; simp at hnone
    | false =>
      rw [hkv] at hnone
      exact ih hnone

theorem RateLimiter.getLimiter_of_some (rl : RateLimiter) (key : String) (lim : rate.Limiter)
    (h : rl.lookup key = some lim) : rl.getLimiter key = (lim, rl) := by
  simp [RateLimiter.getLimiter, h]

/-- C26: `getLimiter` keeps one bucket per identity, created lazily.  A call for a key
without a limiter stores a new limiter with the configured rate and burst under that key
and returns it; a call for a key with a limiter returns the stored limiter and leaves the
map as it is, so a second call returns the limiter of the first without creating another.
A call for one key never changes what is stored for any other key, and the list of keys
stays as it is or grows by the requested key at its end. -/
theorem getLimiter_one_bucket_per_identity (rl : RateLimiter) (key : String) :
    (rl.lookup key = none →
      rl.getLimiter key
        = (rate.NewLimiter rl.rate rl.burst,
           { rl with limiters := rl.limiters ++ [(key, rate.NewLimiter rl.rate rl.burst)] }))
    ∧ (∀ lim, rl.lookup key = some lim → rl.getLimiter key = (lim, rl))
    ∧ ((rl.getLimiter key).2.lookup key = some (rl.getLimiter key).1)
    ∧ ((rl.getLimiter key).2.getLimiter key = ((rl.getLimiter key).1, (rl.getLimiter key).2))
    ∧ (∀ other, other ≠ key → (rl.getLimiter key).2.lookup other = rl.lookup other)
    ∧ ((rl.getLimiter key).2.limiters.map (fun kv => kv.1)
        = rl.limiters.map (fun kv => kv.1)
      ∨ (rl.getLimiter key).2.limiters.map (fun kv => kv.1)
        = rl.limiters.map (fun kv => kv.1) ++ [key])
    ∧ ((rl.getLimiter key).2.rate = rl.rate ∧ (rl.getLimiter key).2.burst = rl.burst) := by
  have hnew : rl.lookup key = none →
      rl.getLimiter key
        = (rate.NewLimiter rl.rate rl.burst,
           { rl with limiters := rl.limiters ++ [(key, rate.NewLimiter rl.rate rl.burst)] }) := by
    intro h
    simp [RateLimiter.getLimiter, h]
  have hold : ∀ lim, rl.lookup key = some lim → rl.getLimiter key = (lim, rl) := by
    intro lim h
    simp [RateLimiter.getLimiter, h]
  have hstored : (rl.getLimiter key).2.lookup key = some (rl.getLimiter key).1 := by
    cases h : rl.lookup key with
    | none =>
      rw [hnew h]
      exact RateLimiter.lookup_append_self rl.limiters rl.rate rl.burst key _ h
    | some lim =>
      rw [hold lim h]
      exact h
  refine ⟨hnew, hold, hstored, ?_, ?_, ?_, ?_⟩
  · exact RateLimiter.getLimiter_of_some _ key _ hstored
  · intro other hne
    cases h : rl.lookup key with
    | none =>
      rw [hnew h]
      exact RateLimiter.lookup_append_of_ne rl.limiters rl.rate rl.burst key other _ hne
    | some lim => rw [hold lim h]
  · cases h : rl.lookup key with
    | none => right; rw [hnew h]; simp
    | some lim => left; rw [hold lim h]
  · cases h : rl.lookup key with
    | none => rw [hnew h]; exact ⟨rfl, rfl⟩
    | some lim => rw [hold lim h]; exact ⟨rfl, rfl⟩

/-- C26 at a concrete map: a first call for a new key next to an existing bucket. -/
theorem getLimiter_one_bucket_per_identity_witness :
    (sampleExhausted.getLimiter "id-b").1 = rate.NewLimiter ((1000 : ℚ) / 60) 100
      ∧ (sampleExhausted.getLimiter "id-b").2.lookup "id-a" = sampleExhausted.lookup "id-a"
      ∧ sampleExhausted.getLimiter "id-a"
        = (⟨(1000 : ℚ) / 60, 100, 0, sampleNow⟩, sampleExhausted) :=
  ⟨congrArg Prod.fst ((getLimiter_one_bucket_per_identity sampleExhausted "id-b").1
      (by simp [RateLimiter.lookup, sampleExhausted, List.find?])),
   (getLimiter_one_bucket_per_identity sampleExhausted "id-b").2.2.2.2.1 "id-a" (by decide),
   (getLimiter_one_bucket_per_identity sampleExhausted "id-a").2.1 _
      (by simp [RateLimiter.lookup, sampleExhausted, List.find?])⟩

/-! ## Rate limiter: admissions -/

theorem Time.After_self (t : Time) : t.After t = false := by
  simp [Time.After]

theorem Time.Sub_self (t : Time) : t.Sub t = 0 := by
  simp [Time.Sub]

/-- One second after a normalised instant: the next second, same nanoseconds. -/
theorem Time.Add_second (t : Time) (h0 : 0 ≤ t.nsec) (h1 : t.nsec < 1000000000) :
    t.Add 1000000000 = ⟨t.sec + 1, t.nsec⟩ := by
  have hcond : t.nsec + 1000000000 < 0 ∨ 1000000000 ≤ t.nsec + 1000000000 := Or.inr (by omega)
  simp only [Time.Add, time_Unix, hcond, if_true, Time.mk.injEq]
  constructor <;> omega

/-- The first request on a new limiter with limit 1 and burst 6, at an instant after the
Unix epoch, finds a full bucket. -/
theorem rate.Limiter.Allow_fresh (t : Time) (hsec : 0 ≤ t.sec) (h0 : 0 ≤ t.nsec) :
    (rate.NewLimiter 1 6).Allow t = (true, ⟨1, 6, 5, t⟩) := by
  have hbefore : t.Before Time.zero = false := by
    simp only [Time.Before, Time.After, Time.zero, Bool.or_eq_false_iff,
      Bool.and_eq_false_iff, decide_eq_false_iff_not]
    omega
  have hsub : (6000000000 : Int) ≤ t.Sub Time.zero := by
    simp only [Time.Sub, Time.UnixNano, Time.zero]
    split
    · norm_num
    · split <;> omega
  have hq : (6 : ℚ) ≤ ((t.Sub Time.zero : Int) : ℚ) / 1000000000 := by
    rw [le_div_iff₀ (by norm_num)]
    have : ((6000000000 : Int) : ℚ) ≤ ((t.Sub Time.zero : Int) : ℚ) := by exact_mod_cast hsub
    norm_num at this ⊢
    linarith
  have hadv : (rate.NewLimiter 1 6).advance t = 6 := by
    simp only [rate.Limiter.advance, rate.NewLimiter, hbefore, Bool.false_eq_true, if_false]
    norm_num
    intro hlt
    linarith
  simp only [rate.Limiter.Allow, hadv]
  norm_num [rate.NewLimiter]

/-- A request at the instant of the last update takes one of the tokens left. -/
theorem rate.Limiter.Allow_same_instant (t : Time) (k : ℚ) (hk1 : 1 ≤ k) (hk6 : k ≤ 6) :
    (⟨1, 6, k, t⟩ : rate.Limiter).Allow t = (true, ⟨1, 6, k - 1, t⟩) := by
  have hadv : (⟨1, 6, k, t⟩ : rate.Limiter).advance t = k := by
    simp only [rate.Limiter.advance, Time.Before, Time.After_self, Bool.false_eq_true, if_false,
      Time.Sub_self]
    norm_num
    intro hlt
    linarith
  simp only [rate.Limiter.Allow, hadv]
  have : ¬ (k - 1 < 0) := by linarith
  norm_num [this]

/-- A request at the instant of the last update is rejected when no token is left. -/
theorem rate.Limiter.Allow_empty (t : Time) :
    (⟨1, 6, 0, t⟩ : rate.Limiter).Allow t = (false, ⟨1, 6, 0, t⟩) := by
  have hadv : (⟨1, 6, 0, t⟩ : rate.Limiter).advance t = 0 := by
    simp only [rate.Limiter.advance, Time.Before, Time.After_self, Bool.false_eq_true, if_false,
      Time.Sub_self]
    norm_num
  have hpos : 0 < Rat.floor 1000000000 := by
    have h1 : (1 : ℤ) ≤ Rat.floor 1000000000 := Rat.le_floor.mpr (by norm_num)
    omega
  simp only [rate.Limiter.Allow, hadv]
  norm_num
  exact hpos

/-- One second after the bucket was emptied one token is back, and it is taken. -/
theorem rate.Limiter.Allow_after_second (t : Time) (h0 : 0 ≤ t.nsec)
    (h1 : t.nsec < 1000000000) :
    (⟨1, 6, 0, t⟩ : rate.Limiter).Allow (t.Add 1000000000)
      = (true, ⟨1, 6, 0, t.Add 1000000000⟩) := by
  rw [Time.Add_second t h0 h1]
  have hbefore : (⟨t.sec + 1, t.nsec⟩ : Time).Before t = false := by
    simp only [Time.Before, Time.After, Bool.or_eq_false_iff, Bool.and_eq_false_iff,
      decide_eq_false_iff_not]
    omega
  have hsub : (⟨t.sec + 1, t.nsec⟩ : Time).Sub t = 1000000000 := by
    simp only [Time.Sub, Time.UnixNano]
    split
    · omega
    · split <;> omega
  have hadv : (⟨1, 6, 0, t⟩ : rate.Limiter).advance ⟨t.sec + 1, t.nsec⟩ = 1 := by
    simp only [rate.Limiter.advance, hbefore, Bool.false_eq_true, if_false, hsub]
    norm_num
  simp only [rate.Limiter.Allow, hadv]
  norm_num

/-- The middleware on an empty map: the request meets a new limiter, which is stored under
its key in the state the request leaves it in. -/
theorem RateLimitMiddleware_first_request (err : AppError) (rpm : Int) (r : ℚ) (b : Int)
    (key ip : String) (t : Time) :
    (RateLimitMiddleware err rpm ⟨[], r, b⟩ (some key) ip t).nextCalled
        = ((rate.NewLimiter r b).Allow t).1
      ∧ (RateLimitMiddleware err rpm ⟨[], r, b⟩ (some key) ip t).limiter
        = ⟨[(key, ((rate.NewLimiter r b).Allow t).2)], r, b⟩ := by
  cases h : ((rate.NewLimiter r b).Allow t).1 <;>
    simp [RateLimitMiddleware, RateLimiter.getLimiter, RateLimiter.lookup, RateLimiter.put, h]

/-- The middleware on a map that holds the limiter of the key: the request meets that
limiter, which stays under its key in the state the request leaves it in. -/
theorem RateLimitMiddleware_known_key (err : AppError) (rpm : Int) (r : ℚ) (b : Int)
    (key ip : String) (lim : rate.Limiter) (t : Time) :
    (RateLimitMiddleware err rpm ⟨[(key, lim)], r, b⟩ (some key) ip t).nextCalled
        = (lim.Allow t).1
      ∧ (RateLimitMiddleware err rpm ⟨[(key, lim)], r, b⟩ (some key) ip t).limiter
        = ⟨[(key, (lim.Allow t).2)], r, b⟩ := by
  cases h : (lim.Allow t).1 <;>
    simp [RateLimitMiddleware, RateLimiter.getLimiter, RateLimiter.lookup, RateLimiter.put, h]

theorem NewRateLimiter_sixty : NewRateLimiter 60 = ⟨[], 1, 6⟩ := by
  simp only [NewRateLimiter, RateLimiter.mk.injEq, true_and]
  constructor
  · norm_num
  · rfl

theorem RateLimiter.lookup_single (key : String) (lim : rate.Limiter) (r : ℚ) (b : Int) :
    RateLimiter.lookup ⟨[(key, lim)], r, b⟩ key = some lim := by
  simp [RateLimiter.lookup]

/-- C23: for a limiter built by `NewRateLimiter(60)` (rate 1 token per second, burst 6) and
an identity seen for the first time at an instant `t0` after the Unix epoch: the 6 requests
issued at `t0` are all admitted, the 7th at `t0` is rejected, and one second later exactly
one more request is admitted and the one after it is rejected.  After each request the
bucket holds 5, 4, 3, 2, 1, 0, 0, 0, 0 tokens, always between 0 and the burst. -/
theorem RateLimitMiddleware_sixty_per_minute (err : AppError) (key : String) (t0 : Time)
    (hsec : 0 ≤ t0.sec) (h0 : 0 ≤ t0.nsec) (h1 : t0.nsec < 1000000000) :
    admissions err 60 key (NewRateLimiter 60)
        [t0, t0, t0, t0, t0, t0, t0, t0.Add 1000000000, t0.Add 1000000000]
      = [(true, some 5), (true, some 4), (true, some 3), (true, some 2), (true, some 1),
         (true, some 0), (false, some 0), (true, some 0), (false, some 0)]
    ∧ (NewRateLimiter 60).burst = 6 ∧ (NewRateLimiter 60).rate = 1
    ∧ (∀ x ∈ admissions err 60 key (NewRateLimiter 60)
        [t0, t0, t0, t0, t0, t0, t0, t0.Add 1000000000, t0.Add 1000000000],
        ∃ k : ℚ, x.2 = some k ∧ 0 ≤ k ∧ k ≤ 6) := by
  have hrun : admissions err 60 key (NewRateLimiter 60)
        [t0, t0, t0, t0, t0, t0, t0, t0.Add 1000000000, t0.Add 1000000000]
      = [(true, some 5), (true, some 4), (true, some 3), (true, some 2), (true, some 1),
         (true, some 0), (false, some 0), (true, some 0), (false, some 0)] := by
    have e5 : (⟨1, 6, 5, t0⟩ : rate.Limiter).Allow t0 = (true, ⟨1, 6, 4, t0⟩) := by
      have := rate.Limiter.Allow_same_instant t0 5 (by norm_num) (by norm_num)
      norm_num at this
      exact this
    have e4 : (⟨1, 6, 4, t0⟩ : rate.Limiter).Allow t0 = (true, ⟨1, 6, 3, t0⟩) := by
      have := rate.Limiter.Allow_same_instant t0 4 (by norm_num) (by norm_num)
      norm_num at this
      exact this
    have e3 : (⟨1, 6, 3, t0⟩ : rate.Limiter).Allow t0 = (true, ⟨1, 6, 2, t0⟩) := by
      have := rate.Limiter.Allow_same_instant t0 3 (by norm_num) (by norm_num)
      norm_num at this
      exact this
    have e2 : (⟨1, 6, 2, t0⟩ : rate.Limiter).Allow t0 = (true, ⟨1, 6, 1, t0⟩) := by
      have := rate.Limiter.Allow_same_instant t0 2 (by norm_num) (by norm_num)
      norm_num at this
      exact this
    have e1 : (⟨1, 6, 1, t0⟩ : rate.Limiter).Allow t0 = (true, ⟨1, 6, 0, t0⟩) := by
      have := rate.Limiter.Allow_same_instant t0 1 (by norm_num) (by norm_num)
      norm_num at this
      exact this
    simp only [admissions, NewRateLimiter_sixty, RateLimitMiddleware_first_request,
      RateLimitMiddleware_known_key, rate.Limiter.Allow_fresh t0 hsec h0, e5, e4, e3, e2, e1,
      rate.Limiter.Allow_empty, rate.Limiter.Allow_after_second t0 h0 h1,
      RateLimiter.lookup_single, Option.map_some']
  refine ⟨hrun, ?_, ?_, ?_⟩
  · rw [NewRateLimiter_sixty]
  · rw [NewRateLimiter_sixty]
  · rw [hrun]
    intro x hx
    simp only [List.mem_cons, List.mem_singleton, List.not_mem_nil, or_false] at hx
    rcases hx with h | h | h | h | h | h | h | h | h <;> subst h <;>
      exact ⟨_, rfl, by norm_num, by norm_num⟩

/-- C23 at a concrete instant. -/
theorem RateLimitMiddleware_sixty_per_minute_witness :
    admissions sampleRateLimitError 60 "id-a" (NewRateLimiter 60)
        [sampleNow, sampleNow, sampleNow, sampleNow, sampleNow, sampleNow, sampleNow,
         sampleNow.Add 1000000000, sampleNow.Add 1000000000]
      = [(true, some 5), (true, some 4), (true, some 3), (true, some 2), (true, some 1),
         (true, some 0), (false, some 0), (true, some 0), (false, some 0)] :=
  (RateLimitMiddleware_sixty_per_minute sampleRateLimitError "id-a" sampleNow
    (by decide) (by decide) (by decide)).1

/-- What the middleware does with a request its limiter rejects: the three headers, the
rate-limit error as response, the chain aborted, the next handler not run. -/
theorem RateLimitMiddleware_on_rejection (err : AppError) (rpm : Int) (limiter : RateLimiter)
    (key ip : String) (now : Time)
    (hrej : ((limiter.getLimiter key).1.Allow now).1 = false) :
    (RateLimitMiddleware err rpm limiter (some key) ip now).headers
        = [("X-RateLimit-Limit", go_string_rune rpm), ("X-RateLimit-Remaining", "0"),
           ("X-RateLimit-Reset", go_string_rune (now.Add 60000000000).Unix)]
      ∧ (RateLimitMiddleware err rpm limiter (some key) ip now).response
        = some (ErrorJSON err)
      ∧ (RateLimitMiddleware err rpm limiter (some key) ip now).aborted = true
      ∧ (RateLimitMiddleware err rpm limiter (some key) ip now).nextCalled = false := by
  simp [RateLimitMiddleware, hrej]

/-- The limiter for 1000 requests per minute rejects a request at the instant at which its
bucket was emptied. -/
theorem sampleExhausted_rejects :
    ((sampleExhausted.getLimiter "id-a").1.Allow sampleNow).1 = false := by
  have hget : (sampleExhausted.getLimiter "id-a").1 = ⟨(1000 : ℚ) / 60, 100, 0, sampleNow⟩ := by
    simp [RateLimiter.getLimiter, RateLimiter.lookup, sampleExhausted]
  rw [hget]
  have hadv : (⟨(1000 : ℚ) / 60, 100, 0, sampleNow⟩ : rate.Limiter).advance sampleNow = 0 := by
    simp only [rate.Limiter.advance, Time.Before, Time.After_self, Bool.false_eq_true, if_false,
      Time.Sub_self]
    norm_num
  have hpos : ¬ Rat.floor 60000000 ≤ 0 := by
    have h1 : (1 : ℤ) ≤ Rat.floor 60000000 := Rat.le_floor.mpr (by norm_num)
    omega
  simp only [rate.Limiter.Allow, hadv]
  norm_num
  rw [if_neg hpos]

/-- C24 (the code at the failing input): with 1000 requests per minute a rejected request
gets the header `X-RateLimit-Limit` with the single character U+03E8 as value and the header
`X-RateLimit-Reset` with the single character U+FFFD, not the decimal texts `1000` and
`1700000060`; `X-RateLimit-Remaining` is `0`, the rate-limit error is returned and the next
handler does not run. -/
theorem RateLimitMiddleware_headers_at_failing_input :
    (RateLimitMiddleware sampleRateLimitError 1000 sampleExhausted (some "id-a") ""
        sampleNow).headers
      = [("X-RateLimit-Limit", String.singleton (Char.ofNat 1000)),
         ("X-RateLimit-Remaining", "0"),
         ("X-RateLimit-Reset", String.singleton (Char.ofNat 65533))]
    ∧ String.singleton (Char.ofNat 1000) ≠ "1000"
    ∧ (sampleNow.Add 60000000000).Unix = 1700000060
    ∧ String.singleton (Char.ofNat 65533) ≠ "1700000060"
    ∧ (RateLimitMiddleware sampleRateLimitError 1000 sampleExhausted (some "id-a") ""
        sampleNow).response = some (ErrorJSON sampleRateLimitError)
    ∧ (RateLimitMiddleware sampleRateLimitError 1000 sampleExhausted (some "id-a") ""
        sampleNow).nextCalled = false := by
  obtain ⟨h1, h2, _, h4⟩ := RateLimitMiddleware_on_rejection sampleRateLimitError 1000
    sampleExhausted "id-a" "" sampleNow sampleExhausted_rejects
  refine ⟨?_, by decide, by decide, by decide, h2, h4⟩
  rw [h1]
  have e1 : go_string_rune 1000 = String.singleton (Char.ofNat 1000) := by decide
  have e2 : go_string_rune (sampleNow.Add 60000000000).Unix
      = String.singleton (Char.ofNat 65533) := by decide
  rw [e1, e2]

/-! ## Provider client: retries -/

/-- The retry settings `NewClient` makes: three retries and no retry condition. -/
theorem NewClient_retry_settings (config : Config) (c : Client) (rc : RestyClient)
    (h : NewClient config = .ok (c, rc)) :
    rc.RetryCount = 3 ∧ rc.RetryConditions = [] ∧ c.phoneNumberID = config.PhoneNumberID := by
  unfold NewClient at h
  split at h
  · cases h
  · split at h
    · cases h
    · simp only [Except.ok.injEq, Prod.mk.injEq] at h
      obtain ⟨hc, hrc⟩ := h
      subst hc
      subst hrc
      exact ⟨rfl, rfl, rfl⟩

/-- The loop never makes more calls than the first attempt plus the retries left. -/
theorem resty_Backoff_calls_le
    (conditions : List (Option HTTPResponse → Option String → Bool))
    (operation : Nat → Except String HTTPResponse) :
    ∀ (retriesLeft attempt : Nat),
      (resty_Backoff conditions operation retriesLeft attempt).2 ≤ attempt + 1 + retriesLeft := by
  intro retriesLeft
  induction retriesLeft with
  | zero => intro attempt; simp [resty_Backoff]
  | succ n ih =>
    intro attempt
    simp only [resty_Backoff]
    split
    · have := ih (attempt + 1)
      omega
    · simp

/-- Without retry conditions an attempt that got a response ends the loop. -/
theorem resty_Backoff_response (operation : Nat → Except String HTTPResponse)
    (retriesLeft attempt : Nat) (resp : HTTPResponse) (h : operation attempt = .ok resp) :
    resty_Backoff [] operation retriesLeft attempt = (.ok resp, attempt + 1) := by
  cases retriesLeft with
  | zero => simp [resty_Backoff, h]
  | succ n => simp [resty_Backoff, resty_needsRetry, h]

/-- Without retry conditions an attempt that failed without a response is followed by the
next attempt, while retries are left. -/
theorem resty_Backoff_transport_error (operation : Nat → Except String HTTPResponse)
    (retriesLeft attempt : Nat) (e : String) (h : operation attempt = .error e) :
    resty_Backoff [] operation (retriesLeft + 1) attempt
      = resty_Backoff [] operation retriesLeft (attempt + 1) := by
  simp [resty_Backoff, resty_needsRetry, h]

/-- C21 (as stated, refuted): with the client made by `NewClient`, a send whose first
attempt gets a 500 and whose next attempt would get a 200 with a valid acknowledgment makes
one outbound call and returns the provider error of the 500; the 200 is never asked for. -/
theorem sendMessage_retries_500_counterexample :
    match NewClient sampleConfig with
    | .ok (c, rc) =>
      (rc.Post (sampleOutboundStatusThen200 500) ("/" ++ c.phoneNumberID ++ "/messages")
          (SendTextMessage.payload "15551234567" "hello")).2 = 1
        ∧ (sendMessage
            (rc.deps (sampleOutboundStatusThen200 500) (fun _ => .error "unexpected end")
              (fun _ => .ok sampleAck))
            c (SendTextMessage.payload "15551234567" "hello")).1
          = .error (.NewWhatsAppError "WhatsApp API returned status 500")
    | .error _ => False := by
  exact ⟨rfl, rfl⟩

/-- C21 (amended): with the transport policy configured by `NewClient` (retry count 3, no
retry condition) a send makes at most 1 + 3 outbound calls, and an attempt is retried only
when it failed without a response.  A send whose first attempt gets any HTTP response makes
exactly one outbound call: for a 500 (as for a 400) it returns the provider error, whatever
a further attempt would get.  A send whose first attempt fails without a response and whose
next attempt gets a 200 with a valid acknowledgment makes two outbound calls and returns
that acknowledgment. -/
theorem sendMessage_retry_policy (config : Config) (c : Client) (rc : RestyClient)
    (hnew : NewClient config = .ok (c, rc))
    (outbound : Nat → String → JSONValue → Except String HTTPResponse)
    (UE : Bytes → Except String whatsapp.ErrorResponse)
    (UM : Bytes → Except String MessageResponse) (payload : JSONValue) :
    (rc.Post outbound ("/" ++ c.phoneNumberID ++ "/messages") payload).2 ≤ 1 + 3
    ∧ (∀ resp, outbound 0 ("/" ++ c.phoneNumberID ++ "/messages") payload = .ok resp →
        rc.Post outbound ("/" ++ c.phoneNumberID ++ "/messages") payload = (.ok resp, 1))
    ∧ (∀ body status, (status = 500 ∨ status = 400) →
        outbound 0 ("/" ++ c.phoneNumberID ++ "/messages") payload = .ok ⟨status, body⟩ →
        (rc.Post outbound ("/" ++ c.phoneNumberID ++ "/messages") payload).2 = 1
        ∧ ∃ text, (sendMessage (rc.deps outbound UE UM) c payload).1
            = .error (.NewWhatsAppError text))
    ∧ (∀ e body ack, outbound 0 ("/" ++ c.phoneNumberID ++ "/messages") payload = .error e →
        outbound 1 ("/" ++ c.phoneNumberID ++ "/messages") payload = .ok ⟨200, body⟩ →
        UM body = .ok ack → ack.Messages ≠ [] →
        (rc.Post outbound ("/" ++ c.phoneNumberID ++ "/messages") payload).2 = 2
        ∧ (sendMessage (rc.deps outbound UE UM) c payload).1 = .ok ack) := by
  obtain ⟨hcount, hcond, _⟩ := NewClient_retry_settings config c rc hnew
  have hresp : ∀ resp, outbound 0 ("/" ++ c.phoneNumberID ++ "/messages") payload = .ok resp →
      rc.Post outbound ("/" ++ c.phoneNumberID ++ "/messages") payload = (.ok resp, 1) := by
    intro resp h
    simp only [RestyClient.Post, hcond, hcount]
    exact resty_Backoff_response _ 3 0 resp h
  refine ⟨?_, hresp, ?_, ?_⟩
  · simp only [RestyClient.Post, hcount]
    have := resty_Backoff_calls_le rc.RetryConditions
      (fun k => outbound k ("/" ++ c.phoneNumberID ++ "/messages") payload) 3 0
    omega
  · intro body status hst h
    have hp := hresp _ h
    refine ⟨by rw [hp], ?_⟩
    have hIs : (⟨status, body⟩ : HTTPResponse).IsError = true := by
      rcases hst with h5 | h4 <;> subst_vars <;> rfl
    cases hdec : UE body with
    | ok errResp =>
      exact ⟨errResp.Error.Type_ ++ ": " ++ errResp.Error.Message,
        by simp [sendMessage, RestyClient.deps, hp, hIs, hdec]⟩
    | error e =>
      exact ⟨"WhatsApp API returned status " ++ toString status,
        by simp [sendMessage, RestyClient.deps, hp, hIs, hdec]⟩
  · intro e body ack h0 h1 hdec hne
    have hp : rc.Post outbound ("/" ++ c.phoneNumberID ++ "/messages") payload
        = (.ok ⟨200, body⟩, 2) := by
      simp only [RestyClient.Post, hcond, hcount]
      rw [resty_Backoff_transport_error _ 2 0 e h0]
      exact resty_Backoff_response _ 2 1 _ h1
    refine ⟨by rw [hp], ?_⟩
    have hIs : (⟨200, body⟩ : HTTPResponse).IsError = false := rfl
    cases hm : ack.Messages with
    | nil => exact absurd hm hne
    | cons m ms => simp [sendMessage, RestyClient.deps, hp, hIs, hdec, hm]

/-- C21 (amended) at concrete sends: a connection reset followed by a 200 is retried and
returns the acknowledgment after two calls; a 400 makes one call. -/
theorem sendMessage_retry_policy_witness :
    match NewClient sampleConfig with
    | .ok (c, rc) =>
      (sendMessage
          (rc.deps sampleOutboundResetThen200 (fun _ => .error "unexpected end")
            (fun _ => .ok sampleAck))
          c (SendTextMessage.payload "15551234567" "hello")).1 = .ok sampleAck
        ∧ (rc.Post (sampleOutboundStatusThen200 400) ("/" ++ c.phoneNumberID ++ "/messages")
            (SendTextMessage.payload "15551234567" "hello")).2 = 1
    | .error _ => False := by
  have hnew : NewClient sampleConfig
      = .ok (⟨"106540352242922", "https://graph.facebook.com/v18.0/106540352242922"⟩,
          { BaseURL := "https://graph.facebook.com/v18.0",
            Authorization := "Bearer EAAG-token", ContentType := "application/json",
            Timeout := 30 * 1000000000, RetryCount := 3,
            RetryWaitTime := 1 * 1000000000, RetryMaxWaitTime := 5 * 1000000000,
            RetryConditions := [] }) := rfl
  have h := sendMessage_retry_policy sampleConfig _ _ hnew
  rw [hnew]
  exact ⟨((h sampleOutboundResetThen200 (fun _ => .error "unexpected end")
      (fun _ => .ok sampleAck) (SendTextMessage.payload "15551234567" "hello")).2.2.2
      "connection reset by peer" [123, 125] sampleAck rfl rfl rfl (by decide)).2,
    ((h (sampleOutboundStatusThen200 400) (fun _ => .error "unexpected end")
      (fun _ => .ok sampleAck) (SendTextMessage.payload "15551234567" "hello")).2.2.1
      [] 400 (Or.inr rfl) rfl).1⟩

/-! ## Message service: sends -/

/-- C29 (the code at the failing inputs): a 200 response whose body decodes into an
acknowledgment without messages (as `{}` does) makes `Client.sendMessage` stop in the
index panic of `Messages[0]`, and with it each of the three sends of the message service;
an acknowledgment with a message id and without contacts passes `sendMessage` and makes
each of the three sends stop in the index panic of `Contacts[0]`.  In each case the
contact was already written and no result or error is returned. -/
theorem send_path_index_panic_at_failing_input :
    (sendMessage (sampleAcceptingDeps sampleEmptyAck) sampleClient
        (SendTextMessage.payload "15551234567" "hello")).1
      = .panic "index out of range [0] with length 0"
    ∧ (MessageService.SendTextMessage sampleValidator (sampleAcceptingDeps sampleEmptyAck)
        sampleClient sampleNow sampleStore "15551234567" "hello").result
      = .panic "index out of range [0] with length 0"
    ∧ (sendMessage (sampleAcceptingDeps sampleNoContactAck) sampleClient
        (SendTextMessage.payload "15551234567" "hello")).1 = .ok sampleNoContactAck
    ∧ (MessageService.SendTextMessage sampleValidator (sampleAcceptingDeps sampleNoContactAck)
        sampleClient sampleNow sampleStore "15551234567" "hello").result
      = .panic "index out of range [0] with length 0"
    ∧ (MessageService.SendMediaMessage sampleValidator (sampleAcceptingDeps sampleNoContactAck)
        sampleClient sampleNow sampleStore "15551234567" "https://example.com/a.png" "look"
        "image").result
      = .panic "index out of range [0] with length 0"
    ∧ (MessageService.SendTemplateMessage sampleValidator
        (sampleAcceptingDeps sampleNoContactAck) sampleClient sampleNow sampleStore
        "15551234567" "order_update" "en_US" ["Asha"]).result
      = .panic "index out of range [0] with length 0"
    ∧ (MessageService.SendTextMessage sampleValidator (sampleAcceptingDeps sampleNoContactAck)
        sampleClient sampleNow sampleStore "15551234567" "hello").store.contacts
      = [⟨"15551234567", "", none, none, 0, 0⟩] := by
  refine ⟨rfl, rfl, rfl, rfl, rfl, rfl, rfl⟩

/-- The text and media sends validate their own fields before anything else: when a
validation fails, the result is the validation error, the store is untouched and nothing
is handed to the provider client. -/
theorem MessageService_text_media_validate_first (V : Validator) (D : ClientDeps) (c : Client)
    (now : Time) (st : Store) (phone content mediaURL caption mediaType : String)
    (templateName language : String) (params : List String) :
    (∀ e, V.ValidatePhoneNumber phone = some e →
        (MessageService.SendTextMessage V D c now st phone content).result
          = .error (.NewInvalidPhoneNumberError phone)
        ∧ (MessageService.SendTextMessage V D c now st phone content).sent = []
        ∧ (MessageService.SendMediaMessage V D c now st phone mediaURL caption mediaType).result
          = .error (.NewInvalidPhoneNumberError phone)
        ∧ (MessageService.SendMediaMessage V D c now st phone mediaURL caption mediaType).sent
          = []
        ∧ (MessageService.SendTemplateMessage V D c now st phone templateName language
          params).result
          = .error (.NewInvalidPhoneNumberError phone)
        ∧ (MessageService.SendTemplateMessage V D c now st phone templateName language
          params).sent
          = [])
    ∧ (∀ e, V.ValidatePhoneNumber phone = none → V.ValidateNotEmpty content "content" = some e →
        (MessageService.SendTextMessage V D c now st phone content).result
          = .error (.NewBadRequest e)
        ∧ (MessageService.SendTextMessage V D c now st phone content).sent = [])
    ∧ (∀ e, V.ValidatePhoneNumber phone = none → V.ValidateURL mediaURL = some e →
        (MessageService.SendMediaMessage V D c now st phone mediaURL caption mediaType).result
          = .error (.NewBadRequest ("invalid media URL: " ++ e))
        ∧ (MessageService.SendMediaMessage V D c now st phone mediaURL caption mediaType).sent
          = [])
    ∧ (∀ e, V.ValidatePhoneNumber phone = none → V.ValidateURL mediaURL = none →
        V.ValidateMessageType mediaType = some e →
        (MessageService.SendMediaMessage V D c now st phone mediaURL caption mediaType).result
          = .error (.NewBadRequest e)
        ∧ (MessageService.SendMediaMessage V D c now st phone mediaURL caption mediaType).sent
          = []) := by
  refine ⟨?_, ?_, ?_, ?_⟩
  · intro e h
    simp [MessageService.SendTextMessage, MessageService.SendMediaMessage,
      MessageService.SendTemplateMessage, h]
  · intro e h1 h2
    simp [MessageService.SendTextMessage, h1, h2]
  · intro e h1 h2
    simp [MessageService.SendMediaMessage, h1, h2]
  · intro e h1 h2 h3
    simp [MessageService.SendMediaMessage, h1, h2, h3]

/-- C25 (the code at the failing input): a template send with a valid phone number, an
empty template name and an empty language code is not rejected, although the validator
rejects the empty value when asked: the contact is created, the payload with the empty
template name is handed to the provider client, and the send succeeds with the record
`Template: `. -/
theorem SendTemplateMessage_empty_name_at_failing_input :
    sampleValidator.ValidateNotEmpty "" "template_name" = some "template_name is required"
    ∧ (MessageService.SendTemplateMessage sampleValidator (sampleAcceptingDeps sampleAck)
        sampleClient sampleNow sampleStore "15551234567" "" "" []).sent
      = [SendTemplateMessage.payload "15551234567" "" "" []]
    ∧ (match (MessageService.SendTemplateMessage sampleValidator (sampleAcceptingDeps sampleAck)
          sampleClient sampleNow sampleStore "15551234567" "" "" []).result with
       | .ok m => m.Content = "Template: " ∧ m.WhatsAppMessageID = "wamid.OUT1"
       | _ => False)
    ∧ (MessageService.SendTemplateMessage sampleValidator (sampleAcceptingDeps sampleAck)
        sampleClient sampleNow sampleStore "15551234567" "" "" []).store.contacts.length = 1 := by
  refine ⟨rfl, rfl, ⟨rfl, rfl⟩, rfl⟩

/-- What `GetOrCreate` leaves in the store: the messages are untouched, and the contacts
are either untouched or extended by the new contact of the phone number, the latter only
when no contact had that phone number. -/
theorem Store.GetOrCreate_store (st : Store) (phone : String) :
    (st.GetOrCreate phone).2.messages = st.messages
    ∧ ((st.GetOrCreate phone).2.contacts = st.contacts
       ∨ (st.contacts.find? (fun c => c.PhoneNumber == phone) = none
          ∧ (st.GetOrCreate phone).2.contacts
              = st.contacts ++ [⟨phone, "", none, none, 0, 0⟩])) := by
  unfold Store.GetOrCreate
  cases st.contactErr with
  | some e => exact ⟨rfl, Or.inl rfl⟩
  | none =>
    cases hfind : st.contacts.find? (fun c => c.PhoneNumber == phone) with
    | some c => exact ⟨rfl, Or.inl rfl⟩
    | none => exact ⟨rfl, Or.inr ⟨rfl, rfl⟩⟩

/-- A send whose provider call failed leaves the store as `GetOrCreate` left it. -/
theorem MessageService.deliver_client_error (D : ClientDeps) (c : Client) (now : Time)
    (st : Store) (phone : String) (payload : JSONValue) (build : Message → Message)
    (err : ClientError)
    (h : (MessageService.deliver D c now st phone payload build).result = .error (.client err)) :
    (MessageService.deliver D c now st phone payload build).store = (st.GetOrCreate phone).2
    ∧ (sendMessage D c payload).1 = .error err := by
  unfold MessageService.deliver at h ⊢
  rcases hget : st.GetOrCreate phone with ⟨r, st1⟩
  rw [hget] at h
  cases r with
  | error e => simp at h
  | ok k =>
    simp only at h ⊢
    cases hsend : (sendMessage D c payload).1 with
    | panic msg => rw [hsend] at h; simp at h
    | error e =>
      rw [hsend] at h
      simp only [GoResult.error.injEq, ServiceError.client.injEq] at h
      subst h
      exact ⟨rfl, rfl⟩
    | ok resp =>
      rw [hsend] at h
      simp only at h
      cases hm : resp.Messages with
      | nil => rw [hm] at h; simp at h
      | cons first rest =>
        rw [hm] at h
        simp only at h
        cases hc : resp.Contacts with
        | nil => rw [hc] at h; simp at h
        | cons contact others =>
          rw [hc] at h
          simp only at h
          split at h <;> simp at h

/-- A send that returned a record was acknowledged by the provider, and the record is the
one built from the acknowledgment and appended to the messages. -/
theorem MessageService.deliver_ok (D : ClientDeps) (c : Client) (now : Time)
    (st : Store) (phone : String) (payload : JSONValue) (build : Message → Message)
    (m : Message)
    (h : (MessageService.deliver D c now st phone payload build).result = .ok m) :
    ∃ ack first rest contact others,
      (sendMessage D c payload).1 = .ok ack
      ∧ ack.Messages = first :: rest ∧ ack.Contacts = contact :: others
      ∧ m = build
          { WhatsAppMessageID := first.ID, FromNumber := contact.Input, ToNumber := phone,
            Direction := "outbound", MessageType := "", Content := "", MediaURL := "",
            MediaMimeType := "", Status := MessageStatusSent, Timestamp := now,
            Metadata := [] }
      ∧ (MessageService.deliver D c now st phone payload build).store.messages
          = st.messages ++ [m]
      ∧ (MessageService.deliver D c now st phone payload build).sent = [payload] := by
  have hmsgs := (Store.GetOrCreate_store st phone).1
  unfold MessageService.deliver at h ⊢
  rcases hget : st.GetOrCreate phone with ⟨r, st1⟩
  rw [hget] at h hmsgs
  simp only at hmsgs
  cases r with
  | error e => simp at h
  | ok k =>
    simp only at h ⊢
    cases hsend : (sendMessage D c payload).1 with
    | panic msg => rw [hsend] at h; simp at h
    | error e => rw [hsend] at h; simp at h
    | ok resp =>
      rw [hsend] at h
      simp only at h ⊢
      cases hm : resp.Messages with
      | nil => rw [hm] at h; simp at h
      | cons first rest =>
        rw [hm] at h
        simp only at h ⊢
        cases hc : resp.Contacts with
        | nil => rw [hc] at h; simp at h
        | cons contact others =>
          rw [hc] at h
          simp only at h ⊢
          refine ⟨resp, first, rest, contact, others, rfl, hm, hc, ?_⟩
          cases hme : st1.messageErr with
          | some e => simp [Store.CreateMessage, hme] at h
          | none =>
            simp only [Store.CreateMessage, hme, GoResult.ok.injEq] at h ⊢
            subst h
            refine ⟨rfl, ?_, trivial⟩
            rw [← hmsgs]
            simp only [Store.UpdateLastMessage, Store.IncrementMessageCount]
            cases st1.contactErr <;> rfl

/-- The common part of the sends, for a `build` that keeps the direction, the status, the
recipient and the provider message id: after a failed provider call the store is the one
`GetOrCreate` left, and a returned record is the stored record of the acknowledgment. -/
theorem MessageService.deliver_persistence (D : ClientDeps) (c : Client) (now : Time)
    (st : Store) (phone : String) (payload : JSONValue) (build : Message → Message)
    (hb : ∀ m, (build m).Direction = m.Direction ∧ (build m).Status = m.Status
      ∧ (build m).ToNumber = m.ToNumber ∧ (build m).WhatsAppMessageID = m.WhatsAppMessageID) :
    (∀ err, (MessageService.deliver D c now st phone payload build).result
          = .error (.client err) →
        (MessageService.deliver D c now st phone payload build).store = (st.GetOrCreate phone).2
        ∧ (MessageService.deliver D c now st phone payload build).store.messages = st.messages
        ∧ ((MessageService.deliver D c now st phone payload build).store.contacts = st.contacts
           ∨ (st.contacts.find? (fun k => k.PhoneNumber == phone) = none
              ∧ (MessageService.deliver D c now st phone payload build).store.contacts
                  = st.contacts ++ [⟨phone, "", none, none, 0, 0⟩])))
    ∧ (∀ m, (MessageService.deliver D c now st phone payload build).result = .ok m →
        m.Direction = "outbound" ∧ m.Status = "sent" ∧ m.ToNumber = phone
        ∧ (∃ sentPayload ack first rest,
            (MessageService.deliver D c now st phone payload build).sent = [sentPayload]
            ∧ (sendMessage D c sentPayload).1 = .ok ack
            ∧ ack.Messages = first :: rest ∧ m.WhatsAppMessageID = first.ID)
        ∧ (MessageService.deliver D c now st phone payload build).store.messages
            = st.messages ++ [m]) := by
  constructor
  · intro err h
    have hs := (MessageService.deliver_client_error D c now st phone payload build err h).1
    rw [hs]
    exact ⟨rfl, Store.GetOrCreate_store st phone⟩
  · intro m h
    obtain ⟨ack, first, rest, contact, others, hsend, hm, _, hrec, hstore, hsent⟩ :=
      MessageService.deliver_ok D c now st phone payload build m h
    obtain ⟨h1, h2, h3, h4⟩ := hb
      { WhatsAppMessageID := first.ID, FromNumber := contact.Input, ToNumber := phone,
        Direction := "outbound", MessageType := "", Content := "", MediaURL := "",
        MediaMimeType := "", Status := MessageStatusSent, Timestamp := now,
        Metadata := [] }
    rw [← hrec] at h1 h2 h3 h4
    exact ⟨h1, h2, h3, ⟨payload, ack, first, rest, hsent, hsend, hm, h4⟩, hstore⟩

/-- C28 (as stated, refuted): a text send to a new recipient whose provider call fails with
a 500 has written to the local store: the contact table, empty before, holds the new
contact of the recipient afterwards. -/
theorem send_failure_no_write_counterexample :
    (MessageService.SendTextMessage sampleValidator sampleRejectingDeps sampleClient sampleNow
        sampleStore "15551234567" "hello").result
      = .error (.client (.NewWhatsAppError "WhatsApp API returned status 500"))
    ∧ sampleStore.contacts = []
    ∧ (MessageService.SendTextMessage sampleValidator sampleRejectingDeps sampleClient sampleNow
        sampleStore "15551234567" "hello").store.contacts
      = [⟨"15551234567", "", none, none, 0, 0⟩] := by
  exact ⟨rfl, rfl, rfl⟩

/-- C28 (amended): the message record is only written after the provider acknowledgment,
the contact record is not.  For every send (text, media, template) in which the provider
call fails, the store afterwards is the store that `GetOrCreate(phone)` alone leaves: no
message record is written and no existing contact is changed, but the contact of the
recipient has been created if it did not exist.  When the send returns a record, that
record has direction outbound, status sent, the requested recipient and the first provider
message id of the acknowledgment of the payload that was sent, and it is the one record
appended to the messages. -/
theorem send_persistence_after_provider_call (V : Validator) (D : ClientDeps) (c : Client)
    (now : Time) (st : Store)
    (phone content mediaURL caption mediaType templateName language : String)
    (params : List String) (out : SendOutcome)
    (hout : out = MessageService.SendTextMessage V D c now st phone content
      ∨ out = MessageService.SendMediaMessage V D c now st phone mediaURL caption mediaType
      ∨ out = MessageService.SendTemplateMessage V D c now st phone templateName language
          params) :
    (∀ err, out.result = .error (.client err) →
        out.store = (st.GetOrCreate phone).2
        ∧ out.store.messages = st.messages
        ∧ (out.store.contacts = st.contacts
           ∨ (st.contacts.find? (fun k => k.PhoneNumber == phone) = none
              ∧ out.store.contacts = st.contacts ++ [⟨phone, "", none, none, 0, 0⟩])))
    ∧ (∀ m, out.result = .ok m →
        m.Direction = "outbound" ∧ m.Status = "sent" ∧ m.ToNumber = phone
        ∧ (∃ sentPayload ack first rest,
            out.sent = [sentPayload]
            ∧ (sendMessage D c sentPayload).1 = .ok ack
            ∧ ack.Messages = first :: rest ∧ m.WhatsAppMessageID = first.ID)
        ∧ out.store.messages = st.messages ++ [m]) := by
  rcases hout with h | h | h
  · subst h
    unfold MessageService.SendTextMessage
    cases V.ValidatePhoneNumber phone with
    | some e => simp
    | none =>
      cases V.ValidateNotEmpty content "content" with
      | some e => simp
      | none =>
        exact MessageService.deliver_persistence D c now st phone _ _
          (fun m => ⟨rfl, rfl, rfl, rfl⟩)
  · subst h
    unfold MessageService.SendMediaMessage
    cases V.ValidatePhoneNumber phone with
    | some e => simp
    | none =>
      cases V.ValidateURL mediaURL with
      | some e => simp
      | none =>
        cases V.ValidateMessageType mediaType with
        | some e => simp
        | none =>
          exact MessageService.deliver_persistence D c now st phone _ _
            (fun m => ⟨rfl, rfl, rfl, rfl⟩)
  · subst h
    unfold MessageService.SendTemplateMessage
    cases V.ValidatePhoneNumber phone with
    | some e => simp
    | none =>
      exact MessageService.deliver_persistence D c now st phone _ _
        (fun m => ⟨rfl, rfl, rfl, rfl⟩)

/-- C28 (amended) at concrete sends: after the failed text send the messages are those of
before, and after the acknowledged text send the messages are extended by the record of
the send. -/
theorem send_persistence_after_provider_call_witness :
    (MessageService.SendTextMessage sampleValidator sampleRejectingDeps sampleClient sampleNow
        sampleStore "15551234567" "hello").store.messages = sampleStore.messages
    ∧ (MessageService.SendTextMessage sampleValidator (sampleAcceptingDeps sampleAck)
        sampleClient sampleNow sampleStore "15551234567" "hello").store.messages
      = sampleStore.messages ++ [sampleSentRecord] :=
  ⟨((send_persistence_after_provider_call sampleValidator sampleRejectingDeps sampleClient
      sampleNow sampleStore "15551234567" "hello" "" "" "" "" "" [] _ (Or.inl rfl)).1
      (.NewWhatsAppError "WhatsApp API returned status 500") rfl).2.1,
   ((send_persistence_after_provider_call sampleValidator (sampleAcceptingDeps sampleAck)
      sampleClient sampleNow sampleStore "15551234567" "hello" "" "" "" "" "" [] _
      (Or.inl rfl)).2 sampleSentRecord rfl).2.2.2.2⟩
